import Mathlib

/-!
# Conversation and delivery-state engine of `wp_web_app`

A shallow embedding of the backend message controller
(`backend/controllers/messageController.js`), of the payload ingestor
(`backend/services/PayloadProcessor.js`), of the command-line parser
(`backend/utils/parseWebhook.js`) and of the Mongoose models they use,
followed by theorems about the embedded functions.

Conventions of the embedding:

* a JavaScript string is the list of its UTF-16 code units (`JSString`);
* a `Date` is its integer number of milliseconds since the epoch;
* a collection is the list of its documents in insertion order, `findOne`
  returns the first document matching the filter;
* a handler is a function from the request and the state before to the HTTP
  response and the state after; `Date.now()` and `Math.random()` are inputs.
-/

namespace WpWebApp

/-! ## Strings -/

/-- A JavaScript string, as the list of its UTF-16 code units. -/
abbrev JSString := List Nat

/-- The code units of a string literal of the source (all literals of the
source are ASCII). -/
def str (s : String) : JSString := s.toList.map Char.toNat

/-- JavaScript `x < y` on two strings: lexicographic comparison of the code
units, a proper prefix being smaller. -/
def jsLt : JSString → JSString → Bool
  | [], [] => false
  | [], _ :: _ => true
  | _ :: _, [] => false
  | x :: xs, y :: ys => if x < y then true else if y < x then false else jsLt xs ys

/-- The array `[phone1, phone2].sort()`: the default comparator orders by
`jsLt`, and the sort is stable, so the two elements are swapped exactly when
the second is smaller than the first. -/
def sortPair (phone1 phone2 : JSString) : JSString × JSString :=
  if jsLt phone2 phone1 then (phone2, phone1) else (phone1, phone2)

/-- `generateConversationId` of `messageController.js` (lines 9-12):
`sorted[0] + "_" + sorted[1]` for `sorted = [phone1, phone2].sort()`. -/
def generateConversationId (phone1 phone2 : JSString) : JSString :=
  let sorted := sortPair phone1 phone2
  sorted.1 ++ str "_" ++ sorted.2

/-- The decimal text of an integer, as in a template literal. -/
def numberToString (n : Int) : JSString := str (toString n)

/-! ## Documents (`backend/models`) -/

/-- A document of the `User` model; `id` is the Mongo `_id`. -/
structure User where
  id : Nat
  name : JSString
  wa_id : JSString
deriving DecidableEq, Repr

/-- The `content` sub-document of a message; an absent path is `none`. -/
structure Content where
  body : Option JSString := none
  mediaUrl : Option JSString := none
  caption : Option JSString := none
  filename : Option JSString := none
  size : Option Nat := none
deriving DecidableEq, Repr

/-- An entry of `deletedBy`. -/
structure DeletedBy where
  userId : JSString
  deletedAt : Int
deriving DecidableEq, Repr

/-- A document of the `Message` model (`models/Message.js`), with the schema
defaults as field defaults. -/
structure Message where
  messageId : JSString
  wa_id : JSString
  fromNumber : JSString
  toNumber : JSString
  senderName : JSString
  messageType : JSString := str "text"
  content : Content := {}
  timestamp : Int
  status : JSString := str "sent"
  deliveredAt : Option Int := none
  readAt : Option Int := none
  isFromAPI : Bool := false
  conversationId : JSString
  replyTo : Option JSString := none
  isDeleted : Bool := false
  deletedBy : List DeletedBy := []
  deletedForEveryone : Bool := false
  deletedForEveryoneAt : Option Int := none
deriving DecidableEq, Repr

/-- A document of the `BlockedUser` model: `blockedBy` blocks `blockedUser`. -/
structure BlockedUser where
  blockedBy : JSString
  blockedUser : JSString
deriving DecidableEq, Repr

/-- An entry of `archivedBy`. -/
structure ArchivedBy where
  userId : JSString
  archivedAt : Int
deriving DecidableEq, Repr

/-- An entry of `mutedBy`; `mutedUntil` is absent for an indefinite mute. -/
structure MutedBy where
  userId : JSString
  mutedAt : Int
  mutedUntil : Option Int := none
deriving DecidableEq, Repr

/-- A document of the `Conversation` model (`models/Conversation.js`), with the
schema defaults as field defaults (`blockedBy`, which no handler writes, is
left out). -/
structure Conversation where
  conversationId : JSString
  participants : List JSString
  isArchived : Bool := false
  archivedBy : List ArchivedBy := []
  isMuted : Bool := false
  mutedBy : List MutedBy := []
  isBlocked : Bool := false
  lastActivity : Int
  createdBy : JSString
deriving DecidableEq, Repr

/-! ## Real-time events (`websocket/socket.js`) -/

/-- The events the controller emits, with their payloads. -/
inductive Event where
  | new_message (message : Message) (conversationId : JSString)
  | message_notification (sender : JSString) (message : Option JSString)
      (conversationId : JSString) (timestamp : Int)
  | message_status_update (messageId : JSString) (status : JSString) (timestamp : Int)
  | message_deleted_for_everyone (messageId : JSString) (conversationId : JSString)
deriving DecidableEq, Repr

/-- One `io.to(room).emit(event)`. -/
structure Emission where
  room : JSString
  event : Event
deriving DecidableEq, Repr

/-! ## State and responses -/

/-- The state the handlers run on: the collections, whether
`initializeSocket` has set the module variable `io`, and the log of the
events emitted so far. -/
structure State where
  users : List User := []
  messages : List Message := []
  blockedUsers : List BlockedUser := []
  io : Bool := true
  emitted : List Emission := []
  conversations : List Conversation := []
deriving DecidableEq, Repr

/-- The `pagination` object of a listing. -/
structure Pagination where
  page : Nat
  limit : Nat
  total : Nat
  pages : Nat
deriving DecidableEq, Repr

/-- The HTTP response of a handler: status code, the `success` and `message`
fields of the JSON body, and the payload (`data`, `messages`, `pagination`,
`forwardedTo`) when there is one. -/
structure Response where
  status : Nat
  success : Bool
  message : String := ""
  data : Option Message := none
  messages : List Message := []
  pagination : Option Pagination := none
  forwardedTo : Option Nat := none
deriving DecidableEq, Repr

/-- The body `res.status(code).json(\x7b success: false, message \x7d)`. -/
def Response.fail (code : Nat) (message : String) : Response :=
  { status := code, success := false, message := message }

/-! ## Collections -/

/-- `User.findById(id)`. -/
def User.findById (s : State) (id : Nat) : Option User :=
  s.users.find? (fun u => decide (u.id = id))

/-- `User.findOne(\x7b wa_id \x7d)`. -/
def User.findOne (s : State) (wa_id : JSString) : Option User :=
  s.users.find? (fun u => decide (u.wa_id = wa_id))

/-- `Message.findOne(\x7b messageId \x7d)`. -/
def Message.findOne (s : State) (messageId : JSString) : Option Message :=
  s.messages.find? (fun m => decide (m.messageId = messageId))

/-- `isUserBlocked` (lines 15-18): is there a `BlockedUser` document with
exactly this ordered pair. -/
def isUserBlocked (s : State) (blockedBy blockedUser : JSString) : Bool :=
  (s.blockedUsers.find? (fun b =>
    decide (b.blockedBy = blockedBy) && decide (b.blockedUser = blockedUser))).isSome

/-- The `enum` of `status` in the schema, also `validStatuses` of
`updateMessageStatus`. -/
def validStatuses : List JSString :=
  [str "sent", str "delivered", str "read", str "failed"]

/-- The `enum` of `messageType` in the schema. -/
def messageTypes : List JSString :=
  [str "text", str "image", str "document", str "audio", str "video", str "deleted"]

/-- Mongoose validation of a `Message` document against its schema: each
`required` string path is non-empty and each `enum` path holds a listed
value. -/
def Message.validate (m : Message) : Bool :=
  decide (m.messageId ≠ []) && decide (m.wa_id ≠ []) && decide (m.fromNumber ≠ []) &&
  decide (m.toNumber ≠ []) && decide (m.senderName ≠ []) &&
  decide (m.conversationId ≠ []) &&
  decide (m.messageType ∈ messageTypes) && decide (m.status ∈ validStatuses)

/-- `Message.create(doc)`: `none` when it throws, on a validation error or on
a duplicate key of the unique index on `messageId`; otherwise the document is
appended to the collection. -/
def Message.create (doc : Message) (s : State) : Option State :=
  if doc.validate = false then none
  else if (Message.findOne s doc.messageId).isSome then none
  else some { s with messages := s.messages ++ [doc] }

/-- Replace by `f x` the first element `x` that satisfies `p`. -/
def updateFirst {α : Type} (p : α → Bool) (f : α → α) : List α → List α
  | [] => []
  | x :: xs => if p x then f x :: xs else x :: updateFirst p f xs

/-- `doc.save()` of a document loaded by `Message.findOne`: `none` when
validation throws, otherwise the stored document is replaced by `doc` (no
handler changes `messageId`, so the stored document is the first with that
id). -/
def Message.save (doc : Message) (s : State) : Option State :=
  if doc.validate = false then none
  else
    some { s with
      messages := updateFirst (fun m => decide (m.messageId = doc.messageId))
        (fun _ => doc) s.messages }

/-- `Message.findOneAndUpdate(\x7b messageId \x7d, update)` and
`Message.findByIdAndUpdate(existing._id, update)` for the document found by
`findOne`: the update is applied to the first document with that id; update
validators are off, so no validation runs. -/
def Message.findOneAndUpdate (messageId : JSString) (update : Message → Message)
    (s : State) : State :=
  { s with
    messages := updateFirst (fun m => decide (m.messageId = messageId)) update s.messages }

/-- `io.to(room).emit(event)` for each listed emission, in order. -/
def emit (es : List Emission) (s : State) : State :=
  { s with emitted := s.emitted ++ es }

/-! ## `sendMessage` (lines 326-422) -/

/-- The request of `sendMessage`: the authenticated `req.userId`, whether
`validationResult(req)` holds errors, and the body fields. -/
structure SendMessageRequest where
  userId : Nat
  validationErrors : Bool := false
  toNumber : JSString
  message : JSString
  messageType : Option JSString := none
  replyTo : Option JSString := none
deriving DecidableEq, Repr

/-- `replyTo || null`: an absent or empty `replyTo` is stored as `null`. -/
def orNull (replyTo : Option JSString) : Option JSString :=
  match replyTo with
  | some r => if r = [] then none else some r
  | none => none

/-- The `messageDoc` of `sendMessage` (lines 367-387) for the sender
`currentUser`; the paths it does not set get the schema defaults. `now` is the
value of `Date.now()` and `new Date()`, `rnd` the text
`Math.random().toString(36).substr(2, 9)`. -/
def newMessageDoc (currentUser : User) (req : SendMessageRequest) (now : Int)
    (rnd : JSString) : Message :=
  { messageId := str "msg_" ++ numberToString now ++ str "_" ++ rnd
    wa_id := currentUser.wa_id
    fromNumber := currentUser.wa_id
    toNumber := req.toNumber
    senderName := currentUser.name
    messageType := req.messageType.getD (str "text")
    content := { body := some req.message }
    timestamp := now
    status := str "sent"
    isFromAPI := false
    conversationId := generateConversationId currentUser.wa_id req.toNumber
    replyTo := orNull req.replyTo }

/-- `sendMessage`, with `now` and `rnd` as in `newMessageDoc`. -/
def sendMessage (req : SendMessageRequest) (now : Int) (rnd : JSString) (s : State) :
    Response × State :=
  if req.validationErrors then (Response.fail 400 "Validation failed", s)
  else
    match User.findById s req.userId with
    | none => (Response.fail 404 "User not found", s)
    | some currentUser =>
      match User.findOne s req.toNumber with
      | none => (Response.fail 404 "Recipient not found", s)
      | some _ =>
        let isBlocked := isUserBlocked s currentUser.wa_id req.toNumber ||
          isUserBlocked s req.toNumber currentUser.wa_id
        if isBlocked then
          (Response.fail 403 "Cannot send message. User is blocked.", s)
        else
          let conversationId := generateConversationId currentUser.wa_id req.toNumber
          let messageDoc := newMessageDoc currentUser req now rnd
          match Message.create messageDoc s with
          | none => (Response.fail 500 "Server error while sending message", s)
          | some s1 =>
            if s1.io then
              ({ status := 201, success := true, message := "Message sent successfully",
                 data := some messageDoc },
               emit [⟨conversationId, Event.new_message messageDoc conversationId⟩,
                     ⟨str "user_" ++ req.toNumber,
                      Event.message_notification currentUser.name (some req.message)
                        conversationId messageDoc.timestamp⟩] s1)
            else (Response.fail 500 "Server error while sending message", s1)

/-! ## `updateMessageStatus` (lines 425-499) -/

/-- The `updateData` of `updateMessageStatus` applied to a stored document:
`status` is overwritten; `delivered` sets `deliveredAt`; `read` sets `readAt`
and, when the document read before the update had no `deliveredAt`, also
`deliveredAt`. The path `statusTimestamps.*` is not in the schema and is
dropped. -/
def statusUpdateData (status : JSString) (now : Int) (message : Message)
    (m : Message) : Message :=
  if status = str "delivered" then
    { m with status := status, deliveredAt := some now }
  else if status = str "read" then
    if message.deliveredAt.isNone then
      { m with status := status, readAt := some now, deliveredAt := some now }
    else { m with status := status, readAt := some now }
  else { m with status := status }

/-- `updateMessageStatus` with `req.params.messageId` and `req.body.status`. -/
def updateMessageStatus (messageId status : JSString) (now : Int) (s : State) :
    Response × State :=
  if status ∉ validStatuses then (Response.fail 400 "Invalid status value", s)
  else
    match Message.findOne s messageId with
    | none => (Response.fail 404 "Message not found", s)
    | some message =>
      let s1 := Message.findOneAndUpdate messageId (statusUpdateData status now message) s
      if s1.io then
        ({ status := 200, success := true,
           message := "Message status updated successfully", data := some message },
         emit [⟨message.conversationId,
                Event.message_status_update messageId status now⟩] s1)
      else (Response.fail 500 "Server error while updating message status", s1)

/-! ## `deleteMessage` (lines 502-600) -/

/-- The content every deleted-for-everyone message gets. -/
def deletedContent : Content := { body := some (str "This message was deleted") }

/-- The 7 minutes of the delete-for-everyone window, in milliseconds:
`(now - messageTime) / (1000 * 60) > 7` holds exactly when the difference in
milliseconds exceeds this. -/
def deleteWindowMs : Int := 7 * (1000 * 60)

/-- `deleteMessage` with `req.params.messageId` and `req.body.deleteForEveryone`
(default `false`). -/
def deleteMessage (userId : Nat) (messageId : JSString) (deleteForEveryone : Bool)
    (now : Int) (s : State) : Response × State :=
  match User.findById s userId with
  | none => (Response.fail 404 "User not found", s)
  | some currentUser =>
    match Message.findOne s messageId with
    | none => (Response.fail 404 "Message not found", s)
    | some message =>
      let canDelete := decide (message.fromNumber = currentUser.wa_id) ||
        decide (message.toNumber = currentUser.wa_id)
      if !canDelete then (Response.fail 403 "Permission denied", s)
      else if deleteForEveryone then
        if message.fromNumber ≠ currentUser.wa_id then
          (Response.fail 403 "Only sender can delete message for everyone", s)
        else if now - message.timestamp > deleteWindowMs then
          (Response.fail 400 "Message can only be deleted for everyone within 7 minutes", s)
        else
          let message1 : Message :=
            { message with
              messageType := str "deleted"
              content := deletedContent
              deletedForEveryone := true
              deletedForEveryoneAt := some now }
          match Message.save message1 s with
          | none => (Response.fail 500 "Server error while deleting message", s)
          | some s1 =>
            if s1.io then
              ({ status := 200, success := true, message := "Message deleted for everyone" },
               emit [⟨message.conversationId,
                      Event.message_deleted_for_everyone messageId message.conversationId⟩] s1)
            else (Response.fail 500 "Server error while deleting message", s1)
      else
        let alreadyDeleted := message.deletedBy.any (fun d => decide (d.userId = currentUser.wa_id))
        if alreadyDeleted then
          ({ status := 200, success := true, message := "Message deleted for you" }, s)
        else
          let message1 : Message :=
            { message with
              deletedBy := message.deletedBy ++ [⟨currentUser.wa_id, now⟩] }
          match Message.save message1 s with
          | none => (Response.fail 500 "Server error while deleting message", s)
          | some s1 =>
            ({ status := 200, success := true, message := "Message deleted for you" }, s1)

/-! ## `getMessages` (lines 241-323) -/

/-- The filter of lines 278-290 for the viewer `wa_id`: a message deleted for
everyone is kept, a message the viewer deleted for themself is dropped. -/
def visibleTo (wa_id : JSString) (msg : Message) : Bool :=
  if msg.deletedForEveryone then true
  else if msg.deletedBy.any (fun d => decide (d.userId = wa_id)) then false
  else true

/-- The query of lines 271-275: the documents of the conversation sorted by
`timestamp` descending (documents with equal timestamps stay in insertion
order), after `skip((page - 1) * limit)` and `limit(limit)`. -/
def conversationPage (s : State) (conversationId : JSString) (page limit : Nat) :
    List Message :=
  (((s.messages.filter (fun m => decide (m.conversationId = conversationId))).insertionSort
    (fun a b => b.timestamp ≤ a.timestamp)).drop ((page - 1) * limit)).take limit

/-- The `updateMany` of lines 295-302 on one document. -/
def markRead (conversationId wa_id : JSString) (m : Message) : Message :=
  if m.conversationId = conversationId ∧ m.toNumber = wa_id ∧
      (m.status = str "sent" ∨ m.status = str "delivered") then
    { m with status := str "read" }
  else m

/-- `getMessages`. `queryPage` and `queryLimit` are `parseInt(req.query.page)`
and `parseInt(req.query.limit)`, with `0` for a value that `||` replaces by the
default (absent, not a number, or zero); negative values are not modelled. -/
def getMessages (userId : Nat) (conversationId : JSString) (queryPage queryLimit : Nat)
    (s : State) : Response × State :=
  let page := if queryPage = 0 then 1 else queryPage
  let limit := if queryLimit = 0 then 50 else queryLimit
  match User.findById s userId with
  | none => (Response.fail 404 "User not found", s)
  | some currentUser =>
    let hasAccess := s.messages.find? (fun m => decide (m.conversationId = conversationId) &&
      (decide (m.fromNumber = currentUser.wa_id) || decide (m.toNumber = currentUser.wa_id)))
    if hasAccess.isNone then (Response.fail 403 "Access denied to this conversation", s)
    else
      let messages := conversationPage s conversationId page limit
      let filteredMessages := messages.filter (visibleTo currentUser.wa_id)
      let total := (s.messages.filter (fun m => decide (m.conversationId = conversationId))).length
      ({ status := 200, success := true, messages := filteredMessages.reverse,
         pagination := some ⟨page, limit, total, (total + limit - 1) / limit⟩ },
       { s with messages := s.messages.map (markRead conversationId currentUser.wa_id) })

/-! ## The ingestor (`services/PayloadProcessor.js`) -/

/-- The `generateConversationId` of `PayloadProcessor.js` (lines 12-15). -/
def PayloadProcessor.generateConversationId (phone1 phone2 : JSString) : JSString :=
  let sorted := sortPair phone1 phone2
  sorted.1 ++ str "_" ++ sorted.2

/-- The largest time value of a `Date`, in milliseconds; beyond it, in either
direction, a `Date` is invalid. -/
def maxTime : Int := 8640000000000000

/-- The time value of `new Date(parseInt(timestamp) * 1000)`, in milliseconds,
for `seconds = parseInt(timestamp)` (`none` when that is not a number); `none`
is the Invalid Date, which a timestamp that is not a number gives and so does
a product outside the range of a `Date`. Within the range the product is
exact. -/
def dateOfSeconds (seconds : Option Int) : Option Int :=
  match seconds with
  | none => none
  | some t => if -maxTime ≤ t * 1000 ∧ t * 1000 ≤ maxTime then some (t * 1000) else none

/-- One entry of `value.messages` of a webhook payload: `id`, `from` (here
`sender`), `type`, `text?.body`, and `parseInt(timestamp)` (`none` when it is
not a number). -/
structure MessageData where
  id : JSString
  sender : JSString
  type : Option JSString := none
  textBody : Option JSString := none
  timestamp : Option Int
deriving DecidableEq, Repr

/-- One entry of `value.statuses` of a webhook payload. -/
structure StatusData where
  id : JSString
  status : JSString
deriving DecidableEq, Repr

/-- The outcome of an ingestor method: whether it threw, and the state it
left. -/
structure Run where
  raised : Bool
  state : State
deriving DecidableEq, Repr

/-- `x || dflt` on an optional string: the default replaces an absent or
empty value. -/
def orDefault (x : Option JSString) (dflt : JSString) : JSString :=
  match x with
  | some v => if v = [] then dflt else v
  | none => dflt

/-- `PayloadProcessor.processMessage` (lines 201-247); `display_phone_number`
is `metadata?.display_phone_number`. A timestamp that gives an Invalid Date
makes `Message.create` throw. -/
def PayloadProcessor.processMessage (messageData : MessageData)
    (display_phone_number : Option JSString) (s : State) : Run :=
  match User.findOne s messageData.sender with
  | none => ⟨false, s⟩
  | some sender =>
    let businessNumber := orDefault display_phone_number (str "918329446654")
    let conversationId :=
      PayloadProcessor.generateConversationId messageData.sender businessNumber
    match Message.findOne s messageData.id with
    | some _ => ⟨false, s⟩
    | none =>
      match dateOfSeconds messageData.timestamp with
      | none => ⟨true, s⟩
      | some t =>
        let messageDoc : Message :=
          { messageId := messageData.id
            wa_id := messageData.sender
            fromNumber := messageData.sender
            toNumber := businessNumber
            senderName := sender.name
            messageType := orDefault messageData.type (str "text")
            content := { body := some (orDefault messageData.textBody []) }
            timestamp := t
            status := str "delivered"
            isFromAPI := false
            conversationId := conversationId }
        match Message.create messageDoc s with
        | none => ⟨true, s⟩
        | some s1 => ⟨false, s1⟩

/-- `PayloadProcessor.processStatusUpdate` (lines 250-267): when a message
with the id exists its `status` is overwritten (`lastUpdated` is not a path of
the schema and is dropped). -/
def PayloadProcessor.processStatusUpdate (statusData : StatusData) (s : State) : Run :=
  match Message.findOne s statusData.id with
  | some _ =>
    ⟨false, Message.findOneAndUpdate statusData.id
      (fun m => { m with status := statusData.status }) s⟩
  | none => ⟨false, s⟩

/-! ## The command-line parser (`utils/parseWebhook.js`) -/

/-- One entry of `messages` as `WebhookParser.processMessage` reads it: `id`,
`from` (here `sender`), `type`, `text?.body`, the `link`, `caption` and
`filename` of `message[message.type]`, `context?.id`, `parseInt(timestamp)`
(`none` when it is not a number), and the text `JSON.stringify(message)`. -/
structure WebhookMessage where
  id : JSString
  sender : JSString
  type : Option JSString := none
  textBody : Option JSString := none
  link : Option JSString := none
  caption : Option JSString := none
  filename : Option JSString := none
  contextId : Option JSString := none
  timestamp : Option Int
  json : JSString := []
deriving DecidableEq, Repr

/-- `WebhookParser.generateConversationId` (lines 185-189). -/
def WebhookParser.generateConversationId (phone1 phone2 : JSString) : JSString :=
  let sorted := sortPair phone1 phone2
  sorted.1 ++ str "_" ++ sorted.2

/-- `WebhookParser.extractMessageContent` (lines 163-183). -/
def WebhookParser.extractMessageContent (message : WebhookMessage) : Content :=
  if message.type = some (str "text") then
    { body := some (orDefault message.textBody []) }
  else if message.type = some (str "image") ∨ message.type = some (str "document") ∨
      message.type = some (str "audio") ∨ message.type = some (str "video") then
    { mediaUrl := some (orDefault message.link [])
      caption := some (orDefault message.caption [])
      filename := some (orDefault message.filename []) }
  else { body := some message.json }

/-- `x || y` on two optional strings: the first when it is present and not
empty, otherwise the second. -/
def orElse (x y : Option JSString) : Option JSString :=
  match x with
  | some v => if v = [] then y else some v
  | none => y

/-- `WebhookParser.processMessage` (lines 68-111); `display_phone_number` is
`metadata?.display_phone_number` and `env` the environment variable
`WHATSAPP_DISPLAY_PHONE_NUMBER`. When neither gives a recipient, or the
timestamp gives an Invalid Date, `Message.create` rejects the document. -/
def WebhookParser.processMessage (message : WebhookMessage)
    (display_phone_number env : Option JSString) (s : State) : Run :=
  let fromNumber := message.sender
  let senderName :=
    match User.findOne s fromNumber with
    | some senderUser => if senderUser.name = [] then str "Unknown" else senderUser.name
    | none => str "Unknown"
  match Message.findOne s message.id with
  | some _ => ⟨false, s⟩
  | none =>
    match orElse display_phone_number env, dateOfSeconds message.timestamp with
    | some toNumber, some t =>
      let isFromAPI := decide (fromNumber = toNumber)
      let messageDoc : Message :=
        { messageId := message.id
          wa_id := if isFromAPI then toNumber else fromNumber
          fromNumber := fromNumber
          toNumber := toNumber
          senderName := senderName
          messageType := orDefault message.type (str "text")
          content := WebhookParser.extractMessageContent message
          timestamp := t
          status := str "sent"
          isFromAPI := isFromAPI
          conversationId := WebhookParser.generateConversationId fromNumber toNumber
          replyTo := orNull message.contextId }
      match Message.create messageDoc s with
      | none => ⟨true, s⟩
      | some s1 => ⟨false, s1⟩
    | _, _ => ⟨true, s⟩

/-! ## `forwardMessage` (lines 1091-1186) -/

/-- One entry of `toNumbers`, with the values `Date.now()` and
`Math.random().toString(36).substr(2, 9)` take in its iteration of the loop. -/
structure ForwardTarget where
  toNumber : JSString
  now : Int
  rnd : JSString
deriving DecidableEq, Repr

/-- The document `forwardMessage` creates for one target (lines 1139-1151). -/
def forwardedDoc (currentUser : User) (originalMessage : Message) (t : ForwardTarget) :
    Message :=
  { messageId := str "msg_" ++ numberToString t.now ++ str "_" ++ t.rnd
    wa_id := currentUser.wa_id
    fromNumber := currentUser.wa_id
    toNumber := t.toNumber
    senderName := currentUser.name
    messageType := originalMessage.messageType
    content := originalMessage.content
    timestamp := t.now
    status := str "sent"
    conversationId := generateConversationId currentUser.wa_id t.toNumber
    isFromAPI := false }

/-- The loop of lines 1126-1170, `n` being `forwardedMessages.length` so far:
the count at the end, or `none` when `Message.create` or `getIO` throws, and
the state left. -/
def forwardLoop (currentUser : User) (originalMessage : Message) :
    List ForwardTarget → Nat → State → Option Nat × State
  | [], n, s => (some n, s)
  | t :: rest, n, s =>
    match User.findOne s t.toNumber with
    | none => forwardLoop currentUser originalMessage rest n s
    | some _ =>
      let isBlocked := isUserBlocked s currentUser.wa_id t.toNumber ||
        isUserBlocked s t.toNumber currentUser.wa_id
      if isBlocked then forwardLoop currentUser originalMessage rest n s
      else
        let forwardedMessage := forwardedDoc currentUser originalMessage t
        match Message.create forwardedMessage s with
        | none => (none, s)
        | some s1 =>
          if s1.io then
            forwardLoop currentUser originalMessage rest (n + 1)
              (emit [⟨forwardedMessage.conversationId,
                      Event.new_message forwardedMessage forwardedMessage.conversationId⟩,
                     ⟨str "user_" ++ t.toNumber,
                      Event.message_notification currentUser.name forwardedMessage.content.body
                        forwardedMessage.conversationId forwardedMessage.timestamp⟩] s1)
          else (none, s1)

/-- `forwardMessage` with `req.body.messageId` and `req.body.toNumbers`. -/
def forwardMessage (userId : Nat) (messageId : JSString) (toNumbers : List ForwardTarget)
    (s : State) : Response × State :=
  match User.findById s userId with
  | none => (Response.fail 404 "User not found", s)
  | some currentUser =>
    match Message.findOne s messageId with
    | none => (Response.fail 404 "Message not found", s)
    | some originalMessage =>
      let hasAccess := decide (originalMessage.fromNumber = currentUser.wa_id) ||
        decide (originalMessage.toNumber = currentUser.wa_id)
      if !hasAccess then (Response.fail 403 "Access denied", s)
      else
        match forwardLoop currentUser originalMessage toNumbers 0 s with
        | (none, s1) => (Response.fail 500 "Server error while forwarding message", s1)
        | (some n, s1) =>
          ({ status := 200, success := true,
             message := "Message forwarded to " ++ toString n ++ " recipients",
             forwardedTo := some n }, s1)

/-- A target the loop does not skip: it names an existing user who is not
blocked in either direction with the requester. -/
def eligible (s : State) (currentUser : User) (t : ForwardTarget) : Bool :=
  (User.findOne s t.toNumber).isSome &&
    !(isUserBlocked s currentUser.wa_id t.toNumber ||
      isUserBlocked s t.toNumber currentUser.wa_id)

/-! ## Conversations (lines 20-38, 786-904) -/

/-- `conversationId.split('_')`, for the separator `sep`. -/
def splitOn (sep : Nat) : JSString → List JSString
  | [] => [[]]
  | c :: cs =>
    if c = sep then [] :: splitOn sep cs
    else
      match splitOn sep cs with
      | [] => [[c]]
      | h :: t => (c :: h) :: t

/-- `Conversation.findOne(\x7b conversationId \x7d)`. -/
def Conversation.findOne (s : State) (conversationId : JSString) : Option Conversation :=
  s.conversations.find? (fun c => decide (c.conversationId = conversationId))

/-- Mongoose validation of a `Conversation` document: the `required` paths
`conversationId`, `createdBy` and each element of `participants` are
non-empty strings. -/
def Conversation.validate (c : Conversation) : Bool :=
  decide (c.conversationId ≠ []) && decide (c.createdBy ≠ []) &&
    c.participants.all (fun p => decide (p ≠ []))

/-- `Conversation.create(doc)`: `none` when it throws, on a validation error or
on a duplicate key of the unique index on `conversationId`. -/
def Conversation.create (doc : Conversation) (s : State) : Option State :=
  if doc.validate = false then none
  else if (Conversation.findOne s doc.conversationId).isSome then none
  else some { s with conversations := s.conversations ++ [doc] }

/-- `conversation.save()` of a document loaded by `Conversation.findOne`:
`none` when validation throws, otherwise the stored document is replaced. -/
def Conversation.save (doc : Conversation) (s : State) : Option State :=
  if doc.validate = false then none
  else
    some { s with
      conversations := updateFirst (fun c => decide (c.conversationId = doc.conversationId))
        (fun _ => doc) s.conversations }

/-- `getOrCreateConversation` (lines 21-38): the conversation and the state
left, or `none` when `create` or `save` throws (the state is then unchanged). -/
def getOrCreateConversation (conversationId : JSString) (participants : List JSString)
    (createdBy : JSString) (now : Int) (s : State) : Option (Conversation × State) :=
  match Conversation.findOne s conversationId with
  | none =>
    let conversation : Conversation :=
      { conversationId := conversationId, participants := participants,
        createdBy := createdBy, lastActivity := now }
    (Conversation.create conversation s).map (fun s1 => (conversation, s1))
  | some conversation =>
    let conversation1 : Conversation := { conversation with lastActivity := now }
    (Conversation.save conversation1 s).map (fun s1 => (conversation1, s1))

/-- The `archivedBy` list `archiveConversation` leaves (lines 807-822). -/
def archiveEntries (archive : Bool) (wa_id : JSString) (now : Int)
    (archivedBy : List ArchivedBy) : List ArchivedBy :=
  if archive then
    if archivedBy.any (fun a => decide (a.userId = wa_id)) then archivedBy
    else archivedBy ++ [⟨wa_id, now⟩]
  else archivedBy.filter (fun a => decide (a.userId ≠ wa_id))

/-- `archiveConversation` with `req.params.conversationId` and
`req.body.archive` (default `true`). -/
def archiveConversation (userId : Nat) (conversationId : JSString) (archive : Bool)
    (now : Int) (s : State) : Response × State :=
  match User.findById s userId with
  | none => (Response.fail 404 "User not found", s)
  | some currentUser =>
    let participants := splitOn 95 conversationId
    match getOrCreateConversation conversationId participants currentUser.wa_id now s with
    | none => (Response.fail 500 "Server error while archiving conversation", s)
    | some (conversation, s1) =>
      let archivedBy := archiveEntries archive currentUser.wa_id now conversation.archivedBy
      let conversation1 : Conversation :=
        { conversation with archivedBy := archivedBy, isArchived := decide (archivedBy.length > 0) }
      match Conversation.save conversation1 s1 with
      | none => (Response.fail 500 "Server error while archiving conversation", s1)
      | some s2 =>
        ({ status := 200, success := true,
           message := if archive then "Conversation archived successfully"
             else "Conversation unarchived successfully" }, s2)

/-- The `mutedBy` list `muteConversation` leaves (lines 864-886); `duration`
is `req.body.duration`, absent or zero for an indefinite mute. -/
def muteEntries (mute : Bool) (duration : Option Int) (wa_id : JSString) (now : Int)
    (mutedBy : List MutedBy) : List MutedBy :=
  if mute then
    if mutedBy.any (fun m => decide (m.userId = wa_id)) then mutedBy
    else
      match duration with
      | some d => if d = 0 then mutedBy ++ [⟨wa_id, now, none⟩]
        else mutedBy ++ [⟨wa_id, now, some (now + d)⟩]
      | none => mutedBy ++ [⟨wa_id, now, none⟩]
  else mutedBy.filter (fun m => decide (m.userId ≠ wa_id))

/-- `muteConversation` with `req.params.conversationId`, `req.body.mute`
(default `true`) and `req.body.duration` (default `null`). -/
def muteConversation (userId : Nat) (conversationId : JSString) (mute : Bool)
    (duration : Option Int) (now : Int) (s : State) : Response × State :=
  match User.findById s userId with
  | none => (Response.fail 404 "User not found", s)
  | some currentUser =>
    let participants := splitOn 95 conversationId
    match getOrCreateConversation conversationId participants currentUser.wa_id now s with
    | none => (Response.fail 500 "Server error while muting conversation", s)
    | some (conversation, s1) =>
      let mutedBy := muteEntries mute duration currentUser.wa_id now conversation.mutedBy
      let conversation1 : Conversation :=
        { conversation with mutedBy := mutedBy, isMuted := decide (mutedBy.length > 0) }
      match Conversation.save conversation1 s1 with
      | none => (Response.fail 500 "Server error while muting conversation", s1)
      | some s2 =>
        ({ status := 200, success := true,
           message := if mute then "Conversation muted successfully"
             else "Conversation unmuted successfully" }, s2)

/-! ## The client (`src/utils/conversation.js`) -/

/-- The client's `generateConversationId` (lines 5-8). -/
def Client.generateConversationId (phone1 phone2 : JSString) : JSString :=
  let sorted := sortPair phone1 phone2
  sorted.1 ++ str "_" ++ sorted.2

/-- The client's `getOtherParticipant` (lines 13-16); an element the
destructuring does not find is `none`. -/
def Client.getOtherParticipant (conversationId currentUserPhone : JSString) :
    Option JSString :=
  let parts := splitOn 95 conversationId
  let phone1 := parts[0]?
  let phone2 := parts[1]?
  if phone1 = some currentUserPhone then phone2 else phone1

/-- The client's `hasConversationAccess` (lines 21-24). -/
def Client.hasConversationAccess (conversationId userPhone : JSString) : Bool :=
  let parts := splitOn 95 conversationId
  let phone1 := parts[0]?
  let phone2 := parts[1]?
  decide (phone1 = some userPhone) || decide (phone2 = some userPhone)

/-! ## `blockUser` (lines 907-960) -/

/-- `BlockedUser.findOne(\x7b blockedBy, blockedUser \x7d)`. -/
def BlockedUser.findOne (s : State) (blockedBy blockedUser : JSString) : Option BlockedUser :=
  s.blockedUsers.find? (fun b =>
    decide (b.blockedBy = blockedBy) && decide (b.blockedUser = blockedUser))

/-- Mongoose validation of a `BlockedUser` document: both `required` strings
are non-empty. -/
def BlockedUser.validate (b : BlockedUser) : Bool :=
  decide (b.blockedBy ≠ []) && decide (b.blockedUser ≠ [])

/-- `BlockedUser.create(doc)`: `none` when it throws, on a validation error or
on a duplicate key of the unique compound index; otherwise the document is
appended to the collection. -/
def BlockedUser.create (doc : BlockedUser) (s : State) : Option State :=
  if doc.validate = false then none
  else if (BlockedUser.findOne s doc.blockedBy doc.blockedUser).isSome then none
  else some { s with blockedUsers := s.blockedUsers ++ [doc] }

/-- `blockUser` with the authenticated `req.userId` (here `reqUserId`) and
`req.body.userId`. -/
def blockUser (reqUserId : Nat) (userId : JSString) (s : State) : Response × State :=
  match User.findById s reqUserId with
  | none => (Response.fail 404 "User not found", s)
  | some currentUser =>
    match User.findOne s userId with
    | none => (Response.fail 404 "User to block not found", s)
    | some _ =>
      match BlockedUser.findOne s currentUser.wa_id userId with
      | some _ => (Response.fail 400 "User is already blocked", s)
      | none =>
        match BlockedUser.create ⟨currentUser.wa_id, userId⟩ s with
        | none => (Response.fail 500 "Server error while blocking user", s)
        | some s1 =>
          ({ status := 200, success := true, message := "User blocked successfully" }, s1)

/-! ## `getArchivedConversations` (lines 133-238) -/

/-- One element of `conversations` in the answer of `getArchivedConversations`;
`user` is the other participant's document, `null` when there is none. -/
structure ConversationDetail where
  conversationId : JSString
  user : Option User
  lastMessage : JSString
  lastMessageTime : Int
  lastMessageType : JSString
  lastMessageStatus : JSString
  unreadCount : Nat
  isArchived : Bool
  archivedAt : Option Int
  isMuted : Bool
deriving DecidableEq, Repr

/-- The answer of `getArchivedConversations`. -/
structure ConversationsResponse where
  status : Nat
  success : Bool
  message : String := ""
  conversations : List ConversationDetail := []
deriving DecidableEq, Repr

/-- The `$and` of lines 178-186 and 194-202: the viewer `wa_id` has no entry
in `deletedBy`, or `deletedBy` is empty (the path always exists here). -/
def notDeletedBy (wa_id : JSString) (m : Message) : Bool :=
  !(m.deletedBy.any (fun d => decide (d.userId = wa_id))) || decide (m.deletedBy.length = 0)

/-- The filter of `Conversation.find` in lines 145-157: the viewer is among the
participants, and either the conversation is archived with an entry of the
viewer, or it is archived at all. -/
def archivedFilter (wa_id : JSString) (c : Conversation) : Bool :=
  decide (wa_id ∈ c.participants) &&
  ((c.isArchived && c.archivedBy.any (fun e => decide (e.userId = wa_id))) || c.isArchived)

/-- The other participant as lines 170-172 find it: the document of the first
participant that differs from the viewer; when no participant differs the
lookup is for `undefined` and finds nothing. -/
def otherUser (s : State) (currentUser : User) (conv : Conversation) : Option User :=
  match conv.participants.find? (fun p => decide (p ≠ currentUser.wa_id)) with
  | some otherParticipantId => User.findOne s otherParticipantId
  | none => none

/-- The body of the `map` in lines 168-222 for one conversation. -/
def conversationDetail (s : State) (currentUser : User) (conv : Conversation) :
    ConversationDetail :=
  let lastMessage :=
    ((s.messages.filter (fun m => decide (m.conversationId = conv.conversationId) &&
        notDeletedBy currentUser.wa_id m)).insertionSort
      (fun a b => b.timestamp ≤ a.timestamp)).head?
  let unreadCount :=
    (s.messages.filter (fun m => decide (m.conversationId = conv.conversationId) &&
      decide (m.toNumber = currentUser.wa_id) &&
      decide (m.status ∈ [str "sent", str "delivered"]) &&
      notDeletedBy currentUser.wa_id m)).length
  let archivedEntry := conv.archivedBy.find? (fun e => decide (e.userId = currentUser.wa_id))
  let mutedEntry := conv.mutedBy.find? (fun e => decide (e.userId = currentUser.wa_id))
  { conversationId := conv.conversationId
    user := otherUser s currentUser conv
    lastMessage := orDefault (lastMessage.bind (fun m => m.content.body)) []
    lastMessageTime := (lastMessage.map (fun m => m.timestamp)).getD conv.lastActivity
    lastMessageType := orDefault (lastMessage.map (fun m => m.messageType)) (str "text")
    lastMessageStatus := orDefault (lastMessage.map (fun m => m.status)) (str "sent")
    unreadCount := unreadCount
    isArchived := true
    archivedAt := archivedEntry.map (fun e => e.archivedAt)
    isMuted := mutedEntry.isSome }

/-- `getArchivedConversations` for the authenticated `req.userId`; the
conversations come sorted by `lastActivity` descending (equal values stay in
insertion order). The handler writes nothing. -/
def getArchivedConversations (userId : Nat) (s : State) : ConversationsResponse :=
  match User.findById s userId with
  | none => { status := 404, success := false, message := "User not found" }
  | some currentUser =>
    let archivedConversations :=
      (s.conversations.filter (archivedFilter currentUser.wa_id)).insertionSort
        (fun a b => b.lastActivity ≤ a.lastActivity)
    if archivedConversations.length = 0 then { status := 200, success := true }
    else
      let conversationDetails := archivedConversations.map (conversationDetail s currentUser)
      { status := 200, success := true,
        conversations := conversationDetails.filter (fun conv => conv.user.isSome) }

/-! ## `searchMessages` (lines 603-670) -/

/-- What the regular-expression engine of the database answers where this
development does not model it: whether a pattern compiles, and whether it
matches somewhere in a text (with the option `i`). -/
structure Engine where
  compiles : JSString → Bool
  test : JSString → JSString → Bool

/-- The characters with a special meaning in a regular expression:
`\ ^ $ . | ? * + ( ) [ ] \x7b \x7d`. -/
def metacharacters : List Nat := [92, 94, 36, 46, 124, 63, 42, 43, 40, 41, 91, 93, 123, 125]

/-- A code unit of the ASCII range. -/
def isAscii (c : Nat) : Bool := decide (c < 128)

/-- The patterns modelled here: printable ASCII characters that are either the
dot or no metacharacter. -/
def inFragment (pattern : JSString) : Bool :=
  pattern.all (fun p => decide (32 ≤ p) && decide (p < 127) &&
    (decide (p = 46) || decide (p ∉ metacharacters)))

/-- The lower-case form of an ASCII capital; every other code unit is kept. -/
def foldCase (c : Nat) : Nat := if 65 ≤ c ∧ c ≤ 90 then c + 32 else c

/-- One pattern character of the fragment against one character of the text,
with the option `i`: the dot matches everything but the line feed, any other
character matches itself and its other case. -/
def atomMatches (p c : Nat) : Bool :=
  if p = 46 then decide (c ≠ 10) else decide (foldCase p = foldCase c)

/-- The pattern matches at the start of the text. -/
def matchHere : JSString → JSString → Bool
  | [], _ => true
  | _ :: _, [] => false
  | p :: ps, c :: cs => atomMatches p c && matchHere ps cs

/-- The pattern matches somewhere in the text: a regular expression is not
anchored. -/
def matchAnywhere (pattern : JSString) : JSString → Bool
  | [] => matchHere pattern []
  | c :: cs => matchHere pattern (c :: cs) || matchAnywhere pattern cs

/-- The operator `$regex: pattern, $options: 'i'` on a string: computed here
for a pattern of the fragment on an ASCII text, asked from the engine
otherwise. -/
def regexMatch (engine : Engine) (pattern body : JSString) : Bool :=
  if inFragment pattern && body.all isAscii then matchAnywhere pattern body
  else engine.test pattern body

/-- Whether the database accepts the pattern; every pattern of the fragment is
a valid regular expression. -/
def regexCompiles (engine : Engine) (pattern : JSString) : Bool :=
  inFragment pattern || engine.compiles pattern

/-- The `searchFilter` of lines 624-640 on one document; a document without
`content.body` does not match, an absent or empty `conversationId` adds no
condition. -/
def searchFilter (engine : Engine) (wa_id query : JSString) (conversationId : Option JSString)
    (m : Message) : Bool :=
  (decide (m.fromNumber = wa_id) || decide (m.toNumber = wa_id)) &&
  (match m.content.body with
   | some body => regexMatch engine query body
   | none => false) &&
  (match orNull conversationId with
   | some c => decide (m.conversationId = c)
   | none => true)

/-- The page `page` of a list sorted by `timestamp` descending. -/
def pageOf (found : List Message) (page limit : Nat) : List Message :=
  ((found.insertionSort (fun a b => b.timestamp ≤ a.timestamp)).drop
    ((page - 1) * limit)).take limit

/-- `searchMessages` with `req.query.query` (empty when absent) and
`req.query.conversationId`; `queryPage` and `queryLimit` are as in
`getMessages`, the default limit being 20. A pattern the database rejects makes
the query throw. The `query` field of the answer is left out. The handler
writes nothing. -/
def searchMessages (engine : Engine) (userId : Nat) (query : JSString)
    (conversationId : Option JSString) (queryPage queryLimit : Nat) (s : State) : Response :=
  let page := if queryPage = 0 then 1 else queryPage
  let limit := if queryLimit = 0 then 20 else queryLimit
  if query = [] then Response.fail 400 "Search query is required"
  else
    match User.findById s userId with
    | none => Response.fail 404 "User not found"
    | some currentUser =>
      if regexCompiles engine query = false then
        Response.fail 500 "Server error while searching messages"
      else
        let found := s.messages.filter (searchFilter engine currentUser.wa_id query conversationId)
        let total := found.length
        { status := 200, success := true, messages := pageOf found page limit,
          pagination := some ⟨page, limit, total, (total + limit - 1) / limit⟩ }

/-- Specification side of `searchMessages`: the text `body` contains `query`
as a literal substring, the case of ASCII letters ignored. -/
def containsIgnoreCase (query body : JSString) : Bool :=
  decide ((query.map foldCase) <:+: (body.map foldCase))

/-- Specification side of `searchMessages`: the viewer is sender or recipient,
the conversation is the given one when one is given, and the body contains the
query. -/
def searchSpec (wa_id query : JSString) (conversationId : Option JSString) (m : Message) :
    Bool :=
  (decide (m.fromNumber = wa_id) || decide (m.toNumber = wa_id)) &&
  (match m.content.body with
   | some body => containsIgnoreCase query body
   | none => false) &&
  (match orNull conversationId with
   | some c => decide (m.conversationId = c)
   | none => true)

/-- A query without regular-expression syntax: printable ASCII characters,
none of them a metacharacter. -/
def plainQuery (query : JSString) : Bool :=
  query.all (fun p => decide (32 ≤ p) && decide (p < 127) && decide (p ∉ metacharacters))

/-! ## Batches of payloads (`services/PayloadProcessor.js`, lines 89-198) -/

/-- One entry of `value.contacts`: `wa_id` and `profile?.name`. -/
structure Contact where
  wa_id : JSString
  profileName : Option JSString := none
deriving DecidableEq, Repr

/-- The `value` of a change; an absent list is the empty list, which the code
skips alike, and `display_phone_number` is `value.metadata?.display_phone_number`. -/
structure ChangeValue where
  contacts : List Contact := []
  messages : List MessageData := []
  statuses : List StatusData := []
  display_phone_number : Option JSString := none
deriving DecidableEq, Repr

/-- One element of `entry.changes`. -/
structure Change where
  field : JSString
  value : Option ChangeValue
deriving DecidableEq, Repr

/-- One element of `metaData.entry`; absent `changes` are the empty list. -/
structure Entry where
  changes : List Change := []
deriving DecidableEq, Repr

/-- A document of the `WebhookPayload` model: `_id`, `metaData?.entry` (empty
when absent) and `processed`. -/
structure WebhookPayload where
  id : JSString
  entry : List Entry := []
  processed : Bool := false
deriving DecidableEq, Repr

/-- A fresh `_id` for an inserted user. -/
def freshId (s : State) : Nat := (s.users.map (fun u => u.id)).foldr max 0 + 1

/-- The code units `String.prototype.trim` removes: white space and line
terminators. -/
def isWhiteSpace (c : Nat) : Bool :=
  decide (c ∈ [9, 10, 11, 12, 13, 32, 160, 5760, 8232, 8233, 8239, 8287, 12288, 65279]) ||
  (decide (8192 ≤ c) && decide (c ≤ 8202))

/-- `String.prototype.trim`, the setter `trim: true` of the `User` schema. -/
def trim (x : JSString) : JSString :=
  ((x.dropWhile isWhiteSpace).reverse.dropWhile isWhiteSpace).reverse

/-- `upsertUser` (lines 178-198): the first user with the `wa_id` gets the
name, or a new user is inserted. The schema trims `name` and `wa_id`, in the
update and in the filter alike, so a name of white space is stored empty.
Update validators are off and every writer stores the `wa_id` as
`phoneNumber`, so the update does not throw. -/
def PayloadProcessor.upsertUser (contactData : Contact) (s : State) : State :=
  let name := trim (orDefault contactData.profileName (str "Unknown User"))
  let wa_id := trim contactData.wa_id
  match User.findOne s wa_id with
  | some _ =>
    { s with
      users := updateFirst (fun u => decide (u.wa_id = wa_id))
        (fun u => { u with name := name }) s.users }
  | none => { s with users := s.users ++ [⟨freshId s, name, wa_id⟩] }

/-- The outcome of `processSinglePayload`: whether it threw, the counters
`users` and `messages` (as they stood when it threw, in which case the caller
never sees them), and the state it left. -/
structure PayloadResult where
  raised : Bool := false
  users : Nat := 0
  messages : Nat := 0
  state : State
deriving DecidableEq, Repr

/-- The loop over `value.contacts` (lines 149-154). -/
def contactsLoop : List Contact → PayloadResult → PayloadResult
  | [], r => r
  | contact :: rest, r =>
    contactsLoop rest
      { r with state := PayloadProcessor.upsertUser contact r.state, users := r.users + 1 }

/-- The loop over `value.messages` (lines 157-162): the counter is incremented
after every call that returns; a call that throws ends the loop. -/
def messagesLoop (display_phone_number : Option JSString) :
    List MessageData → PayloadResult → PayloadResult
  | [], r => r
  | message :: rest, r =>
    let run := PayloadProcessor.processMessage message display_phone_number r.state
    if run.raised then { r with raised := true, state := run.state }
    else
      messagesLoop display_phone_number rest
        { r with state := run.state, messages := r.messages + 1 }

/-- The loop over `value.statuses` (lines 165-169). -/
def statusesLoop : List StatusData → PayloadResult → PayloadResult
  | [], r => r
  | status :: rest, r =>
    let run := PayloadProcessor.processStatusUpdate status r.state
    if run.raised then { r with raised := true, state := run.state }
    else statusesLoop rest { r with state := run.state }

/-- The loop over `entry.changes` (lines 144-171). -/
def changesLoop : List Change → PayloadResult → PayloadResult
  | [], r => r
  | change :: rest, r =>
    match (if change.field = str "messages" then change.value else none) with
    | some value =>
      let r1 := contactsLoop value.contacts r
      let r2 := messagesLoop value.display_phone_number value.messages r1
      if r2.raised then r2
      else
        let r3 := statusesLoop value.statuses r2
        if r3.raised then r3 else changesLoop rest r3
    | none => changesLoop rest r

/-- The loop over `payload.metaData.entry` (lines 141-172). -/
def entriesLoop : List Entry → PayloadResult → PayloadResult
  | [], r => r
  | entry :: rest, r =>
    let r1 := changesLoop entry.changes r
    if r1.raised then r1 else entriesLoop rest r1

/-- `processSinglePayload` (lines 134-175). -/
def PayloadProcessor.processSinglePayload (payload : WebhookPayload) (s : State) :
    PayloadResult :=
  entriesLoop payload.entry { state := s }

/-- The `results` of `processWebhookPayloads`. -/
structure Results where
  processed : Nat := 0
  users : Nat := 0
  messages : Nat := 0
  errors : Nat := 0
deriving DecidableEq, Repr

/-- The outcome of `processWebhookPayloads`: the counters it returns, the
collection of payloads, and the state it left. -/
structure BatchRun where
  results : Results := {}
  payloads : List WebhookPayload
  state : State
deriving DecidableEq, Repr

/-- `WebhookPayload.findByIdAndUpdate(id, \x7b processed: true, .. \x7d)`. -/
def markProcessed (id : JSString) (payloads : List WebhookPayload) : List WebhookPayload :=
  updateFirst (fun p => decide (p.id = id)) (fun p => { p with processed := true }) payloads

/-- The loop of lines 101-118: a payload whose processing returns adds its
counters and is marked; one whose processing throws adds an error, and the
loop goes on with the next payload. -/
def payloadsLoop : List WebhookPayload → BatchRun → BatchRun
  | [], b => b
  | payload :: rest, b =>
    let processResult := PayloadProcessor.processSinglePayload payload b.state
    if processResult.raised then
      payloadsLoop rest
        { b with
          results := { b.results with errors := b.results.errors + 1 }
          state := processResult.state }
    else
      payloadsLoop rest
        { results :=
            { b.results with
              users := b.results.users + processResult.users
              messages := b.results.messages + processResult.messages
              processed := b.results.processed + 1 }
          payloads := markProcessed payload.id b.payloads
          state := processResult.state }

/-- `processWebhookPayloads` (lines 89-131) on the collection `payloads`: the
unprocessed payloads are read once, then processed in turn. -/
def PayloadProcessor.processWebhookPayloads (payloads : List WebhookPayload) (s : State) :
    BatchRun :=
  payloadsLoop (payloads.filter (fun p => !p.processed)) { payloads := payloads, state := s }

/-! ## Sequences of operations -/

/-- A status update on one message, through the controller or the ingestor. -/
inductive StatusRequest where
  | api (status : JSString) (now : Int)
  | ingest (status : JSString)
deriving DecidableEq, Repr

/-- The state after one status request on the message `messageId`. -/
def StatusRequest.apply (messageId : JSString) (r : StatusRequest) (s : State) : State :=
  match r with
  | .api status now => (updateMessageStatus messageId status now s).2
  | .ingest status => (PayloadProcessor.processStatusUpdate ⟨messageId, status⟩ s).state

/-- The state after a sequence of status requests on the message `messageId`. -/
def applyStatusRequests (messageId : JSString) (rs : List StatusRequest) (s : State) :
    State :=
  rs.foldl (fun st r => r.apply messageId st) s

/-- The stored status of the message `messageId`. -/
def statusOf (s : State) (messageId : JSString) : Option JSString :=
  (Message.findOne s messageId).map (fun m => m.status)

/-- The status a sequence of requests leaves when every accepted request
overwrites the stored one: the controller accepts the statuses of
`validStatuses`, the ingestor any. -/
def lastAccepted (init : JSString) (rs : List StatusRequest) : JSString :=
  rs.foldl (fun cur r =>
    match r with
    | .api status _ => if status ∈ validStatuses then status else cur
    | .ingest status => status) init

/-- The rank of a status along `sent < delivered < read`, in the words of the
specification. -/
def statusRank (status : JSString) : Nat :=
  if status = str "read" then 2 else if status = str "delivered" then 1 else 0

/-- An operation of the controller or of the ingestor on the message store. -/
inductive Operation where
  | updateMessageStatus (messageId status : JSString) (now : Int)
  | deleteMessage (userId : Nat) (messageId : JSString) (deleteForEveryone : Bool) (now : Int)
  | getMessages (userId : Nat) (conversationId : JSString) (queryPage queryLimit : Nat)
  | processMessage (messageData : MessageData) (display_phone_number : Option JSString)
  | processStatusUpdate (statusData : StatusData)
deriving DecidableEq, Repr

/-- The state after an operation. -/
def Operation.run (op : Operation) (s : State) : State :=
  match op with
  | .updateMessageStatus messageId status now => (WpWebApp.updateMessageStatus messageId status now s).2
  | .deleteMessage userId messageId deleteForEveryone now =>
    (WpWebApp.deleteMessage userId messageId deleteForEveryone now s).2
  | .getMessages userId conversationId queryPage queryLimit =>
    (WpWebApp.getMessages userId conversationId queryPage queryLimit s).2
  | .processMessage messageData display_phone_number =>
    (PayloadProcessor.processMessage messageData display_phone_number s).state
  | .processStatusUpdate statusData => (PayloadProcessor.processStatusUpdate statusData s).state

/-- The state after a sequence of operations. -/
def runAll (ops : List Operation) (s : State) : State :=
  ops.foldl (fun st op => op.run st) s

/-- The stored message `messageId` is deleted for everyone: the flag is set
and kind and content are the placeholder. -/
def DeletedForEveryone (s : State) (messageId : JSString) : Prop :=
  ∃ m, Message.findOne s messageId = some m ∧ m.deletedForEveryone = true ∧
    m.messageType = str "deleted" ∧ m.content = deletedContent

/-- The entry a per-viewer delete by `wa_id` at `now` leaves on a message: one
more `deletedBy` entry unless the viewer already has one. -/
def hideFor (wa_id : JSString) (now : Int) (m : Message) : Message :=
  if m.deletedBy.any (fun d => decide (d.userId = wa_id)) then m
  else { m with deletedBy := m.deletedBy ++ [⟨wa_id, now⟩] }

/-- The per-viewer delete of the message `messageId` by `wa_id`, seen on any
stored message: that message gets the viewer's entry, every other message
stays as it is. -/
def hideMessageFor (messageId wa_id : JSString) (now : Int) (m : Message) : Message :=
  if m.messageId = messageId then hideFor wa_id now m else m

/-- The status a request asks for. -/
def StatusRequest.status : StatusRequest → JSString
  | .api status _ => status
  | .ingest status => status

/-- The greater of two statuses along `sent < delivered < read`, in the words
of the specification. -/
def maxStatus (a b : JSString) : JSString :=
  if statusRank a < statusRank b then b else a

/-- The final status the specification promises for a sequence of requests:
the maximum of the initial status and the requested ones. -/
def maxReached (init : JSString) (rs : List StatusRequest) : JSString :=
  rs.foldl (fun cur r => maxStatus cur r.status) init

/-- A request to the modelled handlers and ingestors, or (`environment`) the
effect of the handlers outside the embedding, which write users, block
records and the hub only. -/
inductive Action where
  | operation (op : Operation)
  | sendMessage (req : SendMessageRequest) (now : Int) (rnd : JSString)
  | forwardMessage (userId : Nat) (messageId : JSString) (toNumbers : List ForwardTarget)
  | parseMessage (message : WebhookMessage) (display_phone_number env : Option JSString)
  | archiveConversation (userId : Nat) (conversationId : JSString) (archive : Bool) (now : Int)
  | muteConversation (userId : Nat) (conversationId : JSString) (mute : Bool)
      (duration : Option Int) (now : Int)
  | environment (users : List User) (blockedUsers : List BlockedUser) (io : Bool)
deriving DecidableEq, Repr

/-- The state after an action. -/
def Action.run (a : Action) (s : State) : State :=
  match a with
  | .operation op => op.run s
  | .sendMessage req now rnd => (WpWebApp.sendMessage req now rnd s).2
  | .forwardMessage userId messageId toNumbers =>
    (WpWebApp.forwardMessage userId messageId toNumbers s).2
  | .parseMessage message display_phone_number env =>
    (WebhookParser.processMessage message display_phone_number env s).state
  | .archiveConversation userId conversationId archive now =>
    (WpWebApp.archiveConversation userId conversationId archive now s).2
  | .muteConversation userId conversationId mute duration now =>
    (WpWebApp.muteConversation userId conversationId mute duration now s).2
  | .environment users blockedUsers io =>
    { s with users := users, blockedUsers := blockedUsers, io := io }

/-- The states reachable from a store without messages and conversations. -/
inductive Reachable : State → Prop where
  | init (users : List User) (blockedUsers : List BlockedUser) (io : Bool) :
      Reachable { users := users, blockedUsers := blockedUsers, io := io }
  | step (a : Action) (s : State) : Reachable s → Reachable (a.run s)

/-- A call of `archiveConversation` or of `muteConversation`. -/
inductive ConversationCall where
  | archive (userId : Nat) (conversationId : JSString) (archive : Bool) (now : Int)
  | mute (userId : Nat) (conversationId : JSString) (mute : Bool) (duration : Option Int)
      (now : Int)
deriving DecidableEq, Repr

/-- The state after a call. -/
def ConversationCall.run (c : ConversationCall) (s : State) : State :=
  match c with
  | .archive userId conversationId flag now =>
    (archiveConversation userId conversationId flag now s).2
  | .mute userId conversationId flag duration now =>
    (muteConversation userId conversationId flag duration now s).2

/-- The cached flags of a conversation agree with its lists. -/
def FlagsAgree (c : Conversation) : Prop :=
  (c.isArchived = true ↔ c.archivedBy ≠ []) ∧ (c.isMuted = true ↔ c.mutedBy ≠ [])

/-- No user has two entries in the `deletedBy` of a stored message. -/
def DeletedByOnce (s : State) : Prop :=
  ∀ m ∈ s.messages, (m.deletedBy.map (fun d => d.userId)).Nodup

/-- The number of stored messages with the id `messageId`. -/
def countMessages (s : State) (messageId : JSString) : Nat :=
  s.messages.countP (fun m => decide (m.messageId = messageId))

/-- The `archivedBy` entries of the conversation `conversationId`, none when
there is no such row. -/
def archivedByOf (s : State) (conversationId : JSString) : List ArchivedBy :=
  match Conversation.findOne s conversationId with
  | some c => c.archivedBy
  | none => []

/-- The number of `archivedBy` entries of `wa_id` in a conversation. -/
def archiveCount (s : State) (conversationId wa_id : JSString) : Nat :=
  (archivedByOf s conversationId).countP (fun a => decide (a.userId = wa_id))

/-- The state after a sequence of calls of `archiveConversation` and
`muteConversation`. -/
def runCalls (calls : List ConversationCall) (s : State) : State :=
  calls.foldl (fun st c => c.run st) s

/-- The message entries of one change that `processSinglePayload` reaches. -/
def changeMessages (change : Change) : List MessageData :=
  match (if change.field = str "messages" then change.value else none) with
  | some value => value.messages
  | none => []

/-- The message entries of a payload that `processSinglePayload` reaches. -/
def payloadMessages (payload : WebhookPayload) : List MessageData :=
  (payload.entry.map (fun entry => (entry.changes.map changeMessages).flatten)).flatten

/-- The contact entries of one change that `processSinglePayload` reaches. -/
def changeContacts (change : Change) : List Contact :=
  match (if change.field = str "messages" then change.value else none) with
  | some value => value.contacts
  | none => []

/-- The contact entries of a payload that `processSinglePayload` reaches. -/
def payloadContacts (payload : WebhookPayload) : List Contact :=
  (payload.entry.map (fun entry => (entry.changes.map changeContacts).flatten)).flatten

/-- A message entry whose document passes the schema whenever its sender has a
name: an id, a sender without surrounding white space, a timestamp that gives
a valid date, and a type of the enumeration. -/
def MessageData.wellFormed (m : MessageData) : Bool :=
  decide (m.id ≠ []) && decide (m.sender ≠ []) && decide (trim m.sender = m.sender) &&
  (dateOfSeconds m.timestamp).isSome &&
  decide (orDefault m.type (str "text") ∈ messageTypes)

/-- A contact entry that leaves its user with a name: the `wa_id` has no
surrounding white space and the name is not white space only. -/
def Contact.wellFormed (c : Contact) : Bool :=
  decide (trim c.wa_id = c.wa_id) &&
  decide (trim (orDefault c.profileName (str "Unknown User")) ≠ [])

/-- Every user has a name, as the schema requires. -/
def NamedUsers (s : State) : Prop := ∀ u ∈ s.users, u.name ≠ []

/-- From `s` to `s1` no user and no message id got lost. -/
def Grows (s s1 : State) : Prop :=
  (∀ w, (User.findOne s w).isSome = true → (User.findOne s1 w).isSome = true) ∧
  (∀ id, (Message.findOne s id).isSome = true → (Message.findOne s1 id).isSome = true)

/-! ## Sample data -/

namespace Sample

def alice : User := ⟨1, str "Alice", str "+1111"⟩

def bob : User := ⟨2, str "Bob", str "+2222"⟩

def carol : User := ⟨3, str "Carol", str "+3333"⟩

/-- A text message from Alice to Bob, created at time `1000`. -/
def hi : Message :=
  { messageId := str "m1", wa_id := str "+1111", fromNumber := str "+1111",
    toNumber := str "+2222", senderName := str "Alice",
    content := { body := some (str "hi") }, timestamp := 1000,
    conversationId := str "+1111_+2222" }

/-- Bob's answer, created at time `2000`. -/
def yo : Message :=
  { messageId := str "m2", wa_id := str "+2222", fromNumber := str "+2222",
    toNumber := str "+1111", senderName := str "Bob",
    content := { body := some (str "yo") }, timestamp := 2000,
    conversationId := str "+1111_+2222" }

/-- Three users and the two messages, the hub initialised. -/
def store : State := { users := [alice, bob, carol], messages := [hi, yo] }

/-- The same store with the first message in the given status. -/
def storeWith (status : JSString) : State :=
  { store with messages := [{ hi with status := status }, yo] }

/-- An external text message from Alice, as the payload ingestor reads it. -/
def incoming : MessageData :=
  { id := str "wamid.1", sender := str "+1111", type := some (str "text"),
    textBody := some (str "hello"), timestamp := some 1700000000 }

/-- An external text message from an unknown contact, as the parser reads it. -/
def parsed : WebhookMessage :=
  { id := str "wamid.2", sender := str "+9999", type := some (str "text"),
    textBody := some (str "hello"), timestamp := some 1700000000 }

/-- Three forward targets: Bob, an unknown number, and Carol. -/
def targets : List ForwardTarget :=
  [⟨str "+2222", 8000, str "aaa"⟩, ⟨str "+4444", 8001, str "bbb"⟩,
   ⟨str "+3333", 8002, str "ccc"⟩]

/-- A state reached from a store without messages: Alice sends to Bob, Bob
deletes the message for himself, twice. -/
def reached : State :=
  (Action.operation (.deleteMessage 2 (str "msg_1000_abc") false 3000)).run
    ((Action.operation (.deleteMessage 2 (str "msg_1000_abc") false 2000)).run
      ((Action.sendMessage { userId := 1, toNumber := str "+2222", message := str "hi" }
          1000 (str "abc")).run
        { users := [alice, bob, carol], blockedUsers := [], io := true }))

/-- Alice archives her conversation with Bob, Bob mutes it for a while, Alice
unarchives it and archives the one with Carol. -/
def calls : List ConversationCall :=
  [.archive 1 (str "+1111_+2222") true 100, .mute 2 (str "+1111_+2222") true (some 50) 200,
   .archive 1 (str "+1111_+2222") false 300, .archive 1 (str "+1111_+3333") true 400]

/-- The store in which Bob has archived his conversation with Alice. -/
def archivedByBob : State :=
  runCalls [.archive 2 (str "+1111_+2222") true 100] store

/-- The engine that rejects every pattern; the sample queries never reach
it. -/
def noEngine : Engine := ⟨fun _ => false, fun _ _ => false⟩

/-- A message entry with a timestamp that is not a number. -/
def broken : MessageData :=
  { id := str "wamid.0", sender := str "+1111", type := some (str "text"),
    textBody := some (str "first"), timestamp := none }

/-- A message entry from a number that is no user. -/
def stranger : MessageData :=
  { id := str "wamid.9", sender := str "+9999", type := some (str "text"),
    textBody := some (str "hello"), timestamp := some 1700000000 }

/-- A payload with one change that holds the given message entries. -/
def payloadOf (id : JSString) (messages : List MessageData) : WebhookPayload :=
  { id := id
    entry := [{ changes := [{ field := str "messages",
                              value := some { messages := messages } }] }] }

/-- A contact entry for a number that is no user yet. -/
def dave : Contact := { wa_id := str "+4444", profileName := some (str "Dave") }

/-- A payload with one change that holds the given contacts and message
entries. -/
def payloadWith (id : JSString) (contacts : List Contact) (messages : List MessageData) :
    WebhookPayload :=
  { id := id
    entry := [{ changes := [{ field := str "messages",
                              value := some { contacts := contacts, messages := messages } }] }] }

/-- A second external text message, from Bob. -/
def later : MessageData :=
  { id := str "wamid.3", sender := str "+2222", type := some (str "text"),
    textBody := some (str "later"), timestamp := some 1700000100 }

/-- The store in which Alice blocks Bob. -/
def blockedStore : State :=
  { store with blockedUsers := [⟨str "+1111", str "+2222"⟩] }

end Sample

/-! ## Theorems -/

theorem str_underscore : str "_" = [95] := by decide

theorem jsLt_irrefl (a : JSString) : jsLt a a = false := by
  induction a with
  | nil => rfl
  | cons x xs ih => simp [jsLt, ih]

theorem jsLt_asymm : ∀ a b : JSString, jsLt a b = true → jsLt b a = false
  | [], [], h => by simp [jsLt] at h
  | [], _ :: _, _ => by simp [jsLt]
  | _ :: _, [], h => by simp [jsLt] at h
  | x :: xs, y :: ys, h => by
    simp only [jsLt] at h ⊢
    by_cases hxy : x < y
    · have hyx : ¬ y < x := by omega
      simp [hyx, hxy]
    · by_cases hyx : y < x
      · simp [hxy, hyx] at h
      · simp only [hxy, hyx, if_false] at h ⊢
        exact jsLt_asymm xs ys h

theorem jsLt_total : ∀ a b : JSString, jsLt a b = false → jsLt b a = false → a = b
  | [], [], _, _ => rfl
  | [], _ :: _, h, _ => by simp [jsLt] at h
  | _ :: _, [], _, h => by simp [jsLt] at h
  | x :: xs, y :: ys, h1, h2 => by
    simp only [jsLt] at h1 h2
    by_cases hxy : x < y
    · simp [hxy] at h1
    · by_cases hyx : y < x
      · simp [hyx] at h2
      · simp only [hxy, hyx, if_false] at h1 h2
        have hx : x = y := by omega
        rw [hx, jsLt_total xs ys h1 h2]

/-- Splitting at the first delimiter: two strings `x ++ "_" ++ y` with
delimiter-free left parts are equal only when both parts are. -/
theorem append_delim_inj : ∀ (x x' y y' : JSString), 95 ∉ x → 95 ∉ x' →
    x ++ 95 :: y = x' ++ 95 :: y' → x = x' ∧ y = y'
  | [], [], y, y', _, _, h => by simpa using h
  | [], c :: x', y, y', _, hx', h => by
    simp only [List.nil_append, List.cons_append, List.cons.injEq] at h
    exact absurd (h.1 ▸ List.mem_cons_self _ _) hx'
  | c :: x, [], y, y', hx, _, h => by
    simp only [List.nil_append, List.cons_append, List.cons.injEq] at h
    exact absurd (h.1 ▸ List.mem_cons_self _ _) hx
  | c :: x, c' :: x', y, y', hx, hx', h => by
    simp only [List.cons_append, List.cons.injEq] at h
    have ih := append_delim_inj x x' y y'
      (fun hm => hx (List.mem_cons_of_mem _ hm))
      (fun hm => hx' (List.mem_cons_of_mem _ hm)) h.2
    exact ⟨by rw [h.1, ih.1], ih.2⟩

theorem sortPair_cases (a b : JSString) :
    sortPair a b = (a, b) ∨ sortPair a b = (b, a) := by
  unfold sortPair
  split <;> simp

/-- C1: for all strings `a` and `b`, `generateConversationId a b` equals
`generateConversationId b a`. -/
theorem generateConversationId_comm (a b : JSString) :
    generateConversationId a b = generateConversationId b a := by
  unfold generateConversationId sortPair
  by_cases hba : jsLt b a = true
  · have hab : jsLt a b = false := jsLt_asymm b a hba
    simp [hba, hab]
  · by_cases hab : jsLt a b = true
    · simp [hba, hab]
    · have hEq : a = b := jsLt_total a b (by simpa using hab) (by simpa using hba)
      subst hEq
      simp

/-- C2: on identifiers that do not contain the delimiter `_` (code unit 95),
two calls of `generateConversationId` return the same id only for the same
unordered pair of identifiers. -/
theorem generateConversationId_collision_free (a b c d : JSString)
    (ha : 95 ∉ a) (hb : 95 ∉ b) (hc : 95 ∉ c) (hd : 95 ∉ d)
    (h : generateConversationId a b = generateConversationId c d) :
    (a = c ∧ b = d) ∨ (a = d ∧ b = c) := by
  unfold generateConversationId at h
  simp only [str_underscore, List.append_assoc, List.singleton_append] at h
  rcases sortPair_cases a b with hab | hab <;>
    rcases sortPair_cases c d with hcd | hcd <;>
    rw [hab, hcd] at h <;> simp only at h
  · exact Or.inl (append_delim_inj a c b d ha hc h)
  · have := append_delim_inj a d b c ha hd h
    exact Or.inr this
  · have := append_delim_inj b c a d hb hc h
    exact Or.inr ⟨this.2, this.1⟩
  · have := append_delim_inj b d a c hb hd h
    exact Or.inl ⟨this.2, this.1⟩

theorem generateConversationId_collision_free_witness :
    (95 ∉ str "+1111") ∧ (95 ∉ str "+2222") ∧
      generateConversationId (str "+1111") (str "+2222")
        = generateConversationId (str "+2222") (str "+1111") ∧
      ((str "+1111" = str "+2222" ∧ str "+2222" = str "+1111") ∨
        (str "+1111" = str "+1111" ∧ str "+2222" = str "+2222")) :=
  ⟨by decide, by decide, by decide,
    generateConversationId_collision_free (str "+1111") (str "+2222") (str "+2222")
      (str "+1111") (by decide) (by decide) (by decide) (by decide) (by decide)⟩


/-! ### The message store -/

theorem find?_updateFirst_same {α : Type} (p : α → Bool) (f : α → α)
    (hf : ∀ x, p x = true → p (f x) = true) (l : List α) :
    (updateFirst p f l).find? p = (l.find? p).map f := by
  induction l with
  | nil => rfl
  | cons x xs ih =>
    by_cases hx : p x = true
    · simp [updateFirst, hx, List.find?, hf x hx]
    · simp only [Bool.not_eq_true] at hx
      simp [updateFirst, hx, List.find?, ih]

theorem find?_updateFirst_other {α : Type} (p q : α → Bool) (f : α → α)
    (h : ∀ x, p x = true → q x = false ∧ q (f x) = false) (l : List α) :
    (updateFirst p f l).find? q = l.find? q := by
  induction l with
  | nil => rfl
  | cons x xs ih =>
    by_cases hx : p x = true
    · simp [updateFirst, hx, List.find?, (h x hx).1, (h x hx).2]
    · simp only [Bool.not_eq_true] at hx
      simp [updateFirst, hx, List.find?, ih]

/-- Looking a message up after an update in place that keeps the ids. -/
theorem findOne_findOneAndUpdate (s : State) (messageId target : JSString)
    (f : Message → Message) (hf : ∀ m, (f m).messageId = m.messageId) :
    Message.findOne (Message.findOneAndUpdate target f s) messageId =
      if messageId = target then (Message.findOne s messageId).map f
      else Message.findOne s messageId := by
  unfold Message.findOne Message.findOneAndUpdate
  by_cases h : messageId = target
  · subst h
    simp only [if_true]
    exact find?_updateFirst_same _ f (fun x hx => by simpa [hf x] using hx) _
  · simp only [h, if_false]
    apply find?_updateFirst_other
    intro x hx
    have hx' : x.messageId = target := by simpa using hx
    constructor
    · simp only [decide_eq_false_iff_not]
      intro hc
      exact h (hc ▸ hx')
    · simp only [decide_eq_false_iff_not, hf x]
      intro hc
      exact h (hc ▸ hx')

/-- Looking a message up after a successful `save` of a document. -/
theorem findOne_save (s s1 : State) (doc : Message) (messageId : JSString)
    (h : Message.save doc s = some s1) :
    Message.findOne s1 messageId =
      if messageId = doc.messageId then (Message.findOne s messageId).map (fun _ => doc)
      else Message.findOne s messageId := by
  unfold Message.save at h
  split at h
  · exact absurd h (by simp)
  · simp only [Option.some.injEq] at h
    subst h
    unfold Message.findOne
    by_cases hid : messageId = doc.messageId
    · subst hid
      simp only [if_true]
      exact find?_updateFirst_same _ _ (fun x _ => by simp) _
    · simp only [hid, if_false]
      apply find?_updateFirst_other
      intro x hx
      have hx' : x.messageId = doc.messageId := by simpa using hx
      constructor
      · simp only [decide_eq_false_iff_not]
        intro hc
        exact hid (hc ▸ hx')
      · simp only [decide_eq_false_iff_not]
        intro hc
        exact hid hc.symm

theorem findOne_emit (es : List Emission) (s : State) (messageId : JSString) :
    Message.findOne (emit es s) messageId = Message.findOne s messageId := rfl

theorem statusUpdateData_messageId (status : JSString) (now : Int) (message m : Message) :
    (statusUpdateData status now message m).messageId = m.messageId := by
  unfold statusUpdateData
  split
  · rfl
  · split
    · split <;> rfl
    · rfl

theorem statusUpdateData_status (status : JSString) (now : Int) (message m : Message) :
    (statusUpdateData status now message m).status = status := by
  unfold statusUpdateData
  split
  · rfl
  · split
    · split <;> rfl
    · rfl

/-- The messages the controller leaves after `updateMessageStatus` on an
existing message with a valid status: the update in place, whatever `io`. -/
theorem findOne_updateMessageStatus (s : State) (messageId target status : JSString)
    (now : Int) :
    Message.findOne (updateMessageStatus target status now s).2 messageId =
      match Message.findOne s target with
      | none => Message.findOne s messageId
      | some message =>
        if status ∈ validStatuses ∧ messageId = target then
          some (statusUpdateData status now message message)
        else Message.findOne s messageId := by
  unfold updateMessageStatus
  by_cases hv : status ∈ validStatuses
  · simp only [hv, not_true_eq_false, if_false, true_and]
    cases hm : Message.findOne s target with
    | none => rfl
    | some message =>
      simp only
      have key := findOne_findOneAndUpdate s messageId target
        (statusUpdateData status now message) (statusUpdateData_messageId status now message)
      split
      · rw [findOne_emit, key]
        by_cases hid : messageId = target
        · subst hid
          simp [hm]
        · simp [hid]
      · rw [key]
        by_cases hid : messageId = target
        · subst hid
          simp [hm]
        · simp [hid]
  · simp only [hv, not_false_eq_true, if_true, false_and, if_false]
    cases Message.findOne s target <;> rfl

theorem statusOf_updateMessageStatus (s : State) (messageId status cur : JSString)
    (now : Int) (h : statusOf s messageId = some cur) :
    statusOf (updateMessageStatus messageId status now s).2 messageId =
      some (if status ∈ validStatuses then status else cur) := by
  unfold statusOf at h ⊢
  rw [findOne_updateMessageStatus]
  cases hm : Message.findOne s messageId with
  | none => simp [hm] at h
  | some message =>
    simp only [hm, Option.map_some', Option.some.injEq] at h
    by_cases hv : status ∈ validStatuses
    · simp [hv, statusUpdateData_status]
    · simp [hv, hm, h]

theorem statusOf_processStatusUpdate (s : State) (messageId status cur : JSString)
    (h : statusOf s messageId = some cur) :
    statusOf (PayloadProcessor.processStatusUpdate ⟨messageId, status⟩ s).state messageId =
      some status := by
  unfold statusOf at h ⊢
  unfold PayloadProcessor.processStatusUpdate
  cases hm : Message.findOne s messageId with
  | none => simp [hm] at h
  | some message =>
    simp only
    rw [findOne_findOneAndUpdate s messageId messageId
      (fun m => { m with status := status }) (fun _ => rfl)]
    simp [hm]

theorem statusOf_applyStatusRequests (messageId : JSString) (rs : List StatusRequest) :
    ∀ (s : State) (cur : JSString), statusOf s messageId = some cur →
      statusOf (applyStatusRequests messageId rs s) messageId =
        some (lastAccepted cur rs) := by
  induction rs with
  | nil => intro s cur h; simpa [applyStatusRequests, lastAccepted] using h
  | cons r rs ih =>
    intro s cur h
    cases r with
    | api status now =>
      have h1 := statusOf_updateMessageStatus s messageId status cur now h
      have := ih _ _ h1
      simpa [applyStatusRequests, lastAccepted, StatusRequest.apply] using this
    | ingest status =>
      have h1 := statusOf_processStatusUpdate s messageId status cur h
      have := ih _ _ h1
      simpa [applyStatusRequests, lastAccepted, StatusRequest.apply] using this

/-! ### Status updates -/

/-- C3, counterexample: a message whose status is `read` is set back to `sent`
by one `updateMessageStatus` request, and by one `processStatusUpdate`, though
`sent` is not forward of `read`; the final status is not the maximum reached. -/
theorem status_regresses :
    statusOf (Sample.storeWith (str "read")) (str "m1") = some (str "read") ∧
    statusRank (str "sent") < statusRank (str "read") ∧
    statusOf (applyStatusRequests (str "m1") [.api (str "sent") 5000]
      (Sample.storeWith (str "read"))) (str "m1") = some (str "sent") ∧
    statusOf (applyStatusRequests (str "m1") [.ingest (str "sent")]
      (Sample.storeWith (str "read"))) (str "m1") = some (str "sent") ∧
    statusOf (applyStatusRequests (str "m1") [.api (str "sent") 5000]
      (Sample.storeWith (str "read"))) (str "m1") ≠
        some (maxReached (str "read") [.api (str "sent") 5000]) := by
  decide

/-- C3, amended: for every sequence of status requests on one stored message,
through `updateMessageStatus` or `processStatusUpdate` in any order, the final
stored status is the status of the last accepted request (the initial status
when none is accepted): each accepted request overwrites the stored status,
forward or not. -/
theorem status_last_writer_wins (s : State) (messageId : JSString)
    (rs : List StatusRequest) (m : Message)
    (hm : Message.findOne s messageId = some m) :
    statusOf (applyStatusRequests messageId rs s) messageId =
      some (lastAccepted m.status rs) :=
  statusOf_applyStatusRequests messageId rs s m.status (by simp [statusOf, hm])

theorem status_last_writer_wins_witness :
    Message.findOne (Sample.storeWith (str "read")) (str "m1")
        = some { Sample.hi with status := str "read" } ∧
      statusOf (applyStatusRequests (str "m1")
          [.api (str "delivered") 5000, .ingest (str "read"), .api (str "sent") 6000]
          (Sample.storeWith (str "read"))) (str "m1") =
        some (lastAccepted (str "read")
          [.api (str "delivered") 5000, .ingest (str "read"), .api (str "sent") 6000]) :=
  ⟨by decide,
    status_last_writer_wins (Sample.storeWith (str "read")) (str "m1")
      [.api (str "delivered") 5000, .ingest (str "read"), .api (str "sent") 6000]
      { Sample.hi with status := str "read" } (by decide)⟩

/-- C4, counterexample: `updateMessageStatus` moves a `failed` message to
`read`, and sets `failed` on a message that is `delivered` and on one that is
`read`. -/
theorem failed_not_terminal :
    statusOf (updateMessageStatus (str "m1") (str "read") 5000
      (Sample.storeWith (str "failed"))).2 (str "m1") = some (str "read") ∧
    statusOf (updateMessageStatus (str "m1") (str "failed") 5000
      (Sample.storeWith (str "delivered"))).2 (str "m1") = some (str "failed") ∧
    statusOf (updateMessageStatus (str "m1") (str "failed") 5000
      (Sample.storeWith (str "read"))).2 (str "m1") = some (str "failed") := by
  decide

/-- C4, amended: `updateMessageStatus` with one of the four valid statuses
stores the requested status whatever the current status of the message is;
so `failed` is replaced by a later request, and `failed` is stored on a
message that is `delivered` or `read`. -/
theorem updateMessageStatus_overwrites (s : State) (messageId status : JSString)
    (now : Int) (m : Message) (hm : Message.findOne s messageId = some m)
    (hv : status ∈ validStatuses) :
    statusOf (updateMessageStatus messageId status now s).2 messageId = some status := by
  unfold statusOf
  rw [findOne_updateMessageStatus, hm]
  simp [hv, statusUpdateData_status]

theorem updateMessageStatus_overwrites_witness :
    Message.findOne (Sample.storeWith (str "failed")) (str "m1")
        = some { Sample.hi with status := str "failed" } ∧
      str "delivered" ∈ validStatuses ∧
      statusOf (updateMessageStatus (str "m1") (str "delivered") 5000
        (Sample.storeWith (str "failed"))).2 (str "m1") = some (str "delivered") :=
  ⟨by decide, by decide,
    updateMessageStatus_overwrites (Sample.storeWith (str "failed")) (str "m1")
      (str "delivered") 5000 { Sample.hi with status := str "failed" } (by decide) (by decide)⟩

/-! ### Delete for everyone -/

theorem validate_deleted (message : Message) (now : Int) (h : message.validate = true) :
    Message.validate { message with
      messageType := str "deleted"
      content := deletedContent
      deletedForEveryone := true
      deletedForEveryoneAt := some now } = true := by
  have hd : str "deleted" ∈ messageTypes := by decide
  simp only [Message.validate, Bool.and_eq_true, decide_eq_true_eq] at h ⊢
  exact ⟨⟨⟨⟨⟨⟨⟨h.1.1.1.1.1.1.1, h.1.1.1.1.1.1.2⟩, h.1.1.1.1.1.2⟩, h.1.1.1.1.2⟩,
    h.1.1.1.2⟩, h.1.1.2⟩, hd⟩, h.2⟩

/-- C5: for the sender of a stored message, `deleteMessage` with
`deleteForEveryone = true` succeeds whenever `now - timestamp` is at most 7
minutes (the stored document passing its schema and the socket hub being
initialised): the response is the success, the message is replaced by the
placeholder with the flag set, and the event is emitted; whenever the
difference exceeds 7 minutes it answers 400 (window expired) and leaves the
state, the emitted events included, unchanged. -/
theorem deleteForEveryone_window (s : State) (userId : Nat) (messageId : JSString)
    (now : Int) (currentUser : User) (message : Message)
    (hu : User.findById s userId = some currentUser)
    (hm : Message.findOne s messageId = some message)
    (hs : message.fromNumber = currentUser.wa_id) :
    (now - message.timestamp ≤ deleteWindowMs → message.validate = true → s.io = true →
      (deleteMessage userId messageId true now s).1 =
        { status := 200, success := true, message := "Message deleted for everyone" } ∧
      Message.findOne (deleteMessage userId messageId true now s).2 messageId =
        some { message with
          messageType := str "deleted"
          content := deletedContent
          deletedForEveryone := true
          deletedForEveryoneAt := some now } ∧
      (deleteMessage userId messageId true now s).2.emitted = s.emitted ++
        [⟨message.conversationId,
          Event.message_deleted_for_everyone messageId message.conversationId⟩]) ∧
    (now - message.timestamp > deleteWindowMs →
      deleteMessage userId messageId true now s =
        (Response.fail 400 "Message can only be deleted for everyone within 7 minutes", s)) := by
  have hid : message.messageId = messageId := by
    have := List.find?_some hm
    simpa using this
  constructor
  · intro hw hval hio
    have hnw : ¬ now - message.timestamp > deleteWindowMs := by omega
    have hv1 := validate_deleted message now hval
    cases hsave : Message.save { message with
        messageType := str "deleted"
        content := deletedContent
        deletedForEveryone := true
        deletedForEveryoneAt := some now } s with
    | none => simp [Message.save, hv1] at hsave
    | some s1 =>
      have hio1 : s1.io = true := by
        simp only [Message.save, hv1] at hsave
        simp only [Bool.true_eq_false, if_false, Option.some.injEq] at hsave
        rw [← hsave]
        exact hio
      have hem1 : s1.emitted = s.emitted := by
        simp only [Message.save, hv1] at hsave
        simp only [Bool.true_eq_false, if_false, Option.some.injEq] at hsave
        rw [← hsave]
      have hfind := findOne_save s s1 _ messageId hsave
      rw [if_pos hid.symm, hm] at hfind
      simp only [deleteMessage, hu, hm, ← hs, decide_True, Bool.true_or, Bool.not_true,
        Bool.false_eq_true, if_false, if_true, ne_eq, not_true_eq_false, hnw, hsave, hio1]
      exact ⟨trivial, by rw [findOne_emit]; exact hfind, by simp [emit, hem1]⟩
  · intro hw
    simp [deleteMessage, hu, hm, hs, hw]

theorem deleteForEveryone_window_witness :
    (User.findById Sample.store 1 = some Sample.alice ∧
      Message.findOne Sample.store (str "m1") = some Sample.hi ∧
      Sample.hi.fromNumber = Sample.alice.wa_id ∧
      (1000 + 419000 : Int) - Sample.hi.timestamp ≤ deleteWindowMs ∧
      Sample.hi.validate = true ∧ Sample.store.io = true ∧
      (deleteMessage 1 (str "m1") true (1000 + 419000) Sample.store).1 =
        { status := 200, success := true, message := "Message deleted for everyone" }) ∧
    ((1000 + 421000 : Int) - Sample.hi.timestamp > deleteWindowMs ∧
      deleteMessage 1 (str "m1") true (1000 + 421000) Sample.store =
        (Response.fail 400 "Message can only be deleted for everyone within 7 minutes",
          Sample.store)) :=
  ⟨⟨by decide, by decide, by decide, by decide, by decide, by decide,
      ((deleteForEveryone_window Sample.store 1 (str "m1") (1000 + 419000) Sample.alice
        Sample.hi (by decide) (by decide) (by decide)).1
          (by decide) (by decide) (by decide)).1⟩,
    by decide,
    (deleteForEveryone_window Sample.store 1 (str "m1") (1000 + 421000) Sample.alice
      Sample.hi (by decide) (by decide) (by decide)).2 (by decide)⟩

/-- C6: `deleteMessage` with `deleteForEveryone = true` asked by a user who is
not the sender of the stored message answers 403 (forbidden), whatever `now`
is, and leaves the state unchanged. -/
theorem deleteForEveryone_nonSender_forbidden (s : State) (userId : Nat)
    (messageId : JSString) (now : Int) (currentUser : User) (message : Message)
    (hu : User.findById s userId = some currentUser)
    (hm : Message.findOne s messageId = some message)
    (hns : message.fromNumber ≠ currentUser.wa_id) :
    ((deleteMessage userId messageId true now s).1 = Response.fail 403 "Permission denied" ∨
      (deleteMessage userId messageId true now s).1 =
        Response.fail 403 "Only sender can delete message for everyone") ∧
    (deleteMessage userId messageId true now s).1.status = 403 ∧
    (deleteMessage userId messageId true now s).2 = s := by
  by_cases hto : message.toNumber = currentUser.wa_id
  · simp [deleteMessage, hu, hm, hns, hto, Response.fail]
  · simp [deleteMessage, hu, hm, hns, hto, Response.fail]

theorem deleteForEveryone_nonSender_forbidden_witness :
    User.findById Sample.store 2 = some Sample.bob ∧
      Message.findOne Sample.store (str "m1") = some Sample.hi ∧
      Sample.hi.fromNumber ≠ Sample.bob.wa_id ∧
      (deleteMessage 2 (str "m1") true 1001 Sample.store).1.status = 403 ∧
      (deleteMessage 2 (str "m1") true 1001 Sample.store).2 = Sample.store :=
  ⟨by decide, by decide, by decide,
    (deleteForEveryone_nonSender_forbidden Sample.store 2 (str "m1") 1001 Sample.bob
      Sample.hi (by decide) (by decide) (by decide)).2⟩


/-! ### Irreversibility of delete for everyone -/

theorem findOne_messageId {s : State} {messageId : JSString} {m : Message}
    (h : Message.findOne s messageId = some m) : m.messageId = messageId := by
  have := List.find?_some h
  simpa using this

/-- What `deleteMessage` does to the state: nothing, or one `save` of the
found message with the placeholder or with one more `deletedBy` entry,
followed or not by an emission. -/
theorem deleteMessage_state (userId : Nat) (target : JSString) (deleteForEveryone : Bool)
    (now : Int) (s : State) :
    (deleteMessage userId target deleteForEveryone now s).2 = s ∨
    ∃ (message doc : Message) (s1 : State) (es : List Emission),
      Message.findOne s target = some message ∧ Message.save doc s = some s1 ∧
      (doc = { message with
          messageType := str "deleted"
          content := deletedContent
          deletedForEveryone := true
          deletedForEveryoneAt := some now } ∨
        ∃ w, doc = { message with deletedBy := message.deletedBy ++ [⟨w, now⟩] }) ∧
      (deleteMessage userId target deleteForEveryone now s).2 = emit es s1 := by
  unfold deleteMessage
  cases hu : User.findById s userId with
  | none => exact Or.inl rfl
  | some currentUser =>
    cases hm : Message.findOne s target with
    | none => exact Or.inl rfl
    | some message =>
      simp only
      split
      · exact Or.inl rfl
      · split
        · split
          · exact Or.inl rfl
          · split
            · exact Or.inl rfl
            · cases hsave : Message.save { message with
                  messageType := str "deleted"
                  content := deletedContent
                  deletedForEveryone := true
                  deletedForEveryoneAt := some now } s with
              | none => exact Or.inl rfl
              | some s1 =>
                simp only
                split
                · exact Or.inr ⟨message, _, s1, _, rfl, hsave, Or.inl rfl, rfl⟩
                · exact Or.inr ⟨message, _, s1, [], rfl, hsave, Or.inl rfl, by simp [emit]⟩
        · split
          · exact Or.inl rfl
          · cases hsave : Message.save { message with
                deletedBy := message.deletedBy ++ [⟨currentUser.wa_id, now⟩] } s with
            | none => exact Or.inl rfl
            | some s1 =>
              exact Or.inr ⟨message, _, s1, [], rfl, hsave, Or.inr ⟨_, rfl⟩, by simp [emit]⟩

theorem markRead_messageId (conversationId wa_id : JSString) (m : Message) :
    (markRead conversationId wa_id m).messageId = m.messageId := by
  unfold markRead
  split <;> rfl

theorem findOne_map (s : State) (f : Message → Message) (messageId : JSString)
    (hf : ∀ m, (f m).messageId = m.messageId) :
    Message.findOne { s with messages := s.messages.map f } messageId =
      (Message.findOne s messageId).map f := by
  unfold Message.findOne
  simp only [List.find?_map]
  congr 1
  apply congrArg (fun p => List.find? p s.messages)
  funext m
  simp [hf m]

theorem findOne_create (s s1 : State) (doc m : Message) (messageId : JSString)
    (hc : Message.create doc s = some s1) (hm : Message.findOne s messageId = some m) :
    Message.findOne s1 messageId = some m := by
  unfold Message.create at hc
  split at hc
  · exact absurd hc (by simp)
  · split at hc
    · exact absurd hc (by simp)
    · simp only [Option.some.injEq] at hc
      subst hc
      unfold Message.findOne at hm ⊢
      simp [List.find?_append, hm]

/-- Every operation keeps a deleted-for-everyone message deleted for everyone. -/
theorem DeletedForEveryone_run (op : Operation) (s : State) (messageId : JSString)
    (h : DeletedForEveryone s messageId) : DeletedForEveryone (op.run s) messageId := by
  obtain ⟨m, hm, hflag, htype, hcontent⟩ := h
  cases op with
  | updateMessageStatus target status now =>
    simp only [Operation.run, DeletedForEveryone]
    rw [findOne_updateMessageStatus]
    cases hmt : Message.findOne s target with
    | none => exact ⟨m, hm, hflag, htype, hcontent⟩
    | some message =>
      simp only
      split
      · rename_i hc
        have hmm : message = m := by
          rw [hc.2, hmt] at hm
          exact Option.some.inj hm
        subst hmm
        refine ⟨_, rfl, ?_, ?_, ?_⟩
        · unfold statusUpdateData
          split
          · exact hflag
          · split
            · split <;> exact hflag
            · exact hflag
        · unfold statusUpdateData
          split
          · exact htype
          · split
            · split <;> exact htype
            · exact htype
        · unfold statusUpdateData
          split
          · exact hcontent
          · split
            · split <;> exact hcontent
            · exact hcontent
      · exact ⟨m, hm, hflag, htype, hcontent⟩
  | deleteMessage userId target deleteForEveryone now =>
    simp only [Operation.run, DeletedForEveryone]
    rcases deleteMessage_state userId target deleteForEveryone now s with h0 | h1
    · rw [h0]
      exact ⟨m, hm, hflag, htype, hcontent⟩
    · obtain ⟨message, doc, s1, es, hfm, hsave, hdoc, hst⟩ := h1
      rw [hst, findOne_emit, findOne_save s s1 doc messageId hsave]
      have hdid : doc.messageId = target := by
        have hmid : message.messageId = target := findOne_messageId hfm
        rcases hdoc with hd | ⟨w, hd⟩ <;> subst hd <;> exact hmid
      by_cases hid : messageId = doc.messageId
      · have hmm : message = m := by
          rw [hid, hdid, hfm] at hm
          exact Option.some.inj hm
        subst hmm
        simp only [hid, if_true]
        rw [← hid, hm]
        rcases hdoc with hd | ⟨w, hd⟩
        · exact ⟨doc, rfl, by rw [hd], by rw [hd], by rw [hd]⟩
        · exact ⟨doc, rfl, by rw [hd]; exact hflag, by rw [hd]; exact htype,
            by rw [hd]; exact hcontent⟩
      · simp only [hid, if_false]
        exact ⟨m, hm, hflag, htype, hcontent⟩
  | getMessages userId conversationId queryPage queryLimit =>
    simp only [Operation.run, DeletedForEveryone, getMessages]
    cases hu : User.findById s userId with
    | none => exact ⟨m, hm, hflag, htype, hcontent⟩
    | some currentUser =>
      simp only
      split
      · exact ⟨m, hm, hflag, htype, hcontent⟩
      · simp only
        rw [findOne_map s _ messageId (markRead_messageId conversationId currentUser.wa_id), hm]
        refine ⟨_, rfl, ?_, ?_, ?_⟩ <;> unfold markRead <;> split <;> assumption
  | processMessage messageData display_phone_number =>
    simp only [Operation.run, DeletedForEveryone, PayloadProcessor.processMessage]
    cases User.findOne s messageData.sender with
    | none => exact ⟨m, hm, hflag, htype, hcontent⟩
    | some sender =>
      simp only
      cases Message.findOne s messageData.id with
      | some _ => exact ⟨m, hm, hflag, htype, hcontent⟩
      | none =>
        simp only
        cases dateOfSeconds messageData.timestamp with
        | none => exact ⟨m, hm, hflag, htype, hcontent⟩
        | some t =>
          simp only
          split
          · exact ⟨m, hm, hflag, htype, hcontent⟩
          · rename_i s1 hc
            exact ⟨m, findOne_create s s1 _ m messageId hc hm, hflag, htype, hcontent⟩
  | processStatusUpdate statusData =>
    simp only [Operation.run, DeletedForEveryone, PayloadProcessor.processStatusUpdate]
    cases Message.findOne s statusData.id with
    | none => exact ⟨m, hm, hflag, htype, hcontent⟩
    | some _ =>
      simp only
      rw [findOne_findOneAndUpdate s messageId statusData.id
        (fun m => { m with status := statusData.status }) (fun _ => rfl)]
      split
      · rw [hm]
        exact ⟨_, rfl, hflag, htype, hcontent⟩
      · exact ⟨m, hm, hflag, htype, hcontent⟩

theorem DeletedForEveryone_runAll (ops : List Operation) :
    ∀ (s : State) (messageId : JSString), DeletedForEveryone s messageId →
      DeletedForEveryone (runAll ops s) messageId := by
  induction ops with
  | nil => intro s messageId h; exact h
  | cons op ops ih =>
    intro s messageId h
    exact ih _ _ (DeletedForEveryone_run op s messageId h)

/-- A successful delete for everyone leaves the message deleted for everyone. -/
theorem DeletedForEveryone_of_success (s : State) (userId : Nat) (messageId : JSString)
    (now : Int) (h : (deleteMessage userId messageId true now s).1.status = 200) :
    DeletedForEveryone (deleteMessage userId messageId true now s).2 messageId := by
  unfold deleteMessage at h ⊢
  cases hu : User.findById s userId with
  | none => simp [hu, Response.fail] at h
  | some currentUser =>
    cases hm : Message.findOne s messageId with
    | none => simp [hu, hm, Response.fail] at h
    | some message =>
      simp only [hu, hm] at h ⊢
      by_cases hcan : (!(decide (message.fromNumber = currentUser.wa_id) ||
          decide (message.toNumber = currentUser.wa_id))) = true
      · rw [if_pos hcan] at h
        simp [Response.fail] at h
      · rw [if_neg hcan] at h ⊢
        simp only [↓reduceIte] at h ⊢
        by_cases hsender : message.fromNumber ≠ currentUser.wa_id
        · rw [if_pos hsender] at h
          simp [Response.fail] at h
        · rw [if_neg hsender] at h ⊢
          by_cases hwin : now - message.timestamp > deleteWindowMs
          · rw [if_pos hwin] at h
            simp [Response.fail] at h
          · rw [if_neg hwin] at h ⊢
            cases hsave : Message.save { message with
                messageType := str "deleted"
                content := deletedContent
                deletedForEveryone := true
                deletedForEveryoneAt := some now } s with
            | none =>
              rw [hsave] at h
              simp [Response.fail] at h
            | some s1 =>
              simp only
              have hfind := findOne_save s s1 _ messageId hsave
              rw [if_pos (findOne_messageId hm).symm, hm] at hfind
              by_cases hio : s1.io = true
              · simp only [hio, if_true]
                exact ⟨_, by rw [findOne_emit]; exact hfind, rfl, rfl, rfl⟩
              · simp only [hio, if_false]
                exact ⟨_, hfind, rfl, rfl, rfl⟩

/-- C7: once `deleteMessage` with `deleteForEveryone = true` has succeeded on a
message, the stored message has the flag set and the placeholder kind and
content, and keeps them under every later sequence of operations: status
updates, per-viewer deletes, repeated deletes for everyone, listings with
their bulk mark-read, and ingestion of messages and statuses, of any id. -/
theorem deletedForEveryone_irreversible (s : State) (userId : Nat) (messageId : JSString)
    (now : Int) (ops : List Operation)
    (h : (deleteMessage userId messageId true now s).1.status = 200) :
    DeletedForEveryone (deleteMessage userId messageId true now s).2 messageId ∧
    DeletedForEveryone (runAll ops (deleteMessage userId messageId true now s).2)
      messageId :=
  ⟨DeletedForEveryone_of_success s userId messageId now h,
    DeletedForEveryone_runAll ops _ _ (DeletedForEveryone_of_success s userId messageId now h)⟩

theorem deletedForEveryone_irreversible_witness :
    (deleteMessage 1 (str "m1") true 2000 Sample.store).1.status = 200 ∧
    DeletedForEveryone (deleteMessage 1 (str "m1") true 2000 Sample.store).2 (str "m1") ∧
    DeletedForEveryone (runAll
      [.updateMessageStatus (str "m1") (str "read") 3000,
       .deleteMessage 2 (str "m1") false 4000,
       .deleteMessage 1 (str "m1") true 5000,
       .getMessages 2 (str "+1111_+2222") 0 0,
       .processMessage ⟨str "m1", str "+1111", none, some (str "again"), some 1⟩ none,
       .processStatusUpdate ⟨str "m1", str "delivered"⟩]
      (deleteMessage 1 (str "m1") true 2000 Sample.store).2) (str "m1") :=
  ⟨by decide,
    deletedForEveryone_irreversible Sample.store 1 (str "m1") 2000 _ (by decide)⟩

/-! ### Per-viewer deletion and listings -/

/-- With unique ids, replacing the first document with an id is replacing
every document with that id. -/
theorem updateFirst_eq_map (l : List Message) (messageId : JSString)
    (f : Message → Message) (hn : (l.map (fun m => m.messageId)).Nodup) :
    updateFirst (fun m => decide (m.messageId = messageId)) f l =
      l.map (fun m => if m.messageId = messageId then f m else m) := by
  induction l with
  | nil => rfl
  | cons x xs ih =>
    simp only [List.map_cons, List.nodup_cons] at hn
    by_cases hx : x.messageId = messageId
    · simp only [updateFirst, hx, decide_True, if_true, List.map_cons, List.cons.injEq,
        true_and]
      symm
      calc xs.map (fun m => if m.messageId = messageId then f m else m)
          = xs.map id := by
            apply List.map_congr_left
            intro y hy
            have : y.messageId ≠ messageId := by
              intro hc
              exact hn.1 (List.mem_map.mpr ⟨y, hy, by rw [hc, hx]⟩)
            simp [this]
        _ = xs := List.map_id xs
    · simp [updateFirst, hx, ih hn.2]

theorem unique_of_nodup (l : List Message) (messageId : JSString) (M m : Message)
    (hn : (l.map (fun m => m.messageId)).Nodup)
    (hM : l.find? (fun m => decide (m.messageId = messageId)) = some M)
    (hm : m ∈ l) (hid : m.messageId = messageId) : m = M := by
  have hMl : M ∈ l := List.mem_of_find?_eq_some hM
  have hMid : M.messageId = messageId := by simpa using List.find?_some hM
  exact List.inj_on_of_nodup_map hn hm hMl (by rw [hid, hMid])

theorem hideFor_any (wa_id : JSString) (now : Int) (m : Message) :
    (hideFor wa_id now m).deletedBy.any (fun d => decide (d.userId = wa_id)) = true := by
  unfold hideFor
  split
  · assumption
  · simp

theorem hideFor_fields (wa_id : JSString) (now : Int) (m : Message) :
    { hideFor wa_id now m with deletedBy := m.deletedBy } = m := by
  unfold hideFor
  split <;> rfl

theorem visibleTo_hideFor_other (wa_id viewer : JSString) (now : Int) (m : Message)
    (h : viewer ≠ wa_id) : visibleTo viewer (hideFor wa_id now m) = visibleTo viewer m := by
  unfold hideFor
  split
  · rfl
  · simp [visibleTo, List.any_append, Ne.symm h]

theorem visibleTo_hideFor_flag (wa_id viewer : JSString) (now : Int) (m : Message)
    (h : m.deletedForEveryone = true) :
    visibleTo viewer (hideFor wa_id now m) = visibleTo viewer m := by
  unfold hideFor
  split
  · rfl
  · simp [visibleTo, h]

/-- The state a successful per-viewer delete leaves, the ids being unique. -/
theorem deleteForViewer_state (s : State) (userId : Nat) (currentUser : User)
    (messageId : JSString) (message : Message) (now : Int)
    (hn : (s.messages.map (fun m => m.messageId)).Nodup)
    (hu : User.findById s userId = some currentUser)
    (hm : Message.findOne s messageId = some message)
    (hok : (deleteMessage userId messageId false now s).1.status = 200) :
    (deleteMessage userId messageId false now s).2 =
      { s with messages := s.messages.map (hideMessageFor messageId currentUser.wa_id now) } := by
  have hmid : message.messageId = messageId := findOne_messageId hm
  have huniq : ∀ m ∈ s.messages, m.messageId = messageId → m = message :=
    fun m hmem hid => unique_of_nodup s.messages messageId message m hn hm hmem hid
  unfold deleteMessage at hok ⊢
  simp only [hu, hm] at hok ⊢
  by_cases hcan : (!(decide (message.fromNumber = currentUser.wa_id) ||
      decide (message.toNumber = currentUser.wa_id))) = true
  · rw [if_pos hcan] at hok
    simp [Response.fail] at hok
  · rw [if_neg hcan] at hok ⊢
    simp only [Bool.false_eq_true, ↓reduceIte] at hok ⊢
    by_cases hal : message.deletedBy.any (fun d => decide (d.userId = currentUser.wa_id)) = true
    · rw [if_pos hal]
      show s = _
      have : s.messages.map (hideMessageFor messageId currentUser.wa_id now) = s.messages := by
        conv_rhs => rw [← List.map_id s.messages]
        apply List.map_congr_left
        intro m hmem
        unfold hideMessageFor
        by_cases hid : m.messageId = messageId
        · rw [if_pos hid, huniq m hmem hid]
          simp [hideFor, hal]
        · rw [if_neg hid]; rfl
      rw [this]
    · rw [if_neg hal] at hok ⊢
      cases hsave : Message.save { message with
          deletedBy := message.deletedBy ++ [⟨currentUser.wa_id, now⟩] } s with
      | none =>
        rw [hsave] at hok
        simp [Response.fail] at hok
      | some s1 =>
        simp only
        unfold Message.save at hsave
        split at hsave
        · exact absurd hsave (by simp)
        · simp only [Option.some.injEq] at hsave
          rw [← hsave, updateFirst_eq_map s.messages _ _ hn]
          congr 1
          apply List.map_congr_left
          intro m hmem
          show (if m.messageId = message.messageId then _ else m) = _
          unfold hideMessageFor
          rw [hmid]
          by_cases hid : m.messageId = messageId
          · rw [if_pos hid, if_pos hid, huniq m hmem hid]
            simp [hideFor, hal, hmid]
          · rw [if_neg hid, if_neg hid]

theorem hideMessageFor_conversationId (messageId wa_id : JSString) (now : Int) (m : Message) :
    (hideMessageFor messageId wa_id now m).conversationId = m.conversationId := by
  unfold hideMessageFor hideFor
  split
  · split <;> rfl
  · rfl

theorem hideMessageFor_timestamp (messageId wa_id : JSString) (now : Int) (m : Message) :
    (hideMessageFor messageId wa_id now m).timestamp = m.timestamp := by
  unfold hideMessageFor hideFor
  split
  · split <;> rfl
  · rfl

theorem hideMessageFor_fromNumber (messageId wa_id : JSString) (now : Int) (m : Message) :
    (hideMessageFor messageId wa_id now m).fromNumber = m.fromNumber := by
  unfold hideMessageFor hideFor
  split
  · split <;> rfl
  · rfl

theorem hideMessageFor_toNumber (messageId wa_id : JSString) (now : Int) (m : Message) :
    (hideMessageFor messageId wa_id now m).toNumber = m.toNumber := by
  unfold hideMessageFor hideFor
  split
  · split <;> rfl
  · rfl

theorem hideMessageFor_messageId (messageId wa_id : JSString) (now : Int) (m : Message) :
    (hideMessageFor messageId wa_id now m).messageId = m.messageId := by
  unfold hideMessageFor hideFor
  split
  · split <;> rfl
  · rfl

/-- The page of a conversation commutes with an update of the documents that
keeps conversation and timestamp. -/
theorem conversationPage_map (s : State) (g : Message → Message)
    (hc : ∀ m, (g m).conversationId = m.conversationId)
    (ht : ∀ m, (g m).timestamp = m.timestamp)
    (conversationId : JSString) (page limit : Nat) :
    conversationPage { s with messages := s.messages.map g } conversationId page limit =
      (conversationPage s conversationId page limit).map g := by
  unfold conversationPage
  simp only [List.map_take, List.map_drop]
  congr 2
  rw [List.filter_map]
  have hp : (fun m : Message => decide (m.conversationId = conversationId)) ∘ g =
      fun m => decide (m.conversationId = conversationId) := by
    funext m
    simp [hc m]
  rw [hp]
  symm
  apply List.map_insertionSort
  intro a _ b _
  rw [ht a, ht b]

theorem mem_conversationPage {s : State} {conversationId : JSString} {page limit : Nat}
    {m : Message} (h : m ∈ conversationPage s conversationId page limit) : m ∈ s.messages := by
  unfold conversationPage at h
  have h1 := List.mem_of_mem_drop (List.mem_of_mem_take h)
  rw [List.mem_insertionSort] at h1
  exact List.mem_of_mem_filter h1

/-- The listing of a viewer commutes with an update of the documents that
keeps conversation, timestamp, participants and the visibility for that
viewer. -/
theorem getMessages_map (s : State) (g : Message → Message) (userId : Nat)
    (conversationId : JSString) (queryPage queryLimit : Nat)
    (hc : ∀ m, (g m).conversationId = m.conversationId)
    (ht : ∀ m, (g m).timestamp = m.timestamp)
    (hfrom : ∀ m, (g m).fromNumber = m.fromNumber)
    (hto : ∀ m, (g m).toNumber = m.toNumber)
    (hvis : ∀ u, User.findById s userId = some u →
      ∀ m ∈ s.messages, visibleTo u.wa_id (g m) = visibleTo u.wa_id m) :
    (getMessages userId conversationId queryPage queryLimit
        { s with messages := s.messages.map g }).1.messages =
      (getMessages userId conversationId queryPage queryLimit s).1.messages.map g := by
  unfold getMessages
  have hfu : User.findById { s with messages := s.messages.map g } userId =
      User.findById s userId := rfl
  rw [hfu]
  cases hu : User.findById s userId with
  | none => simp [Response.fail]
  | some currentUser =>
    simp only
    have hacc : (List.find? (fun m => decide (m.conversationId = conversationId) &&
          (decide (m.fromNumber = currentUser.wa_id) || decide (m.toNumber = currentUser.wa_id)))
          (s.messages.map g)).isNone =
        (List.find? (fun m => decide (m.conversationId = conversationId) &&
          (decide (m.fromNumber = currentUser.wa_id) || decide (m.toNumber = currentUser.wa_id)))
          s.messages).isNone := by
      rw [List.find?_map, Option.isNone_map']
      congr 2
      funext m
      simp [hc m, hfrom m, hto m]
    rw [hacc]
    split
    · simp [Response.fail]
    · simp only
      have hfilter : List.filter (visibleTo currentUser.wa_id ∘ g)
            (conversationPage s conversationId (if queryPage = 0 then 1 else queryPage)
              (if queryLimit = 0 then 50 else queryLimit)) =
          List.filter (visibleTo currentUser.wa_id)
            (conversationPage s conversationId (if queryPage = 0 then 1 else queryPage)
              (if queryLimit = 0 then 50 else queryLimit)) := by
        apply List.filter_congr
        intro m hm
        exact hvis currentUser hu m (mem_conversationPage hm)
      rw [conversationPage_map s g hc ht, List.filter_map, hfilter, List.map_reverse]

/-- What a listing returns is stored and visible to the viewer. -/
theorem mem_getMessages (s : State) (userId : Nat) (currentUser : User)
    (conversationId : JSString) (queryPage queryLimit : Nat) (m : Message)
    (hu : User.findById s userId = some currentUser)
    (h : m ∈ (getMessages userId conversationId queryPage queryLimit s).1.messages) :
    m ∈ s.messages ∧ visibleTo currentUser.wa_id m = true := by
  unfold getMessages at h
  simp only [hu] at h
  split at h
  · simp [Response.fail] at h
  · simp only [List.mem_reverse, List.mem_filter] at h
    exact ⟨mem_conversationPage h.1, h.2⟩

/-- C8, as the code has it: after Alice has deleted her message `m1` for
herself, the listing of Bob still holds `m1`, but not unchanged: its
`deletedBy`, empty before, now carries the entry of Alice. -/
theorem viewer_delete_shows_in_deletedBy :
    (deleteMessage 1 (str "m1") false 3000 Sample.store).1.status = 200 ∧
    (getMessages 2 (str "+1111_+2222") 0 0 Sample.store).1.messages.map
      (fun m => (m.messageId, m.deletedBy)) = [(str "m1", []), (str "m2", [])] ∧
    (getMessages 2 (str "+1111_+2222") 0 0
      (deleteMessage 1 (str "m1") false 3000 Sample.store).2).1.messages.map
      (fun m => (m.messageId, m.deletedBy)) =
      [(str "m1", [⟨str "+1111", 3000⟩]), (str "m2", [])] := by
  decide

/-- C8, amended: when participant `x` has per-viewer-deleted the stored message
`M` (ids being unique in the store), every listing by another viewer is the
listing it was, `M` included wherever it was, with every field of `M`
unchanged but `deletedBy`, which carries the entry of `x`; no listing by `x`
contains the message when it is not deleted for everyone; and when it is
deleted for everyone the listings of all viewers, `x` included, are the
listings they were, with `M` and its placeholder content. -/
theorem viewer_delete_isolation (s : State) (userId : Nat) (x : User)
    (messageId : JSString) (M : Message) (now : Int)
    (hn : (s.messages.map (fun m => m.messageId)).Nodup)
    (hx : User.findById s userId = some x)
    (hM : Message.findOne s messageId = some M)
    (hok : (deleteMessage userId messageId false now s).1.status = 200) :
    (∀ (viewerId : Nat) (y : User) (conversationId : JSString) (page limit : Nat),
      User.findById s viewerId = some y → y.wa_id ≠ x.wa_id →
      (getMessages viewerId conversationId page limit
          (deleteMessage userId messageId false now s).2).1.messages =
        (getMessages viewerId conversationId page limit s).1.messages.map
          (hideMessageFor messageId x.wa_id now)) ∧
    (∀ m, { hideMessageFor messageId x.wa_id now m with deletedBy := m.deletedBy } = m) ∧
    (M.deletedForEveryone = false →
      ∀ (conversationId : JSString) (page limit : Nat),
        ∀ m ∈ (getMessages userId conversationId page limit
          (deleteMessage userId messageId false now s).2).1.messages,
        m.messageId ≠ messageId) ∧
    (M.deletedForEveryone = true →
      ∀ (viewerId : Nat) (conversationId : JSString) (page limit : Nat),
        (getMessages viewerId conversationId page limit
            (deleteMessage userId messageId false now s).2).1.messages =
          (getMessages viewerId conversationId page limit s).1.messages.map
            (hideMessageFor messageId x.wa_id now)) := by
  have hst := deleteForViewer_state s userId x messageId M now hn hx hM hok
  have huniq : ∀ m ∈ s.messages, m.messageId = messageId → m = M :=
    fun m hmem hid => unique_of_nodup s.messages messageId M m hn hM hmem hid
  refine ⟨?_, ?_, ?_, ?_⟩
  · intro viewerId y conversationId page limit hy hne
    rw [hst]
    apply getMessages_map s _ viewerId conversationId page limit
      (hideMessageFor_conversationId _ _ _) (hideMessageFor_timestamp _ _ _)
      (hideMessageFor_fromNumber _ _ _) (hideMessageFor_toNumber _ _ _)
    intro u hu m _
    rw [hy] at hu
    have huy : u = y := (Option.some.inj hu).symm
    subst huy
    unfold hideMessageFor
    split
    · exact visibleTo_hideFor_other x.wa_id u.wa_id now m hne
    · rfl
  · intro m
    unfold hideMessageFor
    split
    · exact hideFor_fields x.wa_id now m
    · rfl
  · intro hflag conversationId page limit m hmem hid
    have hx' : User.findById (deleteMessage userId messageId false now s).2 userId = some x := by
      rw [hst]; exact hx
    obtain ⟨hstored, hvis⟩ := mem_getMessages _ userId x conversationId page limit m hx' hmem
    rw [hst] at hstored
    simp only [List.mem_map] at hstored
    obtain ⟨m0, hm0, hm0eq⟩ := hstored
    have hid0 : m0.messageId = messageId := by
      rw [← hideMessageFor_messageId messageId x.wa_id now m0, hm0eq]
      exact hid
    have hm0M : m0 = M := huniq m0 hm0 hid0
    subst hm0M
    have hmeq : m = hideFor x.wa_id now m0 := by
      rw [← hm0eq]
      unfold hideMessageFor
      rw [if_pos hid0]
    have hflag' : m.deletedForEveryone = false := by
      rw [hmeq]
      unfold hideFor
      split <;> exact hflag
    have hany := hideFor_any x.wa_id now m0
    rw [← hmeq] at hany
    simp [visibleTo, hflag', hany] at hvis
  · intro hflag viewerId conversationId page limit
    rw [hst]
    apply getMessages_map s _ viewerId conversationId page limit
      (hideMessageFor_conversationId _ _ _) (hideMessageFor_timestamp _ _ _)
      (hideMessageFor_fromNumber _ _ _) (hideMessageFor_toNumber _ _ _)
    intro u _ m hmem
    unfold hideMessageFor
    split
    · rename_i hid
      rw [huniq m hmem hid]
      exact visibleTo_hideFor_flag x.wa_id u.wa_id now M hflag
    · rfl

theorem viewer_delete_isolation_witness :
    (Sample.store.messages.map (fun m => m.messageId)).Nodup ∧
    User.findById Sample.store 1 = some Sample.alice ∧
    Message.findOne Sample.store (str "m1") = some Sample.hi ∧
    (deleteMessage 1 (str "m1") false 3000 Sample.store).1.status = 200 ∧
    (getMessages 2 (str "+1111_+2222") 0 0
        (deleteMessage 1 (str "m1") false 3000 Sample.store).2).1.messages =
      (getMessages 2 (str "+1111_+2222") 0 0 Sample.store).1.messages.map
        (hideMessageFor (str "m1") Sample.alice.wa_id 3000) ∧
    (getMessages 2 (str "+1111_+2222") 0 0 Sample.store).1.messages = [Sample.hi, Sample.yo] ∧
    (getMessages 1 (str "+1111_+2222") 0 0
        (deleteMessage 1 (str "m1") false 3000 Sample.store).2).1.messages = [Sample.yo] :=
  ⟨by decide, by decide, by decide, by decide,
    (viewer_delete_isolation Sample.store 1 Sample.alice (str "m1") Sample.hi 3000
      (by decide) (by decide) (by decide) (by decide)).1 2 Sample.bob (str "+1111_+2222") 0 0
      (by decide) (by decide),
    by decide, by decide⟩

/-! ### Sending -/

theorem findOne_of_findById {s : State} {userId : Nat} {u : User}
    (h : User.findById s userId = some u) : (User.findOne s u.wa_id).isSome = true := by
  unfold User.findOne
  rw [List.find?_isSome]
  exact ⟨u, List.mem_of_find?_eq_some h, by simp⟩

/-- One direction of the block check: a send between two existing users, one
of whom blocks the other, is refused and changes nothing. -/
theorem sendMessage_blocked (s : State) (req : SendMessageRequest) (now : Int)
    (rnd : JSString) (sender recipient : User)
    (hs : User.findById s req.userId = some sender)
    (hr : (User.findOne s req.toNumber).isSome = true)
    (hto : req.toNumber = recipient.wa_id)
    (hv : req.validationErrors = false)
    (hb : isUserBlocked s sender.wa_id recipient.wa_id = true ∨
      isUserBlocked s recipient.wa_id sender.wa_id = true) :
    sendMessage req now rnd s =
      (Response.fail 403 "Cannot send message. User is blocked.", s) := by
  unfold sendMessage
  cases hfo : User.findOne s req.toNumber with
  | none => simp [hfo] at hr
  | some r =>
    have hbb : (isUserBlocked s sender.wa_id req.toNumber ||
        isUserBlocked s req.toNumber sender.wa_id) = true := by
      rw [hto]
      rcases hb with h | h <;> simp [h]
    simp only [hv, hs, Bool.false_eq_true, if_false, hbb, if_true]

/-- C9: if a block record exists in either direction between the users `A`
and `B`, a send from `A` to `B` and a send from `B` to `A` (requests that
passed validation) are both answered 403 "Cannot send message. User is
blocked." and leave the state unchanged: no message is stored and no event is
emitted. -/
theorem block_enforced_both_ways (s : State) (reqAB reqBA : SendMessageRequest)
    (nowAB nowBA : Int) (rndAB rndBA : JSString) (A B : User)
    (hA : User.findById s reqAB.userId = some A)
    (hB : User.findById s reqBA.userId = some B)
    (htoB : reqAB.toNumber = B.wa_id) (htoA : reqBA.toNumber = A.wa_id)
    (hvAB : reqAB.validationErrors = false) (hvBA : reqBA.validationErrors = false)
    (hb : isUserBlocked s A.wa_id B.wa_id = true ∨ isUserBlocked s B.wa_id A.wa_id = true) :
    sendMessage reqAB nowAB rndAB s =
      (Response.fail 403 "Cannot send message. User is blocked.", s) ∧
    sendMessage reqBA nowBA rndBA s =
      (Response.fail 403 "Cannot send message. User is blocked.", s) :=
  ⟨sendMessage_blocked s reqAB nowAB rndAB A B hA
      (by rw [htoB]; exact findOne_of_findById hB) htoB hvAB hb,
    sendMessage_blocked s reqBA nowBA rndBA B A hB
      (by rw [htoA]; exact findOne_of_findById hA) htoA hvBA hb.symm⟩

theorem block_enforced_both_ways_witness :
    User.findById Sample.blockedStore 1 = some Sample.alice ∧
    User.findById Sample.blockedStore 2 = some Sample.bob ∧
    isUserBlocked Sample.blockedStore Sample.alice.wa_id Sample.bob.wa_id = true ∧
    isUserBlocked Sample.blockedStore Sample.bob.wa_id Sample.alice.wa_id = false ∧
    (sendMessage { userId := 1, toNumber := str "+2222", message := str "hi" } 5000 (str "a")
        Sample.blockedStore =
      (Response.fail 403 "Cannot send message. User is blocked.", Sample.blockedStore) ∧
     sendMessage { userId := 2, toNumber := str "+1111", message := str "yo" } 6000 (str "b")
        Sample.blockedStore =
      (Response.fail 403 "Cannot send message. User is blocked.", Sample.blockedStore)) :=
  ⟨by decide, by decide, by decide, by decide,
    block_enforced_both_ways Sample.blockedStore
      { userId := 1, toNumber := str "+2222", message := str "hi" }
      { userId := 2, toNumber := str "+1111", message := str "yo" }
      5000 6000 (str "a") (str "b") Sample.alice Sample.bob
      (by decide) (by decide) (by decide) (by decide) (by decide) (by decide)
      (Or.inl (by decide))⟩

/-- C10: when `sendMessage` from the user `f` answers 201, the recipient
exists and is not blocked in either direction, and exactly one message has
been added to the store, from `f` to the recipient, with status `sent`, the
given text as body and the conversation id of the pair; when no user has the
recipient's `wa_id` (the request having passed validation) the answer is 404
"Recipient not found" and the state is unchanged. -/
theorem sendMessage_creates_one (s : State) (req : SendMessageRequest) (now : Int)
    (rnd : JSString) (f : User) (hf : User.findById s req.userId = some f) :
    ((sendMessage req now rnd s).1.status = 201 →
      (User.findOne s req.toNumber).isSome = true ∧
      isUserBlocked s f.wa_id req.toNumber = false ∧
      isUserBlocked s req.toNumber f.wa_id = false ∧
      ∃ doc : Message,
        (sendMessage req now rnd s).2.messages = s.messages ++ [doc] ∧
        (sendMessage req now rnd s).1.data = some doc ∧
        doc.fromNumber = f.wa_id ∧ doc.toNumber = req.toNumber ∧
        doc.status = str "sent" ∧ doc.content.body = some req.message ∧
        doc.conversationId = generateConversationId f.wa_id req.toNumber) ∧
    (req.validationErrors = false → User.findOne s req.toNumber = none →
      sendMessage req now rnd s = (Response.fail 404 "Recipient not found", s)) := by
  constructor
  · unfold sendMessage
    cases hv : req.validationErrors with
    | true => intro h; simp [Response.fail] at h
    | false =>
      simp only [Bool.false_eq_true, if_false, hf]
      cases hr : User.findOne s req.toNumber with
      | none => intro h; simp [Response.fail] at h
      | some r =>
        simp only
        cases hb1 : isUserBlocked s f.wa_id req.toNumber with
        | true => intro h; simp [Response.fail] at h
        | false =>
          cases hb2 : isUserBlocked s req.toNumber f.wa_id with
          | true => intro h; simp [Response.fail] at h
          | false =>
            simp only [Bool.or_self, Bool.false_eq_true, if_false]
            cases hc : Message.create (newMessageDoc f req now rnd) s with
            | none => intro h; simp [Response.fail] at h
            | some s1 =>
              simp only
              have hs1 : s1.messages = s.messages ++ [newMessageDoc f req now rnd] := by
                unfold Message.create at hc
                split at hc
                · exact absurd hc (by simp)
                · split at hc
                  · exact absurd hc (by simp)
                  · simp only [Option.some.injEq] at hc
                    subst hc
                    rfl
              cases hio : s1.io with
              | false => intro h; simp [Response.fail] at h
              | true =>
                intro _
                simp only [if_true]
                exact ⟨rfl, trivial, trivial,
                  newMessageDoc f req now rnd, hs1, rfl, rfl, rfl, rfl, rfl, rfl⟩
  · intro hv hr
    simp [sendMessage, hv, hf, hr]

theorem sendMessage_creates_one_witness :
    User.findById Sample.store 1 = some Sample.alice ∧
    (sendMessage { userId := 1, toNumber := str "+3333", message := str "hello" } 7000
        (str "k3x9") Sample.store).1.status = 201 ∧
    (sendMessage { userId := 1, toNumber := str "+3333", message := str "hello" } 7000
        (str "k3x9") Sample.store).2.messages.length = 3 ∧
    (User.findOne Sample.store (str "+4444") = none ∧
      sendMessage { userId := 1, toNumber := str "+4444", message := str "hello" } 7000
          (str "k3x9") Sample.store =
        (Response.fail 404 "Recipient not found", Sample.store)) :=
  ⟨by decide, by decide, by decide, by decide,
    (sendMessage_creates_one Sample.store
      { userId := 1, toNumber := str "+4444", message := str "hello" } 7000 (str "k3x9")
      Sample.alice (by decide)).2 (by decide) (by decide)⟩

/-! ### Idempotent ingestion -/

/-- What a successful `Message.create` does. -/
theorem create_spec {doc : Message} {s s1 : State} (h : Message.create doc s = some s1) :
    s1 = { s with messages := s.messages ++ [doc] } ∧
      Message.findOne s doc.messageId = none ∧ doc.validate = true := by
  unfold Message.create at h
  split at h
  · exact absurd h (by simp)
  · rename_i hv
    split at h
    · exact absurd h (by simp)
    · rename_i hf
      simp only [Option.some.injEq] at h
      refine ⟨h.symm, ?_, by simpa using hv⟩
      cases hfo : Message.findOne s doc.messageId with
      | none => rfl
      | some m => simp [hfo] at hf

theorem findOne_create_self {doc : Message} {s s1 : State}
    (h : Message.create doc s = some s1) : Message.findOne s1 doc.messageId = some doc := by
  obtain ⟨hs1, hnone, _⟩ := create_spec h
  subst hs1
  unfold Message.findOne at hnone ⊢
  simp [List.find?_append, hnone]

theorem countMessages_of_findOne_none {s : State} {messageId : JSString}
    (h : Message.findOne s messageId = none) : countMessages s messageId = 0 := by
  unfold countMessages
  unfold Message.findOne at h
  rw [List.countP_eq_zero]
  intro m hm
  exact List.find?_eq_none.mp h m hm

theorem countP_of_nodup (messageId : JSString) :
    ∀ (l : List Message), (l.map (fun m => m.messageId)).Nodup →
      (∃ m ∈ l, m.messageId = messageId) →
      l.countP (fun m => decide (m.messageId = messageId)) = 1 := by
  intro l
  induction l with
  | nil => intro _ h; obtain ⟨m, hm, _⟩ := h; simp at hm
  | cons x xs ih =>
    intro hn hex
    simp only [List.map_cons, List.nodup_cons] at hn
    by_cases hx : x.messageId = messageId
    · have hz : xs.countP (fun m => decide (m.messageId = messageId)) = 0 := by
        rw [List.countP_eq_zero]
        intro y hy
        simp only [decide_eq_true_eq]
        intro hc
        exact hn.1 (List.mem_map.mpr ⟨y, hy, by rw [hc, hx]⟩)
      simp [List.countP_cons, hx, hz]
    · obtain ⟨m, hm, hmid⟩ := hex
      have hmxs : m ∈ xs := by
        rcases List.mem_cons.mp hm with heq | hmem
        · exact absurd (heq ▸ hmid) hx
        · exact hmem
      simp [List.countP_cons, hx, ih hn.2 ⟨m, hmxs, hmid⟩]

theorem countMessages_of_findOne_some {s : State} {messageId : JSString} {m : Message}
    (hn : (s.messages.map (fun m => m.messageId)).Nodup)
    (h : Message.findOne s messageId = some m) : countMessages s messageId = 1 :=
  countP_of_nodup messageId s.messages hn
    ⟨m, List.mem_of_find?_eq_some h, findOne_messageId h⟩

theorem countMessages_create {doc : Message} {s s1 : State}
    (h : Message.create doc s = some s1) : countMessages s1 doc.messageId = 1 := by
  obtain ⟨hs1, hnone, _⟩ := create_spec h
  have h0 := countMessages_of_findOne_none hnone
  subst hs1
  unfold countMessages at h0 ⊢
  simp [List.countP_append, h0]

/-- After a run that did not raise, a second run changes nothing and does not
raise, and the message is stored once. -/
theorem processMessage_rerun (s : State) (messageData : MessageData)
    (message : WebhookMessage) (display_phone_number env : Option JSString)
    (hn : (s.messages.map (fun m => m.messageId)).Nodup) :
    ((PayloadProcessor.processMessage messageData display_phone_number s).raised = false →
      PayloadProcessor.processMessage messageData display_phone_number
          (PayloadProcessor.processMessage messageData display_phone_number s).state =
        ⟨false, (PayloadProcessor.processMessage messageData display_phone_number s).state⟩ ∧
      ((User.findOne s messageData.sender).isSome = true →
        countMessages (PayloadProcessor.processMessage messageData display_phone_number s).state
          messageData.id = 1)) ∧
    ((WebhookParser.processMessage message display_phone_number env s).raised = false →
      WebhookParser.processMessage message display_phone_number env
          (WebhookParser.processMessage message display_phone_number env s).state =
        ⟨false, (WebhookParser.processMessage message display_phone_number env s).state⟩ ∧
      countMessages (WebhookParser.processMessage message display_phone_number env s).state
        message.id = 1) := by
  constructor
  · unfold PayloadProcessor.processMessage
    cases hu : User.findOne s messageData.sender with
    | none => intro _; simp [hu]
    | some sender =>
      simp only
      cases hf : Message.findOne s messageData.id with
      | some existing =>
        intro _
        simp only [hu, hf]
        exact ⟨trivial, fun _ => countMessages_of_findOne_some hn hf⟩
      | none =>
        simp only
        cases ht : dateOfSeconds messageData.timestamp with
        | none => intro h; simp at h
        | some t =>
          simp only
          split
          · intro h; simp at h
          · rename_i s1 hc
            intro _
            have hself := findOne_create_self hc
            have hcount := countMessages_create hc
            have hus : User.findOne s1 messageData.sender = some sender := by
              rw [(create_spec hc).1]; exact hu
            simp only at hself hcount
            simp only [hus, hself]
            exact ⟨trivial, fun _ => hcount⟩
  · unfold WebhookParser.processMessage
    simp only
    cases hf : Message.findOne s message.id with
    | some existing =>
      intro _
      simp only [hf]
      exact ⟨trivial, countMessages_of_findOne_some hn hf⟩
    | none =>
      simp only
      split
      · rename_i toNumber t _ _
        split
        · intro h; simp at h
        · rename_i s1 hc
          intro _
          have hself := findOne_create_self hc
          have hcount := countMessages_create hc
          simp only at hself hcount
          simp only [hself]
          exact ⟨trivial, hcount⟩
      · intro h; simp at h

theorem PayloadProcessor_raised_state (messageData : MessageData)
    (display_phone_number : Option JSString) (s : State) :
    (PayloadProcessor.processMessage messageData display_phone_number s).raised = true →
    (PayloadProcessor.processMessage messageData display_phone_number s).state = s := by
  unfold PayloadProcessor.processMessage
  cases User.findOne s messageData.sender with
  | none => intro _; rfl
  | some sender =>
    simp only
    cases Message.findOne s messageData.id with
    | some _ => intro _; rfl
    | none =>
      simp only
      cases dateOfSeconds messageData.timestamp with
      | none => intro _; rfl
      | some t =>
        simp only
        split
        · intro _; rfl
        · intro h; simp at h

theorem WebhookParser_raised_state (message : WebhookMessage)
    (display_phone_number env : Option JSString) (s : State) :
    (WebhookParser.processMessage message display_phone_number env s).raised = true →
    (WebhookParser.processMessage message display_phone_number env s).state = s := by
  unfold WebhookParser.processMessage
  simp only
  cases Message.findOne s message.id with
  | some _ => intro _; rfl
  | none =>
    simp only
    split
    · split
      · intro _; rfl
      · intro h; simp at h
    · intro _; rfl

/-- C11, as the code has it: `PayloadProcessor.processMessage` skips the
message of a sender that is no user, so after two runs, neither of which
raises, no stored message has its id; and a message whose timestamp is not a
number makes both runs raise and is not stored either. -/
theorem ingestion_skips_unknown_sender :
    User.findOne Sample.store Sample.stranger.sender = none ∧
    (PayloadProcessor.processMessage Sample.stranger none Sample.store).raised = false ∧
    (PayloadProcessor.processMessage Sample.stranger none
      (PayloadProcessor.processMessage Sample.stranger none Sample.store).state).raised
      = false ∧
    countMessages (PayloadProcessor.processMessage Sample.stranger none
      (PayloadProcessor.processMessage Sample.stranger none Sample.store).state).state
      Sample.stranger.id = 0 ∧
    (PayloadProcessor.processMessage Sample.broken none Sample.store).raised = true ∧
    (PayloadProcessor.processMessage Sample.broken none
      (PayloadProcessor.processMessage Sample.broken none Sample.store).state).raised
      = true ∧
    countMessages (PayloadProcessor.processMessage Sample.broken none
      (PayloadProcessor.processMessage Sample.broken none Sample.store).state).state
      Sample.broken.id = 0 := by
  decide

/-- C11, amended: processing the same external message twice through
`processMessage` is processing it once: the second run, on the state the first
run left, leaves that state and raises exactly when the first did, so after a
first run that does not raise the second changes nothing and does not raise.
After a run that does not raise, exactly one stored message has the id of the
external message, for the ingestor of `PayloadProcessor` when the sender is a
known user, for the ingestor of `WebhookParser` always (message ids being
unique in the store before). -/
theorem ingestion_idempotent (s : State) (messageData : MessageData)
    (message : WebhookMessage) (display_phone_number env : Option JSString)
    (hn : (s.messages.map (fun m => m.messageId)).Nodup) :
    (PayloadProcessor.processMessage messageData display_phone_number
        (PayloadProcessor.processMessage messageData display_phone_number s).state =
      PayloadProcessor.processMessage messageData display_phone_number s ∧
     ((PayloadProcessor.processMessage messageData display_phone_number s).raised = false →
      (User.findOne s messageData.sender).isSome = true →
      countMessages (PayloadProcessor.processMessage messageData display_phone_number s).state
        messageData.id = 1)) ∧
    (WebhookParser.processMessage message display_phone_number env
        (WebhookParser.processMessage message display_phone_number env s).state =
      WebhookParser.processMessage message display_phone_number env s ∧
     ((WebhookParser.processMessage message display_phone_number env s).raised = false →
      countMessages (WebhookParser.processMessage message display_phone_number env s).state
        message.id = 1)) := by
  have hrerun := processMessage_rerun s messageData message display_phone_number env hn
  refine ⟨⟨?_, fun h => (hrerun.1 h).2⟩, ⟨?_, fun h => (hrerun.2 h).2⟩⟩
  · cases hr : (PayloadProcessor.processMessage messageData display_phone_number s).raised with
    | false =>
      rw [(hrerun.1 hr).1]
      cases hp : PayloadProcessor.processMessage messageData display_phone_number s with
      | mk raised state =>
        rw [hp] at hr
        simp only at hr
        rw [hr]
    | true => rw [PayloadProcessor_raised_state messageData display_phone_number s hr]
  · cases hr : (WebhookParser.processMessage message display_phone_number env s).raised with
    | false =>
      rw [(hrerun.2 hr).1]
      cases hp : WebhookParser.processMessage message display_phone_number env s with
      | mk raised state =>
        rw [hp] at hr
        simp only at hr
        rw [hr]
    | true => rw [WebhookParser_raised_state message display_phone_number env s hr]

theorem ingestion_idempotent_witness :
    (Sample.store.messages.map (fun m => m.messageId)).Nodup ∧
    (PayloadProcessor.processMessage Sample.incoming none Sample.store).raised = false ∧
    (User.findOne Sample.store Sample.incoming.sender).isSome = true ∧
    (PayloadProcessor.processMessage Sample.incoming none
        (PayloadProcessor.processMessage Sample.incoming none Sample.store).state =
      PayloadProcessor.processMessage Sample.incoming none Sample.store ∧
     countMessages (PayloadProcessor.processMessage Sample.incoming none Sample.store).state
        Sample.incoming.id = 1) ∧
    (WebhookParser.processMessage Sample.parsed none (some (str "918329446654"))
        Sample.store).raised = false ∧
    countMessages (WebhookParser.processMessage Sample.parsed none
        (some (str "918329446654")) Sample.store).state Sample.parsed.id = 1 :=
  ⟨by decide, by decide, by decide,
    ⟨(ingestion_idempotent Sample.store Sample.incoming Sample.parsed none none
        (by decide)).1.1,
     (ingestion_idempotent Sample.store Sample.incoming Sample.parsed none none
        (by decide)).1.2 (by decide) (by decide)⟩,
    by decide,
    (ingestion_idempotent Sample.store Sample.incoming Sample.parsed none
      (some (str "918329446654")) (by decide)).2.2 (by decide)⟩

/-! ### Emission after the write -/

/-- What a successful `Message.save` does. -/
theorem save_spec {doc : Message} {s s1 : State} (h : Message.save doc s = some s1) :
    s1.messages =
        updateFirst (fun m => decide (m.messageId = doc.messageId)) (fun _ => doc) s.messages ∧
      s1.users = s.users ∧ s1.blockedUsers = s.blockedUsers ∧ s1.io = s.io ∧
      s1.emitted = s.emitted ∧ s1.conversations = s.conversations := by
  unfold Message.save at h
  split at h
  · exact absurd h (by simp)
  · simp only [Option.some.injEq] at h
    subst h
    exact ⟨rfl, rfl, rfl, rfl, rfl, rfl⟩

theorem emitted_emit (es : List Emission) (s : State) :
    (emit es s).emitted = s.emitted ++ es := rfl

/-- The outcomes of `sendMessage`: a failure that leaves the state as it was,
or a successful `Message.create` followed by the failure of `getIO` or by the
two emissions and the answer 201. -/
theorem sendMessage_outcome (req : SendMessageRequest) (now : Int) (rnd : JSString)
    (s : State) :
    ((sendMessage req now rnd s).2 = s ∧ (sendMessage req now rnd s).1.status ≠ 201) ∨
    ∃ (f : User) (s1 : State), User.findById s req.userId = some f ∧
      Message.create (newMessageDoc f req now rnd) s = some s1 ∧
      (((sendMessage req now rnd s).2 = s1 ∧ (sendMessage req now rnd s).1.status ≠ 201) ∨
        ((sendMessage req now rnd s).1.status = 201 ∧
          ∃ es, (sendMessage req now rnd s).2 = emit es s1)) := by
  unfold sendMessage
  cases hv : req.validationErrors with
  | true => left; simp [Response.fail]
  | false =>
    simp only [Bool.false_eq_true, if_false]
    cases hf : User.findById s req.userId with
    | none => left; simp [Response.fail]
    | some f =>
      simp only
      cases hr : User.findOne s req.toNumber with
      | none => left; simp [Response.fail]
      | some r =>
        simp only
        cases hb : (isUserBlocked s f.wa_id req.toNumber ||
            isUserBlocked s req.toNumber f.wa_id) with
        | true => left; simp [Response.fail]
        | false =>
          simp only [Bool.false_eq_true, if_false]
          cases hc : Message.create (newMessageDoc f req now rnd) s with
          | none => left; simp [Response.fail]
          | some s1 =>
            right
            refine ⟨f, s1, rfl, hc, ?_⟩
            simp only
            cases hio : s1.io with
            | false => left; simp [Response.fail]
            | true => right; exact ⟨rfl, _, rfl⟩

/-- The outcomes of `updateMessageStatus`. -/
theorem updateMessageStatus_outcome (messageId status : JSString) (now : Int) (s : State) :
    ((updateMessageStatus messageId status now s).2 = s ∧
      (updateMessageStatus messageId status now s).1.status ≠ 200) ∨
    ∃ message : Message, Message.findOne s messageId = some message ∧
      (((updateMessageStatus messageId status now s).2 =
          Message.findOneAndUpdate messageId (statusUpdateData status now message) s ∧
        (updateMessageStatus messageId status now s).1.status ≠ 200) ∨
       ((updateMessageStatus messageId status now s).1.status = 200 ∧
        ∃ es, (updateMessageStatus messageId status now s).2 =
          emit es (Message.findOneAndUpdate messageId (statusUpdateData status now message) s))) := by
  unfold updateMessageStatus
  by_cases hv : status ∈ validStatuses
  · simp only [hv, not_true_eq_false, if_false]
    cases hm : Message.findOne s messageId with
    | none => left; simp [Response.fail]
    | some message =>
      right
      refine ⟨message, rfl, ?_⟩
      simp only
      cases hio : (Message.findOneAndUpdate messageId
          (statusUpdateData status now message) s).io with
      | false => left; simp [Response.fail]
      | true => right; exact ⟨rfl, _, rfl⟩
  · left
    simp [hv, Response.fail]

/-- The outcomes of `deleteMessage`. -/
theorem deleteMessage_outcome (userId : Nat) (messageId : JSString)
    (deleteForEveryone : Bool) (now : Int) (s : State) :
    (deleteMessage userId messageId deleteForEveryone now s).2.emitted = s.emitted ∨
    ∃ (message : Message) (s1 : State), Message.findOne s messageId = some message ∧
      deleteForEveryone = true ∧
      Message.save { message with
          messageType := str "deleted"
          content := deletedContent
          deletedForEveryone := true
          deletedForEveryoneAt := some now } s = some s1 ∧
      (deleteMessage userId messageId deleteForEveryone now s).1.status = 200 ∧
      ∃ es, (deleteMessage userId messageId deleteForEveryone now s).2 = emit es s1 := by
  unfold deleteMessage
  cases hu : User.findById s userId with
  | none => left; rfl
  | some currentUser =>
    cases hm : Message.findOne s messageId with
    | none => left; rfl
    | some message =>
      simp only
      split
      · left; rfl
      · cases deleteForEveryone with
        | false =>
          left
          simp only [Bool.false_eq_true, if_false]
          split
          · rfl
          · cases hsave : Message.save { message with
                deletedBy := message.deletedBy ++ [⟨currentUser.wa_id, now⟩] } s with
            | none => rfl
            | some s1 =>
              simp only
              exact (save_spec hsave).2.2.2.2.1
        | true =>
          simp only [if_true]
          split
          · left; rfl
          · split
            · left; rfl
            · cases hsave : Message.save { message with
                  messageType := str "deleted"
                  content := deletedContent
                  deletedForEveryone := true
                  deletedForEveryoneAt := some now } s with
              | none => left; rfl
              | some s1 =>
                simp only
                cases hio : s1.io with
                | false =>
                  left
                  simp only [Bool.false_eq_true, if_false]
                  exact (save_spec hsave).2.2.2.2.1
                | true =>
                  right
                  exact ⟨message, s1, rfl, trivial, hsave, rfl, _, rfl⟩

/-- C12: `sendMessage`, `updateMessageStatus` and `deleteMessage` emit only
after their store write has succeeded. In every run that does not answer
success (201 for `sendMessage`, 200 for the other two) the log of emitted
events is unchanged; and in every run that changes the log, the write
(`Message.create`, `findOneAndUpdate`, `save`) has succeeded and the events are
emitted on the state the write left. -/
theorem emit_only_after_write (s : State) :
    (∀ (req : SendMessageRequest) (now : Int) (rnd : JSString),
      ((sendMessage req now rnd s).1.status ≠ 201 →
        (sendMessage req now rnd s).2.emitted = s.emitted) ∧
      ((sendMessage req now rnd s).2.emitted ≠ s.emitted →
        ∃ (f : User) (s1 : State) (es : List Emission),
          Message.create (newMessageDoc f req now rnd) s = some s1 ∧
          (sendMessage req now rnd s).2 = emit es s1)) ∧
    (∀ (messageId status : JSString) (now : Int),
      ((updateMessageStatus messageId status now s).1.status ≠ 200 →
        (updateMessageStatus messageId status now s).2.emitted = s.emitted) ∧
      ((updateMessageStatus messageId status now s).2.emitted ≠ s.emitted →
        ∃ (message : Message) (es : List Emission),
          Message.findOne s messageId = some message ∧
          (updateMessageStatus messageId status now s).2 =
            emit es (Message.findOneAndUpdate messageId
              (statusUpdateData status now message) s))) ∧
    (∀ (userId : Nat) (messageId : JSString) (deleteForEveryone : Bool) (now : Int),
      ((deleteMessage userId messageId deleteForEveryone now s).1.status ≠ 200 →
        (deleteMessage userId messageId deleteForEveryone now s).2.emitted = s.emitted) ∧
      ((deleteMessage userId messageId deleteForEveryone now s).2.emitted ≠ s.emitted →
        ∃ (message : Message) (s1 : State) (es : List Emission),
          Message.findOne s messageId = some message ∧
          Message.save { message with
            messageType := str "deleted"
            content := deletedContent
            deletedForEveryone := true
            deletedForEveryoneAt := some now } s = some s1 ∧
          (deleteMessage userId messageId deleteForEveryone now s).2 = emit es s1)) := by
  refine ⟨?_, ?_, ?_⟩
  · intro req now rnd
    rcases sendMessage_outcome req now rnd s with ⟨h0, _⟩ | ⟨f, s1, _, hc, h1⟩
    · exact ⟨fun _ => by rw [h0], fun h => absurd (by rw [h0]) h⟩
    · have hem : s1.emitted = s.emitted := by rw [(create_spec hc).1]
      rcases h1 with ⟨h2, _⟩ | ⟨h201, es, h2⟩
      · exact ⟨fun _ => by rw [h2, hem], fun h => absurd (by rw [h2, hem]) h⟩
      · exact ⟨fun h => absurd h201 h, fun _ => ⟨f, s1, es, hc, h2⟩⟩
  · intro messageId status now
    rcases updateMessageStatus_outcome messageId status now s with ⟨h0, _⟩ | ⟨message, hm, h1⟩
    · exact ⟨fun _ => by rw [h0], fun h => absurd (by rw [h0]) h⟩
    · rcases h1 with ⟨h2, _⟩ | ⟨h200, es, h2⟩
      · exact ⟨fun _ => by rw [h2]; rfl, fun h => absurd (by rw [h2]; rfl) h⟩
      · exact ⟨fun h => absurd h200 h, fun _ => ⟨message, es, hm, h2⟩⟩
  · intro userId messageId deleteForEveryone now
    rcases deleteMessage_outcome userId messageId deleteForEveryone now s with
      h0 | ⟨message, s1, hm, _, hsave, h200, es, h2⟩
    · exact ⟨fun _ => h0, fun h => absurd h0 h⟩
    · exact ⟨fun h => absurd h200 h, fun _ => ⟨message, s1, es, hm, hsave, h2⟩⟩

theorem emit_only_after_write_witness :
    ((sendMessage { userId := 1, toNumber := str "+2222", message := str "hi" } 5000 (str "a")
        Sample.blockedStore).1.status ≠ 201 ∧
      (sendMessage { userId := 1, toNumber := str "+2222", message := str "hi" } 5000 (str "a")
        Sample.blockedStore).2.emitted = Sample.blockedStore.emitted) ∧
    ((deleteMessage 1 (str "m1") true 2000 Sample.store).2.emitted ≠ Sample.store.emitted ∧
      ∃ (message : Message) (s1 : State) (es : List Emission),
        Message.findOne Sample.store (str "m1") = some message ∧
        Message.save { message with
          messageType := str "deleted"
          content := deletedContent
          deletedForEveryone := true
          deletedForEveryoneAt := some 2000 } Sample.store = some s1 ∧
        (deleteMessage 1 (str "m1") true 2000 Sample.store).2 = emit es s1) :=
  ⟨⟨by decide,
      ((emit_only_after_write Sample.blockedStore).1
        { userId := 1, toNumber := str "+2222", message := str "hi" } 5000 (str "a")).1
        (by decide)⟩,
    by decide,
    ((emit_only_after_write Sample.store).2.2 1 (str "m1") true 2000).2 (by decide)⟩

/-! ### Forwarding -/

theorem eligible_congr (s s1 : State) (currentUser : User) (t : ForwardTarget)
    (hu : s1.users = s.users) (hb : s1.blockedUsers = s.blockedUsers) :
    eligible s1 currentUser t = eligible s currentUser t := by
  simp [eligible, User.findOne, isUserBlocked, hu, hb]

/-- One step of the loop on a target that is not eligible: it is skipped. -/
theorem forwardLoop_skip_one (s : State) (currentUser : User) (originalMessage : Message)
    (t : ForwardTarget) (rest : List ForwardTarget) (n : Nat)
    (h : eligible s currentUser t = false) :
    forwardLoop currentUser originalMessage (t :: rest) n s =
      forwardLoop currentUser originalMessage rest n s := by
  rw [forwardLoop]
  cases hf : User.findOne s t.toNumber with
  | none => rfl
  | some r =>
    simp only
    have hb : (isUserBlocked s currentUser.wa_id t.toNumber ||
        isUserBlocked s t.toNumber currentUser.wa_id) = true := by
      simp only [eligible, hf, Option.isSome_some, Bool.true_and, Bool.not_eq_false'] at h
      exact h
    rw [if_pos hb]

/-- One step of the loop on an eligible target. -/
theorem forwardLoop_step_one (s : State) (currentUser : User) (originalMessage : Message)
    (t : ForwardTarget) (rest : List ForwardTarget) (n : Nat)
    (h : eligible s currentUser t = true) :
    forwardLoop currentUser originalMessage (t :: rest) n s =
      match Message.create (forwardedDoc currentUser originalMessage t) s with
      | none => (none, s)
      | some s1 =>
        if s1.io then
          forwardLoop currentUser originalMessage rest (n + 1)
            (emit [⟨(forwardedDoc currentUser originalMessage t).conversationId,
                    Event.new_message (forwardedDoc currentUser originalMessage t)
                      (forwardedDoc currentUser originalMessage t).conversationId⟩,
                   ⟨str "user_" ++ t.toNumber,
                    Event.message_notification currentUser.name
                      (forwardedDoc currentUser originalMessage t).content.body
                      (forwardedDoc currentUser originalMessage t).conversationId
                      (forwardedDoc currentUser originalMessage t).timestamp⟩] s1)
        else (none, s1) := by
  rw [forwardLoop]
  simp only [eligible, Bool.and_eq_true, Bool.not_eq_true'] at h
  cases hf : User.findOne s t.toNumber with
  | none => simp [hf] at h
  | some r =>
    simp only
    rw [if_neg (by simp [h.2])]

/-- The loop skips the targets that are not eligible. -/
theorem forwardLoop_skip (s : State) (currentUser : User) (originalMessage : Message) :
    ∀ (ts : List ForwardTarget) (n : Nat) (s1 : State),
      s1.users = s.users → s1.blockedUsers = s.blockedUsers →
      forwardLoop currentUser originalMessage ts n s1 =
        forwardLoop currentUser originalMessage (ts.filter (eligible s currentUser)) n s1 := by
  intro ts
  induction ts with
  | nil => intro n s1 _ _; rfl
  | cons t rest ih =>
    intro n s1 hu hb
    have hel := eligible_congr s s1 currentUser t hu hb
    by_cases he : eligible s currentUser t = true
    · rw [List.filter_cons_of_pos he,
        forwardLoop_step_one s1 currentUser originalMessage t rest n (hel.trans he),
        forwardLoop_step_one s1 currentUser originalMessage t _ n (hel.trans he)]
      cases hc : Message.create (forwardedDoc currentUser originalMessage t) s1 with
      | none => rfl
      | some s2 =>
        simp only
        have hs2 := (create_spec hc).1
        cases hio : s2.io with
        | false => rfl
        | true =>
          simp only [if_true]
          apply ih
          · rw [hs2]; exact hu
          · rw [hs2]; exact hb
    · simp only [Bool.not_eq_true] at he
      rw [List.filter_cons_of_neg (by simp [he]),
        forwardLoop_skip_one s1 currentUser originalMessage t rest n (hel.trans he)]
      exact ih n s1 hu hb

/-- A loop that ends without throwing has counted and stored one document
per eligible target. -/
theorem forwardLoop_success (s : State) (currentUser : User) (originalMessage : Message) :
    ∀ (ts : List ForwardTarget) (n k : Nat) (s1 s2 : State),
      s1.users = s.users → s1.blockedUsers = s.blockedUsers →
      forwardLoop currentUser originalMessage ts n s1 = (some k, s2) →
      k = n + ts.countP (eligible s currentUser) ∧
      s2.messages = s1.messages ++
        (ts.filter (eligible s currentUser)).map (forwardedDoc currentUser originalMessage) := by
  intro ts
  induction ts with
  | nil =>
    intro n k s1 s2 _ _ h
    simp only [forwardLoop, Prod.mk.injEq, Option.some.injEq] at h
    simp [h.1, h.2]
  | cons t rest ih =>
    intro n k s1 s2 hu hb h
    have hel := eligible_congr s s1 currentUser t hu hb
    by_cases he : eligible s currentUser t = true
    · rw [forwardLoop_step_one s1 currentUser originalMessage t rest n (hel.trans he)] at h
      cases hc : Message.create (forwardedDoc currentUser originalMessage t) s1 with
      | none => rw [hc] at h; simp at h
      | some s3 =>
        rw [hc] at h
        simp only at h
        have hs3 := (create_spec hc).1
        cases hio : s3.io with
        | false => rw [hio] at h; simp at h
        | true =>
          rw [hio] at h
          simp only [if_true] at h
          have := ih (n + 1) k _ s2 (by rw [hs3]; exact hu) (by rw [hs3]; exact hb) h
          simp only [List.countP_cons, he, if_true, List.filter_cons, List.map_cons]
          refine ⟨by omega, ?_⟩
          rw [this.2, hs3]
          simp [emit]
    · simp only [Bool.not_eq_true] at he
      rw [forwardLoop_skip_one s1 currentUser originalMessage t rest n (hel.trans he)] at h
      have := ih n k s1 s2 hu hb h
      simp only [List.countP_cons, he, Bool.false_eq_true, if_false, List.filter_cons,
        Nat.add_zero]
      exact this

/-- C13: for a requester with access to the original message, `forwardMessage`
skips the targets that do not name an existing user or that are blocked in
either direction: the call answers and leaves the state exactly as the same
call on the eligible targets alone, and with no eligible target it answers
200 with `forwardedTo = 0`. When it answers 200, `forwardedTo` is the number
of eligible entries of `toNumbers` and the store has gained exactly one
document per eligible entry, in order, each with the content and kind of the
original message and status `sent`. -/
theorem forwardMessage_counts (s : State) (userId : Nat) (messageId : JSString)
    (toNumbers : List ForwardTarget) (currentUser : User) (originalMessage : Message)
    (hu : User.findById s userId = some currentUser)
    (hm : Message.findOne s messageId = some originalMessage)
    (hacc : originalMessage.fromNumber = currentUser.wa_id ∨
      originalMessage.toNumber = currentUser.wa_id) :
    forwardMessage userId messageId toNumbers s =
      forwardMessage userId messageId (toNumbers.filter (eligible s currentUser)) s ∧
    ((∀ t ∈ toNumbers, eligible s currentUser t = false) →
      (forwardMessage userId messageId toNumbers s).1.status = 200 ∧
      (forwardMessage userId messageId toNumbers s).1.forwardedTo = some 0 ∧
      (forwardMessage userId messageId toNumbers s).2 = s) ∧
    ((forwardMessage userId messageId toNumbers s).1.status = 200 →
      (forwardMessage userId messageId toNumbers s).1.forwardedTo =
        some (toNumbers.countP (eligible s currentUser)) ∧
      (forwardMessage userId messageId toNumbers s).2.messages = s.messages ++
        (toNumbers.filter (eligible s currentUser)).map
          (forwardedDoc currentUser originalMessage)) ∧
    (∀ t, (forwardedDoc currentUser originalMessage t).content = originalMessage.content ∧
      (forwardedDoc currentUser originalMessage t).messageType = originalMessage.messageType ∧
      (forwardedDoc currentUser originalMessage t).status = str "sent" ∧
      (forwardedDoc currentUser originalMessage t).toNumber = t.toNumber) := by
  have hacc' : (!(decide (originalMessage.fromNumber = currentUser.wa_id) ||
      decide (originalMessage.toNumber = currentUser.wa_id))) = false := by
    rcases hacc with h | h <;> simp [h]
  have hskip := forwardLoop_skip s currentUser originalMessage toNumbers 0 s rfl rfl
  have hunf : ∀ ts, forwardMessage userId messageId ts s =
      match forwardLoop currentUser originalMessage ts 0 s with
      | (none, s1) => (Response.fail 500 "Server error while forwarding message", s1)
      | (some n, s1) =>
        ({ status := 200, success := true,
           message := "Message forwarded to " ++ toString n ++ " recipients",
           forwardedTo := some n }, s1) := by
    intro ts
    simp only [forwardMessage, hu, hm, hacc', Bool.false_eq_true, if_false]
  refine ⟨?_, ?_, ?_, fun t => ⟨rfl, rfl, rfl, rfl⟩⟩
  · rw [hunf, hunf, hskip]
  · intro hall
    have hnil : toNumbers.filter (eligible s currentUser) = [] := by
      rw [List.filter_eq_nil_iff]
      intro t ht
      simp [hall t ht]
    rw [hunf, hskip, hnil]
    simp [forwardLoop]
  · rw [hunf]
    cases hl : forwardLoop currentUser originalMessage toNumbers 0 s with
    | mk r s1 =>
      cases r with
      | none => intro h; simp [Response.fail] at h
      | some k =>
        intro _
        have := forwardLoop_success s currentUser originalMessage toNumbers 0 k s s1 rfl rfl hl
        simp only
        exact ⟨by rw [this.1]; simp, this.2⟩

theorem forwardMessage_counts_witness :
    User.findById Sample.blockedStore 1 = some Sample.alice ∧
    Message.findOne Sample.blockedStore (str "m1") = some Sample.hi ∧
    Sample.hi.fromNumber = Sample.alice.wa_id ∧
    (forwardMessage 1 (str "m1") Sample.targets Sample.blockedStore).1.status = 200 ∧
    (forwardMessage 1 (str "m1") Sample.targets Sample.blockedStore).1.forwardedTo =
      some (Sample.targets.countP (eligible Sample.blockedStore Sample.alice)) ∧
    Sample.targets.countP (eligible Sample.blockedStore Sample.alice) = 1 ∧
    (forwardMessage 1 (str "m1") Sample.targets Sample.blockedStore).2.messages.length = 3 :=
  ⟨by decide, by decide, by decide, by decide,
    ((forwardMessage_counts Sample.blockedStore 1 (str "m1") Sample.targets Sample.alice
      Sample.hi (by decide) (by decide) (Or.inl (by decide))).2.2.1 (by decide)).1,
    by decide, by decide⟩

/-! ### Conversations and sending -/

/-- C14, counterexample: after a successful `sendMessage` from Alice to Carol
on a store without conversations, no `Conversation` row exists for the
pair. -/
theorem send_creates_no_conversation :
    (sendMessage { userId := 1, toNumber := str "+3333", message := str "hello" } 7000
      (str "k3x9") Sample.store).1.status = 201 ∧
    Conversation.findOne
      (sendMessage { userId := 1, toNumber := str "+3333", message := str "hello" } 7000
        (str "k3x9") Sample.store).2
      (generateConversationId (str "+1111") (str "+3333")) = none := by
  decide

/-- C14, amended: `sendMessage`, successful or not, leaves the `Conversation`
collection as it was: it creates no row and bumps no `lastActivity`. -/
theorem sendMessage_leaves_conversations (req : SendMessageRequest) (now : Int)
    (rnd : JSString) (s : State) :
    (sendMessage req now rnd s).2.conversations = s.conversations := by
  rcases sendMessage_outcome req now rnd s with ⟨h0, _⟩ | ⟨f, s1, _, hc, h1⟩
  · rw [h0]
  · have hcs : s1.conversations = s.conversations := by rw [(create_spec hc).1]
    rcases h1 with ⟨h2, _⟩ | ⟨_, es, h2⟩
    · rw [h2, hcs]
    · rw [h2]; exact hcs

/-! ### Per-viewer deletion: idempotence and frame -/

theorem forall_updateFirst {α : Type} (Q : α → Prop) (p : α → Bool) (f : α → α)
    (l : List α) (hl : ∀ m ∈ l, Q m) (hf : ∀ m ∈ l, p m = true → Q (f m)) :
    ∀ m ∈ updateFirst p f l, Q m := by
  induction l with
  | nil => intro m hm; simp [updateFirst] at hm
  | cons x xs ih =>
    intro m hm
    unfold updateFirst at hm
    split at hm
    · rename_i hp
      rcases List.mem_cons.mp hm with h | h
      · rw [h]; exact hf x (List.mem_cons_self _ _) hp
      · exact hl m (List.mem_cons_of_mem _ h)
    · rcases List.mem_cons.mp hm with h | h
      · rw [h]; exact hl x (List.mem_cons_self _ _)
      · exact ih (fun y hy => hl y (List.mem_cons_of_mem _ hy))
          (fun y hy => hf y (List.mem_cons_of_mem _ hy)) m h

/-- A second per-viewer delete by the same user changes nothing. -/
theorem deleteForViewer_twice (s : State) (userId : Nat) (messageId : JSString)
    (now1 now2 : Int) :
    (deleteMessage userId messageId false now2
        (deleteMessage userId messageId false now1 s).2).2 =
      (deleteMessage userId messageId false now1 s).2 := by
  cases hu : User.findById s userId with
  | none => simp [deleteMessage, hu]
  | some currentUser =>
    cases hm : Message.findOne s messageId with
    | none => simp [deleteMessage, hu, hm]
    | some message =>
      cases hcan : (decide (message.fromNumber = currentUser.wa_id) ||
          decide (message.toNumber = currentUser.wa_id)) with
      | false => simp [deleteMessage, hu, hm, hcan]
      | true =>
        cases hal : message.deletedBy.any (fun d => decide (d.userId = currentUser.wa_id)) with
        | true => simp [deleteMessage, hu, hm, hcan, hal]
        | false =>
          cases hsave : Message.save { message with
              deletedBy := message.deletedBy ++ [⟨currentUser.wa_id, now1⟩] } s with
          | none =>
            have h1 : (deleteMessage userId messageId false now1 s).2 = s := by
              simp only [deleteMessage, hu, hm, hcan, hal, hsave, Bool.not_true,
                Bool.false_eq_true, if_false]
            have hv1 : Message.validate { message with
                deletedBy := message.deletedBy ++ [⟨currentUser.wa_id, now1⟩] } = false := by
              unfold Message.save at hsave
              split at hsave
              · assumption
              · exact absurd hsave (by simp)
            have hv2 : Message.validate { message with
                deletedBy := message.deletedBy ++ [⟨currentUser.wa_id, now2⟩] } = false := hv1
            rw [h1]
            simp only [deleteMessage, hu, hm, hcan, hal, Message.save, hv2, Bool.not_true,
              Bool.false_eq_true, if_false, if_true]
          | some s1 =>
            have h1 : (deleteMessage userId messageId false now1 s).2 = s1 := by
              simp only [deleteMessage, hu, hm, hcan, hal, hsave, Bool.not_true,
                Bool.false_eq_true, if_false]
            rw [h1]
            have hu1 : User.findById s1 userId = some currentUser := by
              unfold User.findById
              rw [(save_spec hsave).2.1]
              exact hu
            have hm1 := findOne_save s s1 _ messageId hsave
            rw [if_pos (findOne_messageId hm).symm, hm] at hm1
            simp only [Option.map_some'] at hm1
            simp only [deleteMessage, hu1, hm1, hcan, Bool.not_true, Bool.false_eq_true,
              if_false, List.any_append, List.any_cons, decide_True, Bool.true_or,
              Bool.or_true, if_true]

theorem statusUpdateData_deletedBy (status : JSString) (now : Int) (message m : Message) :
    (statusUpdateData status now message m).deletedBy = m.deletedBy := by
  unfold statusUpdateData
  split
  · rfl
  · split
    · split <;> rfl
    · rfl

theorem markRead_deletedBy (conversationId wa_id : JSString) (m : Message) :
    (markRead conversationId wa_id m).deletedBy = m.deletedBy := by
  unfold markRead
  split <;> rfl

theorem DeletedByOnce_of_messages {s s1 : State} (h : s1.messages = s.messages)
    (hs : DeletedByOnce s) : DeletedByOnce s1 := by
  unfold DeletedByOnce at hs ⊢
  rw [h]
  exact hs

theorem DeletedByOnce_findOneAndUpdate (messageId : JSString) (f : Message → Message)
    (hf : ∀ m, (f m).deletedBy = m.deletedBy) (s : State) (hs : DeletedByOnce s) :
    DeletedByOnce (Message.findOneAndUpdate messageId f s) := by
  unfold DeletedByOnce Message.findOneAndUpdate
  apply forall_updateFirst _ _ _ _ hs
  intro m hm _
  rw [hf m]
  exact hs m hm

theorem DeletedByOnce_create {doc : Message} {s s1 : State}
    (hc : Message.create doc s = some s1) (hd : doc.deletedBy = [])
    (hs : DeletedByOnce s) : DeletedByOnce s1 := by
  rw [(create_spec hc).1]
  intro m hm
  simp only [List.mem_append, List.mem_singleton] at hm
  rcases hm with h | h
  · exact hs m h
  · rw [h, hd]
    exact List.nodup_nil

theorem DeletedByOnce_save {doc : Message} {s s1 : State}
    (hc : Message.save doc s = some s1)
    (hd : (doc.deletedBy.map (fun d => d.userId)).Nodup)
    (hs : DeletedByOnce s) : DeletedByOnce s1 := by
  unfold DeletedByOnce
  rw [(save_spec hc).1]
  exact forall_updateFirst _ _ _ _ hs (fun _ _ _ => hd)

theorem DeletedByOnce_deleteMessage (userId : Nat) (messageId : JSString)
    (deleteForEveryone : Bool) (now : Int) (s : State) (hs : DeletedByOnce s) :
    DeletedByOnce (deleteMessage userId messageId deleteForEveryone now s).2 := by
  unfold deleteMessage
  cases hu : User.findById s userId with
  | none => exact hs
  | some currentUser =>
    cases hm : Message.findOne s messageId with
    | none => exact hs
    | some message =>
      have hmem : message ∈ s.messages := List.mem_of_find?_eq_some hm
      simp only
      split
      · exact hs
      · cases deleteForEveryone with
        | true =>
          simp only [if_true]
          split
          · exact hs
          · split
            · exact hs
            · cases hsave : Message.save { message with
                  messageType := str "deleted"
                  content := deletedContent
                  deletedForEveryone := true
                  deletedForEveryoneAt := some now } s with
              | none => exact hs
              | some s1 =>
                have h1 : DeletedByOnce s1 := DeletedByOnce_save hsave (hs message hmem) hs
                simp only
                split
                · exact DeletedByOnce_of_messages rfl h1
                · exact h1
        | false =>
          simp only [Bool.false_eq_true, if_false]
          split
          · exact hs
          · rename_i hal
            cases hsave : Message.save { message with
                deletedBy := message.deletedBy ++ [⟨currentUser.wa_id, now⟩] } s with
            | none => exact hs
            | some s1 =>
              refine DeletedByOnce_save hsave ?_ hs
              simp only [List.map_append, List.map_cons, List.map_nil]
              rw [List.nodup_append]
              refine ⟨hs message hmem, List.nodup_singleton _, ?_⟩
              intro w hw hw'
              simp only [List.mem_singleton] at hw'
              subst hw'
              apply hal
              rw [List.any_eq_true]
              obtain ⟨d, hd, hdw⟩ := List.mem_map.mp hw
              exact ⟨d, hd, by simp [hdw]⟩

theorem DeletedByOnce_forwardLoop (currentUser : User) (originalMessage : Message) :
    ∀ (ts : List ForwardTarget) (n : Nat) (s : State), DeletedByOnce s →
      DeletedByOnce (forwardLoop currentUser originalMessage ts n s).2 := by
  intro ts
  induction ts with
  | nil => intro n s hs; exact hs
  | cons t rest ih =>
    intro n s hs
    rw [forwardLoop]
    cases hf : User.findOne s t.toNumber with
    | none => exact ih n s hs
    | some r =>
      simp only
      split
      · exact ih n s hs
      · cases hc : Message.create (forwardedDoc currentUser originalMessage t) s with
        | none => exact hs
        | some s1 =>
          have h1 : DeletedByOnce s1 := DeletedByOnce_create hc rfl hs
          simp only
          split
          · exact ih _ _ (DeletedByOnce_of_messages rfl h1)
          · exact h1

/-- What a successful `Conversation.create` does. -/
theorem conversation_create_spec {doc : Conversation} {s s1 : State}
    (h : Conversation.create doc s = some s1) :
    s1 = { s with conversations := s.conversations ++ [doc] } ∧
      Conversation.findOne s doc.conversationId = none ∧ doc.validate = true := by
  unfold Conversation.create at h
  split at h
  · exact absurd h (by simp)
  · rename_i hv
    split at h
    · exact absurd h (by simp)
    · rename_i hf
      simp only [Option.some.injEq] at h
      refine ⟨h.symm, ?_, by simpa using hv⟩
      cases hfo : Conversation.findOne s doc.conversationId with
      | none => rfl
      | some m => simp [hfo] at hf

/-- What a successful `Conversation.save` does. -/
theorem conversation_save_spec {doc : Conversation} {s s1 : State}
    (h : Conversation.save doc s = some s1) :
    s1 = { s with
      conversations := updateFirst (fun c => decide (c.conversationId = doc.conversationId))
        (fun _ => doc) s.conversations } ∧ doc.validate = true := by
  unfold Conversation.save at h
  split at h
  · exact absurd h (by simp)
  · rename_i hv
    simp only [Option.some.injEq] at h
    exact ⟨h.symm, by simpa using hv⟩

/-- `getOrCreateConversation` writes the `Conversation` collection only. -/
theorem getOrCreateConversation_frame {conversationId : JSString}
    {participants : List JSString} {createdBy : JSString} {now : Int} {s s1 : State}
    {c : Conversation}
    (h : getOrCreateConversation conversationId participants createdBy now s = some (c, s1)) :
    s1.messages = s.messages ∧ s1.users = s.users ∧ s1.blockedUsers = s.blockedUsers ∧
      s1.io = s.io ∧ s1.emitted = s.emitted := by
  unfold getOrCreateConversation at h
  split at h
  · simp only [Option.map_eq_some', Prod.mk.injEq] at h
    obtain ⟨s2, hc, _, hs⟩ := h
    rw [← hs, (conversation_create_spec hc).1]
    exact ⟨rfl, rfl, rfl, rfl, rfl⟩
  · simp only [Option.map_eq_some', Prod.mk.injEq] at h
    obtain ⟨s2, hc, _, hs⟩ := h
    rw [← hs, (conversation_save_spec hc).1]
    exact ⟨rfl, rfl, rfl, rfl, rfl⟩

theorem archiveConversation_messages (userId : Nat) (conversationId : JSString)
    (archive : Bool) (now : Int) (s : State) :
    (archiveConversation userId conversationId archive now s).2.messages = s.messages := by
  unfold archiveConversation
  cases hu : User.findById s userId with
  | none => rfl
  | some currentUser =>
    simp only
    cases hg : getOrCreateConversation conversationId (splitOn 95 conversationId)
        currentUser.wa_id now s with
    | none => rfl
    | some r =>
      obtain ⟨c, s1⟩ := r
      have hf := (getOrCreateConversation_frame hg).1
      simp only
      split
      · exact hf
      · rename_i s2 hsave
        simp only
        rw [(conversation_save_spec hsave).1]
        exact hf

theorem muteConversation_messages (userId : Nat) (conversationId : JSString)
    (mute : Bool) (duration : Option Int) (now : Int) (s : State) :
    (muteConversation userId conversationId mute duration now s).2.messages = s.messages := by
  unfold muteConversation
  cases hu : User.findById s userId with
  | none => rfl
  | some currentUser =>
    simp only
    cases hg : getOrCreateConversation conversationId (splitOn 95 conversationId)
        currentUser.wa_id now s with
    | none => rfl
    | some r =>
      obtain ⟨c, s1⟩ := r
      have hf := (getOrCreateConversation_frame hg).1
      simp only
      split
      · exact hf
      · rename_i s2 hsave
        simp only
        rw [(conversation_save_spec hsave).1]
        exact hf

/-- Every action keeps the `deletedBy` lists free of repeated users. -/
theorem DeletedByOnce_run (a : Action) (s : State) (hs : DeletedByOnce s) :
    DeletedByOnce (a.run s) := by
  cases a with
  | operation op =>
    cases op with
    | updateMessageStatus messageId status now =>
      simp only [Action.run, Operation.run]
      rcases updateMessageStatus_outcome messageId status now s with
        ⟨h0, _⟩ | ⟨message, _, ⟨h1, _⟩ | ⟨_, es, h1⟩⟩
      · rw [h0]; exact hs
      · rw [h1]
        exact DeletedByOnce_findOneAndUpdate _ _ (statusUpdateData_deletedBy _ _ _) s hs
      · rw [h1]
        exact DeletedByOnce_of_messages rfl
          (DeletedByOnce_findOneAndUpdate _ _ (statusUpdateData_deletedBy _ _ _) s hs)
    | deleteMessage userId messageId deleteForEveryone now =>
      exact DeletedByOnce_deleteMessage userId messageId deleteForEveryone now s hs
    | getMessages userId conversationId queryPage queryLimit =>
      simp only [Action.run, Operation.run, getMessages]
      cases User.findById s userId with
      | none => exact hs
      | some currentUser =>
        simp only
        split
        · exact hs
        · intro m hm
          simp only [List.mem_map] at hm
          obtain ⟨m0, hm0, rfl⟩ := hm
          rw [markRead_deletedBy]
          exact hs m0 hm0
    | processMessage messageData display_phone_number =>
      simp only [Action.run, Operation.run, PayloadProcessor.processMessage]
      cases User.findOne s messageData.sender with
      | none => exact hs
      | some sender =>
        simp only
        cases Message.findOne s messageData.id with
        | some _ => exact hs
        | none =>
          simp only
          cases dateOfSeconds messageData.timestamp with
          | none => exact hs
          | some t =>
            simp only
            split
            · exact hs
            · rename_i s1 hc
              exact DeletedByOnce_create hc rfl hs
    | processStatusUpdate statusData =>
      simp only [Action.run, Operation.run, PayloadProcessor.processStatusUpdate]
      cases Message.findOne s statusData.id with
      | none => exact hs
      | some _ =>
        exact DeletedByOnce_findOneAndUpdate statusData.id
          (fun m => { m with status := statusData.status }) (fun _ => rfl) s hs
  | sendMessage req now rnd =>
    simp only [Action.run]
    rcases sendMessage_outcome req now rnd s with
      ⟨h0, _⟩ | ⟨f, s1, _, hc, ⟨h1, _⟩ | ⟨_, es, h1⟩⟩
    · rw [h0]; exact hs
    · rw [h1]; exact DeletedByOnce_create hc rfl hs
    · rw [h1]
      have h2 : DeletedByOnce s1 := DeletedByOnce_create hc rfl hs
      exact DeletedByOnce_of_messages rfl h2
  | forwardMessage userId messageId toNumbers =>
    simp only [Action.run, forwardMessage]
    cases User.findById s userId with
    | none => exact hs
    | some currentUser =>
      cases Message.findOne s messageId with
      | none => exact hs
      | some originalMessage =>
        simp only
        split
        · exact hs
        · have hl := DeletedByOnce_forwardLoop currentUser originalMessage toNumbers 0 s hs
          split
          · rename_i s1 heq
            rw [heq] at hl
            exact hl
          · rename_i n s1 heq
            rw [heq] at hl
            exact hl
  | parseMessage message display_phone_number env =>
    simp only [Action.run, WebhookParser.processMessage]
    cases Message.findOne s message.id with
    | some _ => exact hs
    | none =>
      simp only
      split
      · split
        · exact hs
        · rename_i s1 hc
          exact DeletedByOnce_create hc rfl hs
      · exact hs
  | archiveConversation userId conversationId archive now =>
    exact DeletedByOnce_of_messages
      (archiveConversation_messages userId conversationId archive now s) hs
  | muteConversation userId conversationId mute duration now =>
    exact DeletedByOnce_of_messages
      (muteConversation_messages userId conversationId mute duration now s) hs
  | environment users blockedUsers io => exact DeletedByOnce_of_messages rfl hs

/-- C15: per-viewer delete is idempotent. A second call of `deleteMessage`
with `deleteForEveryone = false` by the same user on the same message leaves
the whole state, the message included, exactly as the first call left it; and
in every reachable state no user has two entries in the `deletedBy` of a
message. -/
theorem deleteForViewer_idempotent :
    (∀ (s : State) (userId : Nat) (messageId : JSString) (now1 now2 : Int),
      (deleteMessage userId messageId false now2
          (deleteMessage userId messageId false now1 s).2).2 =
        (deleteMessage userId messageId false now1 s).2) ∧
    (∀ s : State, Reachable s → DeletedByOnce s) := by
  refine ⟨deleteForViewer_twice, ?_⟩
  intro s hr
  induction hr with
  | init users blockedUsers io => intro m hm; simp at hm
  | step a s _ ih => exact DeletedByOnce_run a s ih

theorem deleteForViewer_idempotent_witness :
    (deleteMessage 1 (str "m1") false 4000
        (deleteMessage 1 (str "m1") false 3000 Sample.store).2).2 =
      (deleteMessage 1 (str "m1") false 3000 Sample.store).2 ∧
    Reachable Sample.reached ∧ DeletedByOnce Sample.reached :=
  ⟨deleteForViewer_idempotent.1 Sample.store 1 (str "m1") 3000 4000,
    Reachable.step _ _ (Reachable.step _ _ (Reachable.step _ _ (Reachable.init _ _ _))),
    deleteForViewer_idempotent.2 Sample.reached
      (Reachable.step _ _ (Reachable.step _ _ (Reachable.step _ _ (Reachable.init _ _ _))))⟩

/-- C16: a successful per-viewer delete by the user `x` of the stored message
`M` leaves the state as it was except that the stored `M` gets one more
`deletedBy` entry, for `x` at the time of the call (when `x` already has an
entry nothing at all changes): every other field of `M`, every other message,
every other collection and the log of emitted events are unchanged. -/
theorem deleteForViewer_frame (s : State) (userId : Nat) (x : User)
    (messageId : JSString) (M : Message) (now : Int)
    (hx : User.findById s userId = some x)
    (hM : Message.findOne s messageId = some M)
    (hok : (deleteMessage userId messageId false now s).1.status = 200) :
    (M.deletedBy.any (fun d => decide (d.userId = x.wa_id)) = true →
      (deleteMessage userId messageId false now s).2 = s) ∧
    (M.deletedBy.any (fun d => decide (d.userId = x.wa_id)) = false →
      (deleteMessage userId messageId false now s).2 =
        { s with
          messages := updateFirst (fun m => decide (m.messageId = messageId))
            (fun _ => { M with deletedBy := M.deletedBy ++ [⟨x.wa_id, now⟩] }) s.messages } ∧
      Message.findOne (deleteMessage userId messageId false now s).2 messageId =
        some { M with deletedBy := M.deletedBy ++ [⟨x.wa_id, now⟩] }) ∧
    (∀ other : JSString, other ≠ messageId →
      Message.findOne (deleteMessage userId messageId false now s).2 other =
        Message.findOne s other) ∧
    (deleteMessage userId messageId false now s).2.emitted = s.emitted ∧
    (deleteMessage userId messageId false now s).2.users = s.users ∧
    (deleteMessage userId messageId false now s).2.blockedUsers = s.blockedUsers ∧
    (deleteMessage userId messageId false now s).2.conversations = s.conversations := by
  have hmid : M.messageId = messageId := findOne_messageId hM
  cases hcan : (decide (M.fromNumber = x.wa_id) || decide (M.toNumber = x.wa_id)) with
  | false =>
    simp [deleteMessage, hx, hM, hcan, Response.fail] at hok
  | true =>
    cases hal : M.deletedBy.any (fun d => decide (d.userId = x.wa_id)) with
    | true =>
      have h1 : (deleteMessage userId messageId false now s).2 = s := by
        simp only [deleteMessage, hx, hM, hcan, hal, Bool.not_true, Bool.false_eq_true,
          if_false, if_true]
      rw [h1]
      exact ⟨fun _ => rfl, fun h => absurd h (by simp), fun _ _ => rfl, rfl, rfl, rfl, rfl⟩
    | false =>
      cases hsave : Message.save { M with
          deletedBy := M.deletedBy ++ [⟨x.wa_id, now⟩] } s with
      | none =>
        simp [deleteMessage, hx, hM, hcan, hal, hsave, Response.fail] at hok
      | some s1 =>
        have h1 : (deleteMessage userId messageId false now s).2 = s1 := by
          simp only [deleteMessage, hx, hM, hcan, hal, hsave, Bool.not_true,
            Bool.false_eq_true, if_false]
        have hspec := save_spec hsave
        have hs1 : s1 = { s with
            messages := updateFirst (fun m => decide (m.messageId = messageId))
              (fun _ => { M with deletedBy := M.deletedBy ++ [⟨x.wa_id, now⟩] }) s.messages } := by
          unfold Message.save at hsave
          split at hsave
          · exact absurd hsave (by simp)
          · simp only [Option.some.injEq] at hsave
            rw [← hsave]
            simp only [hmid]
        have hfind := findOne_save s s1 _ messageId hsave
        rw [if_pos hmid.symm, hM] at hfind
        rw [h1]
        refine ⟨fun h => absurd h (by simp), fun _ => ⟨hs1, hfind⟩, ?_, hspec.2.2.2.2.1,
          hspec.2.1, hspec.2.2.1, hspec.2.2.2.2.2⟩
        intro other hother
        have := findOne_save s s1 _ other hsave
        rw [if_neg (by simpa [hmid] using hother)] at this
        exact this

theorem deleteForViewer_frame_witness :
    User.findById Sample.store 2 = some Sample.bob ∧
    Message.findOne Sample.store (str "m1") = some Sample.hi ∧
    (deleteMessage 2 (str "m1") false 3000 Sample.store).1.status = 200 ∧
    Sample.hi.deletedBy.any (fun d => decide (d.userId = Sample.bob.wa_id)) = false ∧
    Message.findOne (deleteMessage 2 (str "m1") false 3000 Sample.store).2 (str "m1") =
      some { Sample.hi with deletedBy := Sample.hi.deletedBy ++ [⟨Sample.bob.wa_id, 3000⟩] } ∧
    Message.findOne (deleteMessage 2 (str "m1") false 3000 Sample.store).2 (str "m2") =
      some Sample.yo ∧
    (deleteMessage 2 (str "m1") false 3000 Sample.store).2.emitted = [] :=
  ⟨by decide, by decide, by decide, by decide,
    ((deleteForViewer_frame Sample.store 2 Sample.bob (str "m1") Sample.hi 3000
      (by decide) (by decide) (by decide)).2.1 (by decide)).2,
    by decide, by decide⟩

/-! ### The listing -/

theorem visibleTo_eq (wa_id : JSString) (m : Message) :
    visibleTo wa_id m =
      (m.deletedForEveryone || !(m.deletedBy.any (fun d => decide (d.userId = wa_id)))) := by
  unfold visibleTo
  cases m.deletedForEveryone <;>
    cases m.deletedBy.any (fun d => decide (d.userId = wa_id)) <;> rfl

/-- C17: a successful `getMessages` by the viewer `u` returns, in ascending
order of timestamp, the page of the conversation taken in descending order of
timestamp (skip `(page - 1) * limit`, at most `limit` documents, with the
defaults 1 and 50) minus the messages that `u` deleted for themself and that
are not deleted for everyone; a deleted-for-everyone message of the page is
always returned. -/
theorem getMessages_page (s : State) (userId : Nat) (u : User) (conversationId : JSString)
    (queryPage queryLimit : Nat)
    (hu : User.findById s userId = some u)
    (hok : (getMessages userId conversationId queryPage queryLimit s).1.status = 200) :
    ∃ L : List Message,
      L.Perm (s.messages.filter (fun m => decide (m.conversationId = conversationId))) ∧
      L.Sorted (fun a b => b.timestamp ≤ a.timestamp) ∧
      (getMessages userId conversationId queryPage queryLimit s).1.messages.reverse =
        ((L.drop (((if queryPage = 0 then 1 else queryPage) - 1) *
            (if queryLimit = 0 then 50 else queryLimit))).take
          (if queryLimit = 0 then 50 else queryLimit)).filter
          (fun m => m.deletedForEveryone ||
            !(m.deletedBy.any (fun d => decide (d.userId = u.wa_id)))) ∧
      (getMessages userId conversationId queryPage queryLimit s).1.messages.Sorted
        (fun a b => a.timestamp ≤ b.timestamp) ∧
      (∀ m ∈ (L.drop (((if queryPage = 0 then 1 else queryPage) - 1) *
            (if queryLimit = 0 then 50 else queryLimit))).take
          (if queryLimit = 0 then 50 else queryLimit),
        m.deletedForEveryone = true →
          m ∈ (getMessages userId conversationId queryPage queryLimit s).1.messages) := by
  haveI : IsTotal Message (fun a b => b.timestamp ≤ a.timestamp) :=
    ⟨fun a b => le_total b.timestamp a.timestamp⟩
  haveI : IsTrans Message (fun a b => b.timestamp ≤ a.timestamp) :=
    ⟨fun a b c hab hbc => le_trans hbc hab⟩
  have hvis : (visibleTo u.wa_id) = (fun m => m.deletedForEveryone ||
      !(m.deletedBy.any (fun d => decide (d.userId = u.wa_id)))) := by
    funext m
    exact visibleTo_eq u.wa_id m
  have hsorted := List.sorted_insertionSort (fun a b : Message => b.timestamp ≤ a.timestamp)
    (s.messages.filter (fun m => decide (m.conversationId = conversationId)))
  have hperm := List.perm_insertionSort (fun a b : Message => b.timestamp ≤ a.timestamp)
    (s.messages.filter (fun m => decide (m.conversationId = conversationId)))
  refine ⟨_, hperm, hsorted, ?_⟩
  unfold getMessages at hok ⊢
  simp only [hu] at hok ⊢
  split at hok
  · simp [Response.fail] at hok
  · rename_i hacc
    simp only [hacc, if_false, List.reverse_reverse, Bool.false_eq_true]
    refine ⟨?_, ?_, ?_⟩
    · unfold conversationPage
      rw [hvis]
    · rw [List.Sorted, List.pairwise_reverse]
      have hpage : (conversationPage s conversationId (if queryPage = 0 then 1 else queryPage)
          (if queryLimit = 0 then 50 else queryLimit)).Pairwise
          (fun a b => b.timestamp ≤ a.timestamp) := by
        unfold conversationPage
        exact (hsorted.sublist (List.drop_sublist _ _)).sublist (List.take_sublist _ _)
      exact hpage.sublist (List.filter_sublist _)
    · intro m hm hflag
      rw [List.mem_reverse, List.mem_filter]
      exact ⟨hm, by simp [visibleTo, hflag]⟩

theorem getMessages_page_witness :
    User.findById Sample.store 2 = some Sample.bob ∧
    (getMessages 2 (str "+1111_+2222") 0 0 Sample.store).1.status = 200 ∧
    (getMessages 2 (str "+1111_+2222") 0 0 Sample.store).1.messages = [Sample.hi, Sample.yo] ∧
    ∃ L : List Message,
      L.Perm (Sample.store.messages.filter
        (fun m => decide (m.conversationId = str "+1111_+2222"))) ∧
      L.Sorted (fun a b => b.timestamp ≤ a.timestamp) ∧
      (getMessages 2 (str "+1111_+2222") 0 0 Sample.store).1.messages.reverse =
        ((L.drop (((if 0 = 0 then 1 else 0) - 1) * (if 0 = 0 then 50 else 0))).take
          (if 0 = 0 then 50 else 0)).filter
          (fun m => m.deletedForEveryone ||
            !(m.deletedBy.any (fun d => decide (d.userId = Sample.bob.wa_id)))) ∧
      (getMessages 2 (str "+1111_+2222") 0 0 Sample.store).1.messages.Sorted
        (fun a b => a.timestamp ≤ b.timestamp) ∧
      (∀ m ∈ (L.drop (((if 0 = 0 then 1 else 0) - 1) * (if 0 = 0 then 50 else 0))).take
          (if 0 = 0 then 50 else 0),
        m.deletedForEveryone = true →
          m ∈ (getMessages 2 (str "+1111_+2222") 0 0 Sample.store).1.messages) :=
  ⟨by decide, by decide, by decide,
    getMessages_page Sample.store 2 Sample.bob (str "+1111_+2222") 0 0 (by decide) (by decide)⟩

/-! ### Read receipts -/

/-- C18: after `updateMessageStatus` with status `read` on a stored message,
the stored message has `deliveredAt` set: to its previous value when it had
one, to the time of the call otherwise (and `readAt` is the time of the call,
the status `read`). -/
theorem read_sets_deliveredAt (s : State) (messageId : JSString) (now : Int) (m : Message)
    (hm : Message.findOne s messageId = some m) :
    ∃ m1 : Message,
      Message.findOne (updateMessageStatus messageId (str "read") now s).2 messageId =
        some m1 ∧
      m1.deliveredAt.isSome = true ∧
      (∀ d, m.deliveredAt = some d → m1.deliveredAt = some d) ∧
      (m.deliveredAt = none → m1.deliveredAt = some now) ∧
      m1.readAt = some now ∧ m1.status = str "read" := by
  have hv : str "read" ∈ validStatuses := by decide
  have hnd : str "read" ≠ str "delivered" := by decide
  rw [findOne_updateMessageStatus, hm]
  simp only [hv, true_and, if_true]
  refine ⟨_, rfl, ?_⟩
  unfold statusUpdateData
  rw [if_neg hnd, if_pos rfl]
  cases hd : m.deliveredAt with
  | none => simp
  | some d => simp

theorem read_sets_deliveredAt_witness :
    Message.findOne Sample.store (str "m1") = some Sample.hi ∧
    ∃ m1 : Message,
      Message.findOne (updateMessageStatus (str "m1") (str "read") 9000 Sample.store).2
        (str "m1") = some m1 ∧
      m1.deliveredAt.isSome = true ∧
      (∀ d, Sample.hi.deliveredAt = some d → m1.deliveredAt = some d) ∧
      (Sample.hi.deliveredAt = none → m1.deliveredAt = some 9000) ∧
      m1.readAt = some 9000 ∧ m1.status = str "read" :=
  ⟨by decide, read_sets_deliveredAt Sample.store (str "m1") 9000 Sample.hi (by decide)⟩

/-! ### Archive and mute -/

theorem conversation_findOne_conversationId {s : State} {conversationId : JSString}
    {c : Conversation} (h : Conversation.findOne s conversationId = some c) :
    c.conversationId = conversationId := by
  have := List.find?_some h
  simpa using this

theorem conversation_findOne_save {doc : Conversation} {s s1 : State}
    (h : Conversation.save doc s = some s1) (conversationId : JSString) :
    Conversation.findOne s1 conversationId =
      if conversationId = doc.conversationId then
        (Conversation.findOne s conversationId).map (fun _ => doc)
      else Conversation.findOne s conversationId := by
  rw [(conversation_save_spec h).1]
  unfold Conversation.findOne
  by_cases hid : conversationId = doc.conversationId
  · subst hid
    simp only [if_true]
    exact find?_updateFirst_same _ _ (fun x _ => by simp) _
  · simp only [hid, if_false]
    apply find?_updateFirst_other
    intro x hx
    have hx' : x.conversationId = doc.conversationId := by simpa using hx
    constructor
    · simp only [decide_eq_false_iff_not]
      intro hc
      exact hid (hc ▸ hx')
    · simp only [decide_eq_false_iff_not]
      intro hc
      exact hid hc.symm

theorem conversation_findOne_create {doc : Conversation} {s s1 : State}
    (h : Conversation.create doc s = some s1) (conversationId : JSString) :
    Conversation.findOne s1 conversationId =
      if conversationId = doc.conversationId then some doc
      else Conversation.findOne s conversationId := by
  obtain ⟨hs1, hnone, _⟩ := conversation_create_spec h
  rw [hs1]
  unfold Conversation.findOne at hnone ⊢
  simp only [List.find?_append]
  by_cases hid : conversationId = doc.conversationId
  · subst hid
    simp [hnone]
  · have hne : ¬ doc.conversationId = conversationId := fun hc => hid hc.symm
    simp only [hid, if_false]
    cases List.find? (fun c => decide (c.conversationId = conversationId)) s.conversations with
    | none => simp [hne]
    | some c => rfl

theorem validate_lastActivity (c : Conversation) (now : Int) :
    Conversation.validate { c with lastActivity := now } = c.validate := rfl

/-- What a successful `getOrCreateConversation` returns and leaves. -/
theorem getOrCreateConversation_spec {conversationId : JSString}
    {participants : List JSString} {createdBy : JSString} {now : Int} {s s1 : State}
    {c : Conversation}
    (h : getOrCreateConversation conversationId participants createdBy now s = some (c, s1)) :
    Conversation.findOne s1 conversationId = some c ∧ c.conversationId = conversationId ∧
      c.validate = true ∧ c.archivedBy = archivedByOf s conversationId ∧
      (∀ other : JSString, other ≠ conversationId →
        Conversation.findOne s1 other = Conversation.findOne s other) := by
  unfold getOrCreateConversation at h
  unfold archivedByOf
  split at h
  · rename_i hnone
    simp only [Option.map_eq_some', Prod.mk.injEq] at h
    obtain ⟨s2, hc, hceq, hs⟩ := h
    subst hs
    subst hceq
    have hfind := conversation_findOne_create hc
    refine ⟨by simpa using hfind conversationId, rfl, (conversation_create_spec hc).2.2,
      by simp [hnone], ?_⟩
    intro other hother
    simpa [hother] using hfind other
  · rename_i c0 hsome
    have hid := conversation_findOne_conversationId hsome
    simp only [Option.map_eq_some', Prod.mk.injEq] at h
    obtain ⟨s2, hc, hceq, hs⟩ := h
    subst hs
    subst hceq
    have hfind := conversation_findOne_save hc
    refine ⟨by simpa [hid, hsome] using hfind conversationId, hid,
      (conversation_save_spec hc).2, by simp [hsome], ?_⟩
    intro other hother
    have := hfind other
    simpa [hid, hother] using this

/-- On an existing valid row, `getOrCreateConversation` does not throw. -/
theorem getOrCreateConversation_existing {conversationId : JSString}
    (participants : List JSString) (createdBy : JSString) (now : Int) {s : State}
    {c : Conversation} (hc : Conversation.findOne s conversationId = some c)
    (hv : c.validate = true) :
    ∃ s1, getOrCreateConversation conversationId participants createdBy now s =
      some ({ c with lastActivity := now }, s1) := by
  unfold getOrCreateConversation
  simp only [hc]
  have hv1 : Conversation.validate { c with lastActivity := now } = true := hv
  simp [Conversation.save, hv1]

theorem archiveConversation_users (userId : Nat) (conversationId : JSString)
    (archive : Bool) (now : Int) (s : State) :
    (archiveConversation userId conversationId archive now s).2.users = s.users := by
  unfold archiveConversation
  cases hu : User.findById s userId with
  | none => rfl
  | some currentUser =>
    simp only
    cases hg : getOrCreateConversation conversationId (splitOn 95 conversationId)
        currentUser.wa_id now s with
    | none => rfl
    | some r =>
      obtain ⟨c, s1⟩ := r
      have hf := (getOrCreateConversation_frame hg).2.1
      simp only
      split
      · exact hf
      · rename_i s2 hsave
        simp only
        rw [(conversation_save_spec hsave).1]
        exact hf

/-- What a successful `archiveConversation` leaves: the row exists, is valid,
and its `archivedBy` is `archiveEntries` of the list before. -/
theorem archiveConversation_success (s : State) (userId : Nat) (u : User)
    (conversationId : JSString) (archive : Bool) (now : Int)
    (hu : User.findById s userId = some u)
    (hok : (archiveConversation userId conversationId archive now s).1.status = 200) :
    ∃ c : Conversation,
      Conversation.findOne (archiveConversation userId conversationId archive now s).2
        conversationId = some c ∧ c.validate = true ∧
      archivedByOf (archiveConversation userId conversationId archive now s).2 conversationId =
        archiveEntries archive u.wa_id now (archivedByOf s conversationId) := by
  unfold archiveConversation at hok ⊢
  simp only [hu] at hok ⊢
  cases hg : getOrCreateConversation conversationId (splitOn 95 conversationId)
      u.wa_id now s with
  | none => rw [hg] at hok; simp [Response.fail] at hok
  | some r =>
    obtain ⟨c, s1⟩ := r
    rw [hg] at hok
    simp only at hok ⊢
    obtain ⟨hfind, hid, _, harch, _⟩ := getOrCreateConversation_spec hg
    cases hsave : Conversation.save { c with
        archivedBy := archiveEntries archive u.wa_id now c.archivedBy
        isArchived := decide ((archiveEntries archive u.wa_id now c.archivedBy).length > 0) }
        s1 with
    | none => rw [hsave] at hok; simp [Response.fail] at hok
    | some s2 =>
      simp only
      have hf2 := conversation_findOne_save hsave conversationId
      rw [if_pos hid.symm, hfind] at hf2
      simp only [Option.map_some'] at hf2
      refine ⟨_, hf2, (conversation_save_spec hsave).2, ?_⟩
      unfold archivedByOf
      rw [hf2]
      simp only
      rw [harch]
      rfl

/-- On an existing valid row, `archiveConversation` by an existing user
succeeds. -/
theorem archiveConversation_succeeds (s : State) (userId : Nat) (u : User)
    (conversationId : JSString) (archive : Bool) (now : Int) (c : Conversation)
    (hu : User.findById s userId = some u)
    (hc : Conversation.findOne s conversationId = some c) (hv : c.validate = true) :
    (archiveConversation userId conversationId archive now s).1.status = 200 := by
  obtain ⟨s1, hg⟩ := getOrCreateConversation_existing (splitOn 95 conversationId)
    u.wa_id now hc hv
  unfold archiveConversation
  simp only [hu, hg]
  have hv1 : Conversation.validate { c with
      lastActivity := now
      archivedBy := archiveEntries archive u.wa_id now c.archivedBy
      isArchived := decide ((archiveEntries archive u.wa_id now c.archivedBy).length > 0) }
      = true := hv
  simp [Conversation.save, hv1]

theorem archiveEntries_true_twice (wa_id : JSString) (now1 now2 : Int)
    (l : List ArchivedBy) :
    archiveEntries true wa_id now2 (archiveEntries true wa_id now1 l) =
      archiveEntries true wa_id now1 l := by
  unfold archiveEntries
  simp only [if_true]
  by_cases h : l.any (fun a => decide (a.userId = wa_id)) = true
  · simp [h]
  · simp [h, List.any_append]

theorem archiveEntries_true_count (wa_id : JSString) (now : Int) (l : List ArchivedBy) :
    1 ≤ (archiveEntries true wa_id now l).countP (fun a => decide (a.userId = wa_id)) ∧
    (l.countP (fun a => decide (a.userId = wa_id)) ≤ 1 →
      (archiveEntries true wa_id now l).countP (fun a => decide (a.userId = wa_id)) = 1) := by
  unfold archiveEntries
  simp only [if_true]
  by_cases h : l.any (fun a => decide (a.userId = wa_id)) = true
  · have hpos : 0 < l.countP (fun a => decide (a.userId = wa_id)) := by
      rw [List.countP_pos_iff]
      rw [List.any_eq_true] at h
      exact h
    simp only [h, if_true]
    exact ⟨hpos, fun hle => by omega⟩
  · have hzero : l.countP (fun a => decide (a.userId = wa_id)) = 0 := by
      rw [List.countP_eq_zero]
      intro a ha hp
      exact h (List.any_eq_true.mpr ⟨a, ha, hp⟩)
    simp [h, List.countP_append, hzero]

theorem archiveEntries_false (wa_id : JSString) (now : Int) (l : List ArchivedBy) :
    archiveEntries false wa_id now l = l.filter (fun a => decide (a.userId ≠ wa_id)) ∧
    (archiveEntries false wa_id now l).countP (fun a => decide (a.userId = wa_id)) = 0 ∧
    (l.countP (fun a => decide (a.userId = wa_id)) = 0 →
      archiveEntries false wa_id now l = l) := by
  unfold archiveEntries
  simp only [Bool.false_eq_true, if_false, true_and]
  constructor
  · rw [List.countP_eq_zero]
    intro a ha
    simp only [List.mem_filter, decide_eq_true_eq] at ha
    simpa using ha.2
  · intro h
    rw [List.countP_eq_zero] at h
    rw [List.filter_eq_self]
    intro a ha
    simpa using h a ha

/-- C19: for an existing user `u`, after a successful
`archiveConversation(conv, archive = true)` a second such call succeeds and
leaves the `archivedBy` list of the conversation as the first call left it,
with an entry for `u`, exactly one when `u` had at most one before; and a
successful call with `archive = false` leaves the list without the entries of
`u` and otherwise as it was, unchanged when `u` had none. -/
theorem archive_idempotent (s : State) (userId : Nat) (u : User) (conversationId : JSString)
    (now1 now2 now3 : Int) (hu : User.findById s userId = some u) :
    ((archiveConversation userId conversationId true now1 s).1.status = 200 →
      (archiveConversation userId conversationId true now2
        (archiveConversation userId conversationId true now1 s).2).1.status = 200 ∧
      archivedByOf (archiveConversation userId conversationId true now2
          (archiveConversation userId conversationId true now1 s).2).2 conversationId =
        archivedByOf (archiveConversation userId conversationId true now1 s).2 conversationId ∧
      1 ≤ archiveCount (archiveConversation userId conversationId true now2
          (archiveConversation userId conversationId true now1 s).2).2 conversationId u.wa_id ∧
      (archiveCount s conversationId u.wa_id ≤ 1 →
        archiveCount (archiveConversation userId conversationId true now2
          (archiveConversation userId conversationId true now1 s).2).2
          conversationId u.wa_id = 1)) ∧
    ((archiveConversation userId conversationId false now3 s).1.status = 200 →
      archivedByOf (archiveConversation userId conversationId false now3 s).2 conversationId =
        (archivedByOf s conversationId).filter (fun a => decide (a.userId ≠ u.wa_id)) ∧
      archiveCount (archiveConversation userId conversationId false now3 s).2
        conversationId u.wa_id = 0 ∧
      (archiveCount s conversationId u.wa_id = 0 →
        archivedByOf (archiveConversation userId conversationId false now3 s).2 conversationId =
          archivedByOf s conversationId)) := by
  constructor
  · intro hok1
    obtain ⟨c1, hc1, hv1, ha1⟩ :=
      archiveConversation_success s userId u conversationId true now1 hu hok1
    have hu1 : User.findById (archiveConversation userId conversationId true now1 s).2 userId
        = some u := by
      unfold User.findById
      rw [archiveConversation_users]
      exact hu
    have hok2 := archiveConversation_succeeds _ userId u conversationId true now2 c1 hu1 hc1 hv1
    obtain ⟨c2, _, _, ha2⟩ :=
      archiveConversation_success _ userId u conversationId true now2 hu1 hok2
    have heq : archivedByOf (archiveConversation userId conversationId true now2
          (archiveConversation userId conversationId true now1 s).2).2 conversationId =
        archivedByOf (archiveConversation userId conversationId true now1 s).2 conversationId := by
      rw [ha2, ha1, archiveEntries_true_twice]
    refine ⟨hok2, heq, ?_, ?_⟩
    · unfold archiveCount
      rw [heq, ha1]
      exact (archiveEntries_true_count u.wa_id now1 _).1
    · intro hle
      unfold archiveCount at hle ⊢
      rw [heq, ha1]
      exact (archiveEntries_true_count u.wa_id now1 _).2 hle
  · intro hok3
    obtain ⟨c3, _, _, ha3⟩ :=
      archiveConversation_success s userId u conversationId false now3 hu hok3
    have hf := archiveEntries_false u.wa_id now3 (archivedByOf s conversationId)
    refine ⟨by rw [ha3]; exact hf.1, ?_, ?_⟩
    · unfold archiveCount
      rw [ha3]
      exact hf.2.1
    · intro h0
      unfold archiveCount at h0
      rw [ha3]
      exact hf.2.2 h0

theorem archive_idempotent_witness :
    User.findById Sample.store 1 = some Sample.alice ∧
    (archiveConversation 1 (str "+1111_+2222") true 100 Sample.store).1.status = 200 ∧
    archiveCount Sample.store (str "+1111_+2222") Sample.alice.wa_id ≤ 1 ∧
    archiveCount (archiveConversation 1 (str "+1111_+2222") true 200
        (archiveConversation 1 (str "+1111_+2222") true 100 Sample.store).2).2
      (str "+1111_+2222") Sample.alice.wa_id = 1 ∧
    (archiveConversation 1 (str "+1111_+2222") false 300 Sample.store).1.status = 200 ∧
    archiveCount (archiveConversation 1 (str "+1111_+2222") false 300 Sample.store).2
      (str "+1111_+2222") Sample.alice.wa_id = 0 :=
  ⟨by decide, by decide, by decide,
    ((archive_idempotent Sample.store 1 Sample.alice (str "+1111_+2222") 100 200 300
      (by decide)).1 (by decide)).2.2.2 (by decide),
    by decide,
    ((archive_idempotent Sample.store 1 Sample.alice (str "+1111_+2222") 100 200 300
      (by decide)).2 (by decide)).2.1⟩

theorem flagsAgree_save {doc : Conversation} {s s1 : State}
    (h : Conversation.save doc s = some s1) (hd : FlagsAgree doc)
    (hs : ∀ c ∈ s.conversations, FlagsAgree c) : ∀ c ∈ s1.conversations, FlagsAgree c := by
  rw [(conversation_save_spec h).1]
  exact forall_updateFirst _ _ _ _ hs (fun _ _ _ => hd)

theorem flagsAgree_getOrCreate {conversationId : JSString} {participants : List JSString}
    {createdBy : JSString} {now : Int} {s s1 : State} {c : Conversation}
    (h : getOrCreateConversation conversationId participants createdBy now s = some (c, s1))
    (hs : ∀ c ∈ s.conversations, FlagsAgree c) :
    (∀ c ∈ s1.conversations, FlagsAgree c) ∧ FlagsAgree c := by
  unfold getOrCreateConversation at h
  split at h
  · simp only [Option.map_eq_some', Prod.mk.injEq] at h
    obtain ⟨s2, hc, hceq, hs2⟩ := h
    subst hs2
    subst hceq
    have hnew : ∀ c : Conversation, c.isArchived = false → c.archivedBy = [] →
        c.isMuted = false → c.mutedBy = [] → FlagsAgree c := by
      intro c h1 h2 h3 h4
      simp [FlagsAgree, h1, h2, h3, h4]
    refine ⟨?_, hnew _ rfl rfl rfl rfl⟩
    rw [(conversation_create_spec hc).1]
    intro c hmem
    simp only [List.mem_append, List.mem_singleton] at hmem
    rcases hmem with hmem | hmem
    · exact hs c hmem
    · rw [hmem]; exact hnew _ rfl rfl rfl rfl
  · rename_i c0 hsome
    simp only [Option.map_eq_some', Prod.mk.injEq] at h
    obtain ⟨s2, hc, hceq, hs2⟩ := h
    subst hs2
    subst hceq
    have hc0 : FlagsAgree c0 := hs c0 (List.mem_of_find?_eq_some hsome)
    have hnew : FlagsAgree { c0 with lastActivity := now } := hc0
    exact ⟨flagsAgree_save hc hnew hs, hnew⟩

theorem flagsAgree_archiveConversation (userId : Nat) (conversationId : JSString)
    (archive : Bool) (now : Int) (s : State)
    (hs : ∀ c ∈ s.conversations, FlagsAgree c) :
    ∀ c ∈ (archiveConversation userId conversationId archive now s).2.conversations,
      FlagsAgree c := by
  unfold archiveConversation
  cases hu : User.findById s userId with
  | none => exact hs
  | some currentUser =>
    simp only
    cases hg : getOrCreateConversation conversationId (splitOn 95 conversationId)
        currentUser.wa_id now s with
    | none => exact hs
    | some r =>
      obtain ⟨c, s1⟩ := r
      obtain ⟨hs1, hc⟩ := flagsAgree_getOrCreate hg hs
      simp only
      split
      · exact hs1
      · rename_i s2 hsave
        refine flagsAgree_save hsave ?_ hs1
        refine ⟨?_, hc.2⟩
        simp only [gt_iff_lt, decide_eq_true_eq, List.length_pos, ne_eq]

theorem flagsAgree_muteConversation (userId : Nat) (conversationId : JSString)
    (mute : Bool) (duration : Option Int) (now : Int) (s : State)
    (hs : ∀ c ∈ s.conversations, FlagsAgree c) :
    ∀ c ∈ (muteConversation userId conversationId mute duration now s).2.conversations,
      FlagsAgree c := by
  unfold muteConversation
  cases hu : User.findById s userId with
  | none => exact hs
  | some currentUser =>
    simp only
    cases hg : getOrCreateConversation conversationId (splitOn 95 conversationId)
        currentUser.wa_id now s with
    | none => exact hs
    | some r =>
      obtain ⟨c, s1⟩ := r
      obtain ⟨hs1, hc⟩ := flagsAgree_getOrCreate hg hs
      simp only
      split
      · exact hs1
      · rename_i s2 hsave
        refine flagsAgree_save hsave ?_ hs1
        refine ⟨hc.1, ?_⟩
        simp only [gt_iff_lt, decide_eq_true_eq, List.length_pos, ne_eq]

theorem flagsAgree_runCalls (calls : List ConversationCall) :
    ∀ s : State, (∀ c ∈ s.conversations, FlagsAgree c) →
      ∀ c ∈ (runCalls calls s).conversations, FlagsAgree c := by
  induction calls with
  | nil => intro s hs; exact hs
  | cons call calls ih =>
    intro s hs
    apply ih
    cases call with
    | archive userId conversationId flag now =>
      exact flagsAgree_archiveConversation userId conversationId flag now s hs
    | mute userId conversationId flag duration now =>
      exact flagsAgree_muteConversation userId conversationId flag duration now s hs

/-- C20: in every state reached through calls of `archiveConversation` and
`muteConversation`, from a state whose conversations have their flags in
agreement with their lists (so from a state without conversations), every
conversation has `isArchived` true exactly when `archivedBy` is not empty and
`isMuted` true exactly when `mutedBy` is not empty. -/
theorem flags_agree_invariant (s : State) (calls : List ConversationCall)
    (hs : ∀ c ∈ s.conversations, FlagsAgree c) :
    ∀ c ∈ (runCalls calls s).conversations,
      (c.isArchived = true ↔ c.archivedBy ≠ []) ∧ (c.isMuted = true ↔ c.mutedBy ≠ []) :=
  flagsAgree_runCalls calls s hs

theorem flags_agree_invariant_witness :
    (∀ c ∈ Sample.store.conversations, FlagsAgree c) ∧
    (runCalls Sample.calls Sample.store).conversations.length = 2 ∧
    ∀ c ∈ (runCalls Sample.calls Sample.store).conversations,
      (c.isArchived = true ↔ c.archivedBy ≠ []) ∧ (c.isMuted = true ↔ c.mutedBy ≠ []) :=
  ⟨fun c hc => absurd hc (List.not_mem_nil c), by decide,
    flags_agree_invariant Sample.store Sample.calls
      (fun c hc => absurd hc (List.not_mem_nil c))⟩

/-! ### The conversation id across producers -/

/-- C25: the four implementations of the conversation id, of the controller,
of `PayloadProcessor`, of `WebhookParser` and of the client, return the same
string on every pair of strings. -/
theorem generateConversationId_everywhere (phone1 phone2 : JSString) :
    PayloadProcessor.generateConversationId phone1 phone2 =
      generateConversationId phone1 phone2 ∧
    WebhookParser.generateConversationId phone1 phone2 =
      generateConversationId phone1 phone2 ∧
    Client.generateConversationId phone1 phone2 = generateConversationId phone1 phone2 :=
  ⟨rfl, rfl, rfl⟩

theorem splitOn_no_delim : ∀ x : JSString, 95 ∉ x → splitOn 95 x = [x]
  | [], _ => rfl
  | c :: cs, h => by
    have hc : c ≠ 95 := fun hc => h (hc ▸ List.mem_cons_self _ _)
    have ih := splitOn_no_delim cs (fun hm => h (List.mem_cons_of_mem _ hm))
    simp [splitOn, hc, ih]

theorem splitOn_append : ∀ (x y : JSString), 95 ∉ x →
    splitOn 95 (x ++ 95 :: y) = x :: splitOn 95 y
  | [], y, _ => by simp [splitOn]
  | c :: cs, y, h => by
    have hc : c ≠ 95 := fun hc => h (hc ▸ List.mem_cons_self _ _)
    have ih := splitOn_append cs y (fun hm => h (List.mem_cons_of_mem _ hm))
    simp [splitOn, hc, ih]

theorem splitOn_generateConversationId (a b : JSString) (ha : 95 ∉ a) (hb : 95 ∉ b) :
    splitOn 95 (generateConversationId a b) = [(sortPair a b).1, (sortPair a b).2] := by
  unfold generateConversationId
  simp only [str_underscore, List.append_assoc, List.singleton_append]
  rcases sortPair_cases a b with h | h <;> rw [h] <;> simp only
  · rw [splitOn_append a b ha, splitOn_no_delim b hb]
  · rw [splitOn_append b a hb, splitOn_no_delim a ha]

theorem getOrCreateConversation_new {conversationId : JSString}
    {participants : List JSString} {createdBy : JSString} {now : Int} {s s1 : State}
    {c : Conversation} (hnone : Conversation.findOne s conversationId = none)
    (h : getOrCreateConversation conversationId participants createdBy now s = some (c, s1)) :
    c.participants = participants ∧ c.createdBy = createdBy := by
  unfold getOrCreateConversation at h
  rw [hnone] at h
  simp only [Option.map_eq_some', Prod.mk.injEq] at h
  obtain ⟨s2, _, hceq, _⟩ := h
  rw [← hceq]
  exact ⟨rfl, rfl⟩

/-- The row a successful `archiveConversation` creates when there was none. -/
theorem archiveConversation_creates (s : State) (userId : Nat) (u : User)
    (conversationId : JSString) (archive : Bool) (now : Int)
    (hu : User.findById s userId = some u)
    (hnone : Conversation.findOne s conversationId = none)
    (hok : (archiveConversation userId conversationId archive now s).1.status = 200) :
    ∃ c : Conversation,
      Conversation.findOne (archiveConversation userId conversationId archive now s).2
        conversationId = some c ∧ c.participants = splitOn 95 conversationId := by
  unfold archiveConversation at hok ⊢
  simp only [hu] at hok ⊢
  cases hg : getOrCreateConversation conversationId (splitOn 95 conversationId)
      u.wa_id now s with
  | none => rw [hg] at hok; simp [Response.fail] at hok
  | some r =>
    obtain ⟨c, s1⟩ := r
    rw [hg] at hok
    simp only at hok ⊢
    obtain ⟨hfind, hid, _, _, _⟩ := getOrCreateConversation_spec hg
    have hpart := (getOrCreateConversation_new hnone hg).1
    cases hsave : Conversation.save { c with
        archivedBy := archiveEntries archive u.wa_id now c.archivedBy
        isArchived := decide ((archiveEntries archive u.wa_id now c.archivedBy).length > 0) }
        s1 with
    | none => rw [hsave] at hok; simp [Response.fail] at hok
    | some s2 =>
      simp only
      have hf2 := conversation_findOne_save hsave conversationId
      rw [if_pos hid.symm, hfind] at hf2
      simp only [Option.map_some'] at hf2
      exact ⟨_, hf2, hpart⟩

/-- The row a successful `muteConversation` creates when there was none. -/
theorem muteConversation_creates (s : State) (userId : Nat) (u : User)
    (conversationId : JSString) (mute : Bool) (duration : Option Int) (now : Int)
    (hu : User.findById s userId = some u)
    (hnone : Conversation.findOne s conversationId = none)
    (hok : (muteConversation userId conversationId mute duration now s).1.status = 200) :
    ∃ c : Conversation,
      Conversation.findOne (muteConversation userId conversationId mute duration now s).2
        conversationId = some c ∧ c.participants = splitOn 95 conversationId := by
  unfold muteConversation at hok ⊢
  simp only [hu] at hok ⊢
  cases hg : getOrCreateConversation conversationId (splitOn 95 conversationId)
      u.wa_id now s with
  | none => rw [hg] at hok; simp [Response.fail] at hok
  | some r =>
    obtain ⟨c, s1⟩ := r
    rw [hg] at hok
    simp only at hok ⊢
    obtain ⟨hfind, hid, _, _, _⟩ := getOrCreateConversation_spec hg
    have hpart := (getOrCreateConversation_new hnone hg).1
    cases hsave : Conversation.save { c with
        mutedBy := muteEntries mute duration u.wa_id now c.mutedBy
        isMuted := decide ((muteEntries mute duration u.wa_id now c.mutedBy).length > 0) }
        s1 with
    | none => rw [hsave] at hok; simp [Response.fail] at hok
    | some s2 =>
      simp only
      have hf2 := conversation_findOne_save hsave conversationId
      rw [if_pos hid.symm, hfind] at hf2
      simp only [Option.map_some'] at hf2
      exact ⟨_, hf2, hpart⟩

/-- C30: for strings `a` and `b` without the delimiter `_`, splitting
`generateConversationId a b` on `_` gives exactly the sorted pair of `a` and
`b`; so the row that a successful `archiveConversation` or `muteConversation`
creates for that id has these two participants, the client's
`getOtherParticipant` of the id and `a` is `b`, and the client's
`hasConversationAccess` of the id and `u` holds exactly when `u` is `a` or
`b`. -/
theorem conversationId_splits (a b : JSString) (ha : 95 ∉ a) (hb : 95 ∉ b) :
    splitOn 95 (generateConversationId a b) = [(sortPair a b).1, (sortPair a b).2] ∧
    ((sortPair a b = (a, b)) ∨ (sortPair a b = (b, a))) ∧
    Client.getOtherParticipant (generateConversationId a b) a = some b ∧
    (∀ u : JSString,
      Client.hasConversationAccess (generateConversationId a b) u = true ↔ u = a ∨ u = b) ∧
    (∀ (s : State) (userId : Nat) (u : User) (archive : Bool) (now : Int),
      User.findById s userId = some u →
      Conversation.findOne s (generateConversationId a b) = none →
      (archiveConversation userId (generateConversationId a b) archive now s).1.status = 200 →
      ∃ c : Conversation,
        Conversation.findOne
          (archiveConversation userId (generateConversationId a b) archive now s).2
          (generateConversationId a b) = some c ∧
        c.participants = [(sortPair a b).1, (sortPair a b).2]) ∧
    (∀ (s : State) (userId : Nat) (u : User) (mute : Bool) (duration : Option Int) (now : Int),
      User.findById s userId = some u →
      Conversation.findOne s (generateConversationId a b) = none →
      (muteConversation userId (generateConversationId a b) mute duration now s).1.status
        = 200 →
      ∃ c : Conversation,
        Conversation.findOne
          (muteConversation userId (generateConversationId a b) mute duration now s).2
          (generateConversationId a b) = some c ∧
        c.participants = [(sortPair a b).1, (sortPair a b).2]) := by
  have hsplit := splitOn_generateConversationId a b ha hb
  refine ⟨hsplit, sortPair_cases a b, ?_, ?_, ?_, ?_⟩
  · unfold Client.getOtherParticipant
    rw [hsplit]
    rcases sortPair_cases a b with h | h
    · simp [h]
    · rw [h]
      by_cases hab : b = a
      · simp [hab]
      · simp [hab]
  · intro u
    unfold Client.hasConversationAccess
    rw [hsplit]
    rcases sortPair_cases a b with h | h
    · simp only [h, List.getElem?_cons_zero, List.getElem?_cons_succ, Option.some.injEq,
        Bool.or_eq_true, decide_eq_true_eq]
      constructor
      · rintro (h1 | h1)
        · exact Or.inl h1.symm
        · exact Or.inr h1.symm
      · rintro (h1 | h1)
        · exact Or.inl h1.symm
        · exact Or.inr h1.symm
    · simp only [h, List.getElem?_cons_zero, List.getElem?_cons_succ, Option.some.injEq,
        Bool.or_eq_true, decide_eq_true_eq]
      constructor
      · rintro (h1 | h1)
        · exact Or.inr h1.symm
        · exact Or.inl h1.symm
      · rintro (h1 | h1)
        · exact Or.inr h1.symm
        · exact Or.inl h1.symm
  · intro s userId u archive now hu hnone hok
    obtain ⟨c, hc, hp⟩ := archiveConversation_creates s userId u _ archive now hu hnone hok
    exact ⟨c, hc, by rw [hp, hsplit]⟩
  · intro s userId u mute duration now hu hnone hok
    obtain ⟨c, hc, hp⟩ := muteConversation_creates s userId u _ mute duration now hu hnone hok
    exact ⟨c, hc, by rw [hp, hsplit]⟩

theorem conversationId_splits_witness :
    (95 ∉ str "+1111") ∧ (95 ∉ str "+2222") ∧
    splitOn 95 (generateConversationId (str "+2222") (str "+1111")) =
      [str "+1111", str "+2222"] ∧
    Client.getOtherParticipant (generateConversationId (str "+2222") (str "+1111"))
      (str "+2222") = some (str "+1111") ∧
    (Client.hasConversationAccess (generateConversationId (str "+2222") (str "+1111"))
      (str "+3333") = true ↔ str "+3333" = str "+2222" ∨ str "+3333" = str "+1111") :=
  ⟨by decide, by decide, by decide,
    (conversationId_splits (str "+2222") (str "+1111") (by decide) (by decide)).2.2.1,
    (conversationId_splits (str "+2222") (str "+1111") (by decide) (by decide)).2.2.2.1
      (str "+3333")⟩

/-! ### Stored status of ingested messages -/

/-- The document `PayloadProcessor.processMessage` creates is stored as
`delivered`, under the conversation id of sender and business number. -/
theorem payloadProcessor_stores_delivered (messageData : MessageData)
    (display_phone_number : Option JSString) (s : State) (m : Message)
    (hnew : Message.findOne s messageData.id = none)
    (hm : Message.findOne (PayloadProcessor.processMessage messageData display_phone_number
      s).state messageData.id = some m) :
    m.status = str "delivered" ∧
    m.conversationId = generateConversationId messageData.sender
      (orDefault display_phone_number (str "918329446654")) := by
  unfold PayloadProcessor.processMessage at hm
  cases hu : User.findOne s messageData.sender with
  | none => rw [hu] at hm; simp only at hm; rw [hnew] at hm; cases hm
  | some sender =>
    rw [hu] at hm
    simp only [hnew] at hm
    cases ht : dateOfSeconds messageData.timestamp with
    | none => rw [ht] at hm; simp only at hm; rw [hnew] at hm; cases hm
    | some t =>
      rw [ht] at hm
      simp only at hm
      split at hm
      · simp only at hm; rw [hnew] at hm; cases hm
      · rename_i s1 hc
        simp only at hm
        have hself := findOne_create_self hc
        simp only at hself
        rw [hself] at hm
        cases hm
        exact ⟨rfl, rfl⟩

/-- C24: `WebhookParser.processMessage` on a message from an unknown contact
to the business number `+2222` stores the document with status `sent`, not
`delivered`, while `PayloadProcessor.processMessage` stores the message of a
known sender with status `delivered`; both file it under
`generateConversationId` of sender and business number. -/
theorem webhookParser_stores_sent :
    ((Message.findOne (WebhookParser.processMessage Sample.parsed (some (str "+2222")) none
      Sample.store).state (str "wamid.2")).map (fun m => (m.status, m.conversationId))
      = some (str "sent", generateConversationId (str "+9999") (str "+2222"))) ∧
    ((Message.findOne (PayloadProcessor.processMessage Sample.incoming (some (str "+2222"))
      Sample.store).state (str "wamid.1")).map (fun m => (m.status, m.conversationId))
      = some (str "delivered", generateConversationId (str "+1111") (str "+2222"))) := by
  decide

/-! ### Blocking -/

theorem isUserBlocked_eq (s : State) (blockedBy blockedUser : JSString) :
    isUserBlocked s blockedBy blockedUser =
      (BlockedUser.findOne s blockedBy blockedUser).isSome := rfl

/-- C27: for a known caller `u` and a known target, `blockUser` answers 400
`User is already blocked` exactly when the ordered pair (caller, target) is
registered, whatever other pairs, the reverse one included, are registered;
when neither id is empty and the pair is not registered it succeeds; when it
succeeds it appends exactly that ordered pair and changes nothing else, and
when it does not succeed it changes nothing at all. -/
theorem blockUser_already_blocked (s : State) (reqUserId : Nat) (u t : User)
    (userId : JSString) (hu : User.findById s reqUserId = some u)
    (ht : User.findOne s userId = some t) :
    ((blockUser reqUserId userId s).1.status = 400 ↔
      isUserBlocked s u.wa_id userId = true) ∧
    (isUserBlocked s u.wa_id userId = true →
      (blockUser reqUserId userId s).1 = Response.fail 400 "User is already blocked") ∧
    (isUserBlocked s u.wa_id userId = false → u.wa_id ≠ [] → userId ≠ [] →
      (blockUser reqUserId userId s).1.status = 200) ∧
    ((blockUser reqUserId userId s).1.status = 200 →
      (blockUser reqUserId userId s).2 =
        { s with blockedUsers := s.blockedUsers ++ [⟨u.wa_id, userId⟩] }) ∧
    ((blockUser reqUserId userId s).1.status ≠ 200 → (blockUser reqUserId userId s).2 = s) := by
  rw [isUserBlocked_eq]
  unfold blockUser
  simp only [hu, ht]
  cases hb : BlockedUser.findOne s u.wa_id userId with
  | some b => simp [Response.fail]
  | none =>
    simp only [Option.isSome_none]
    unfold BlockedUser.create
    simp only [hb, Option.isSome_none]
    by_cases hv : BlockedUser.validate ⟨u.wa_id, userId⟩ = false
    · simp only [hv, if_true]
      refine ⟨by simp [Response.fail], by simp, ?_, by simp [Response.fail], by simp⟩
      intro _ h1 h2
      simp [BlockedUser.validate, h1, h2] at hv
    · simp only [hv, if_false]
      refine ⟨by simp, by simp, by simp, by simp, by simp⟩

theorem blockUser_already_blocked_witness :
    (blockUser 2 (str "+1111") Sample.blockedStore).1.status = 200 ∧
    (blockUser 2 (str "+1111") Sample.blockedStore).2 =
      { Sample.blockedStore with
        blockedUsers := Sample.blockedStore.blockedUsers ++ [⟨str "+2222", str "+1111"⟩] } ∧
    (blockUser 1 (str "+2222") Sample.blockedStore).1 =
      Response.fail 400 "User is already blocked" :=
  ⟨(blockUser_already_blocked Sample.blockedStore 2 Sample.bob Sample.alice (str "+1111")
      (by decide) (by decide)).2.2.1 (by decide) (by decide) (by decide),
    (blockUser_already_blocked Sample.blockedStore 2 Sample.bob Sample.alice (str "+1111")
      (by decide) (by decide)).2.2.2.1 (by decide),
    (blockUser_already_blocked Sample.blockedStore 1 Sample.alice Sample.bob (str "+2222")
      (by decide) (by decide)).2.1 (by decide)⟩

/-! ### Bulk read marks -/

/-- C28: when Bob opens his conversation with Alice, `getMessages` sets the
status of her message `m1`, so far `sent` and never delivered, to `read` and
leaves `deliveredAt` and `readAt` empty, whereas `updateMessageStatus` with
`read` sets both on the same message. -/
theorem getMessages_read_without_deliveredAt :
    Message.findOne Sample.store (str "m1") = some Sample.hi ∧
    Sample.hi.status = str "sent" ∧ Sample.hi.deliveredAt = none ∧
    (getMessages 2 (str "+1111_+2222") 0 0 Sample.store).1.status = 200 ∧
    Message.findOne (getMessages 2 (str "+1111_+2222") 0 0 Sample.store).2 (str "m1") =
      some { Sample.hi with status := str "read", deliveredAt := none, readAt := none } ∧
    Message.findOne (updateMessageStatus (str "m1") (str "read") 5000 Sample.store).2
      (str "m1") =
      some { Sample.hi with status := str "read", deliveredAt := some 5000,
                            readAt := some 5000 } := by
  decide

/-! ### Atomicity of sending -/

/-- C29: with the socket hub initialised, as `index.js` does before the server
listens, `getIO` does not throw, and whenever `sendMessage` answers anything but
201 the state is the one before the call: no message row has been added. -/
theorem sendMessage_atomic (req : SendMessageRequest) (now : Int) (rnd : JSString)
    (s : State) (hio : s.io = true)
    (hfail : (sendMessage req now rnd s).1.status ≠ 201) :
    (sendMessage req now rnd s).2 = s ∧
    (sendMessage req now rnd s).2.messages = s.messages := by
  suffices h : (sendMessage req now rnd s).2 = s by rw [h]; exact ⟨rfl, rfl⟩
  unfold sendMessage at hfail ⊢
  cases hv : req.validationErrors with
  | true => simp
  | false =>
    rw [hv] at hfail
    simp only [Bool.false_eq_true, if_false] at hfail ⊢
    cases hf : User.findById s req.userId with
    | none => rfl
    | some f =>
      rw [hf] at hfail
      simp only at hfail ⊢
      cases hr : User.findOne s req.toNumber with
      | none => rfl
      | some r =>
        rw [hr] at hfail
        simp only at hfail ⊢
        cases hb : (isUserBlocked s f.wa_id req.toNumber ||
            isUserBlocked s req.toNumber f.wa_id) with
        | true => simp
        | false =>
          rw [hb] at hfail
          simp only [Bool.false_eq_true, if_false] at hfail ⊢
          cases hc : Message.create (newMessageDoc f req now rnd) s with
          | none => rfl
          | some s1 =>
            rw [hc] at hfail
            simp only at hfail
            have hio1 : s1.io = true := by rw [(create_spec hc).1]; exact hio
            rw [hio1] at hfail
            simp at hfail

theorem sendMessage_atomic_witness :
    Sample.store.io = true ∧
    (sendMessage { userId := 1, toNumber := str "+9999", message := str "hi" } 1000
      (str "abc") Sample.store).1.status = 404 ∧
    (sendMessage { userId := 1, toNumber := str "+9999", message := str "hi" } 1000
      (str "abc") Sample.store).2 = Sample.store :=
  ⟨by decide, by decide,
    (sendMessage_atomic { userId := 1, toNumber := str "+9999", message := str "hi" } 1000
      (str "abc") Sample.store (by decide) (by decide)).1⟩

/-! ### Archived conversations -/

theorem archivedFilter_iff (wa_id : JSString) (c : Conversation) :
    archivedFilter wa_id c = true ↔ wa_id ∈ c.participants ∧ c.isArchived = true := by
  unfold archivedFilter
  cases c.isArchived <;> simp

/-- C21, as the code has it: in the store where only Bob has archived the
conversation of Alice and Bob, its `archivedBy` holds Bob's entry alone, and
`getArchivedConversations` for Alice returns it all the same, with no
`archivedAt`. -/
theorem archived_by_other_is_listed :
    (archivedByOf Sample.archivedByBob (str "+1111_+2222")).map (fun e => e.userId) =
      [str "+2222"] ∧
    (getArchivedConversations 1 Sample.archivedByBob).conversations.map
      (fun d => (d.conversationId, d.archivedAt)) = [(str "+1111_+2222", none)] := by
  decide

/-- C21, amended: for a known user `u`, `getArchivedConversations` answers 200
with exactly the details of the conversations in which `u` is a participant,
`isArchived` is set, by whichever participant, and the other participant is a
user; `archivedAt` is that of the entry of `u` when there is one. -/
theorem getArchivedConversations_lists (s : State) (userId : Nat) (u : User)
    (hu : User.findById s userId = some u) :
    (getArchivedConversations userId s).status = 200 ∧
    (∀ d : ConversationDetail, d ∈ (getArchivedConversations userId s).conversations ↔
      ∃ c ∈ s.conversations, u.wa_id ∈ c.participants ∧ c.isArchived = true ∧
        (otherUser s u c).isSome = true ∧ d = conversationDetail s u c) ∧
    (∀ d ∈ (getArchivedConversations userId s).conversations,
      ∃ c ∈ s.conversations, d.conversationId = c.conversationId ∧
        d.archivedAt = (c.archivedBy.find? (fun e => decide (e.userId = u.wa_id))).map
          (fun e => e.archivedAt)) := by
  have hmem : ∀ c : Conversation,
      c ∈ (s.conversations.filter (archivedFilter u.wa_id)).insertionSort
        (fun a b => b.lastActivity ≤ a.lastActivity) ↔
      c ∈ s.conversations ∧ u.wa_id ∈ c.participants ∧ c.isArchived = true := by
    intro c
    rw [(List.perm_insertionSort _ _).mem_iff, List.mem_filter, archivedFilter_iff]
  have hiff : ∀ d : ConversationDetail,
      d ∈ (getArchivedConversations userId s).conversations ↔
      ∃ c ∈ s.conversations, u.wa_id ∈ c.participants ∧ c.isArchived = true ∧
        (otherUser s u c).isSome = true ∧ d = conversationDetail s u c := by
    intro d
    unfold getArchivedConversations
    simp only [hu]
    split
    · rename_i hlen
      have hnil := List.length_eq_zero.mp hlen
      simp only [List.not_mem_nil, false_iff]
      rintro ⟨c, hc, hp, ha, _, _⟩
      have := (hmem c).mpr ⟨hc, hp, ha⟩
      rw [hnil] at this
      exact absurd this (List.not_mem_nil _)
    · simp only [List.mem_filter, List.mem_map]
      constructor
      · rintro ⟨⟨c, hc, rfl⟩, hsome⟩
        obtain ⟨h1, h2, h3⟩ := (hmem c).mp hc
        exact ⟨c, h1, h2, h3, hsome, rfl⟩
      · rintro ⟨c, h1, h2, h3, hsome, rfl⟩
        exact ⟨⟨c, (hmem c).mpr ⟨h1, h2, h3⟩, rfl⟩, hsome⟩
  refine ⟨?_, hiff, ?_⟩
  · unfold getArchivedConversations
    simp only [hu]
    split <;> rfl
  · intro d hd
    obtain ⟨c, hc, _, _, _, rfl⟩ := (hiff d).mp hd
    exact ⟨c, hc, rfl, rfl⟩

theorem getArchivedConversations_lists_witness :
    (getArchivedConversations 1 Sample.archivedByBob).status = 200 ∧
    ∀ d ∈ (getArchivedConversations 1 Sample.archivedByBob).conversations,
      ∃ c ∈ Sample.archivedByBob.conversations, d.conversationId = c.conversationId ∧
        d.archivedAt = (c.archivedBy.find? (fun e => decide (e.userId = Sample.alice.wa_id))).map
          (fun e => e.archivedAt) :=
  ⟨(getArchivedConversations_lists Sample.archivedByBob 1 Sample.alice (by decide)).1,
    (getArchivedConversations_lists Sample.archivedByBob 1 Sample.alice (by decide)).2.2⟩

/-! ### Search -/

theorem inFragment_of_plainQuery : ∀ query : JSString, plainQuery query = true →
    inFragment query = true
  | [], _ => rfl
  | p :: ps, h => by
    simp only [plainQuery, List.all_cons, Bool.and_eq_true, decide_eq_true_eq] at h
    have ih := inFragment_of_plainQuery ps (by simpa [plainQuery] using h.2)
    simp only [inFragment, List.all_cons, Bool.and_eq_true, decide_eq_true_eq, Bool.or_eq_true]
    exact ⟨⟨⟨h.1.1.1, h.1.1.2⟩, Or.inr h.1.2⟩, by simpa [inFragment] using ih⟩

theorem matchHere_iff_prefix : ∀ (query text : JSString), plainQuery query = true →
    (matchHere query text = true ↔ (query.map foldCase) <+: (text.map foldCase))
  | [], _, _ => by simp [matchHere]
  | p :: ps, [], _ => by simp [matchHere]
  | p :: ps, c :: cs, h => by
    simp only [plainQuery, List.all_cons, Bool.and_eq_true, decide_eq_true_eq] at h
    have hp : p ≠ 46 := fun hp => h.1.2 (by rw [hp]; decide)
    have ih := matchHere_iff_prefix ps cs (by simpa [plainQuery] using h.2)
    simp only [matchHere, atomMatches, if_neg hp, Bool.and_eq_true, decide_eq_true_eq,
      List.map_cons, List.cons_prefix_cons, ih]

theorem matchAnywhere_iff_infix (query : JSString) (hq : plainQuery query = true) :
    ∀ text : JSString,
      matchAnywhere query text = true ↔ (query.map foldCase) <:+: (text.map foldCase)
  | [] => by
    simp only [matchAnywhere, matchHere_iff_prefix query [] hq, List.map_nil,
      List.prefix_nil, List.infix_nil]
  | c :: cs => by
    simp only [matchAnywhere, Bool.or_eq_true, matchHere_iff_prefix query (c :: cs) hq,
      matchAnywhere_iff_infix query hq cs, List.map_cons, List.infix_cons_iff]

theorem matchAnywhere_eq_contains (query text : JSString) (hq : plainQuery query = true) :
    matchAnywhere query text = containsIgnoreCase query text := by
  unfold containsIgnoreCase
  rw [Bool.eq_iff_iff, matchAnywhere_iff_infix query hq text, decide_eq_true_eq]

theorem searchFilter_eq_searchSpec (engine : Engine) (wa_id query : JSString)
    (conversationId : Option JSString) (m : Message) (hq : plainQuery query = true)
    (hascii : (m.content.body.getD []).all isAscii = true) :
    searchFilter engine wa_id query conversationId m =
      searchSpec wa_id query conversationId m := by
  unfold searchFilter searchSpec
  cases hb : m.content.body with
  | none => rfl
  | some body =>
    rw [hb] at hascii
    simp only [Option.getD_some] at hascii
    simp only [regexMatch, inFragment_of_plainQuery query hq, hascii, Bool.and_self, if_true,
      matchAnywhere_eq_contains query body hq]

/-- C26, as the code has it: the query `.` is non-empty and no body of the
sample store contains it, yet `searchMessages` for Alice returns both messages,
whatever the engine answers elsewhere: the query is read as a regular
expression. -/
theorem search_dot_matches_everything :
    containsIgnoreCase (str ".") (str "hi") = false ∧
    containsIgnoreCase (str ".") (str "yo") = false ∧
    ∀ engine : Engine,
      (searchMessages engine 1 (str ".") none 0 0 Sample.store).messages.map
        (fun m => (m.messageId, m.content.body)) =
        [(str "m2", some (str "yo")), (str "m1", some (str "hi"))] := by
  refine ⟨by decide, by decide, ?_⟩
  intro engine
  rfl

/-- C26, amended: for a known viewer, a non-empty query of printable ASCII
characters none of which is a regular-expression metacharacter, and a store
whose bodies are ASCII, `searchMessages` answers 200 with the requested page of
exactly the messages in which the viewer is sender or recipient, whose
conversation is the given one when one is given, and whose body contains the
query as a literal substring, the case of letters ignored; `total` counts
them. -/
theorem searchMessages_plain (engine : Engine) (s : State) (userId : Nat) (u : User)
    (query : JSString) (conversationId : Option JSString) (queryPage queryLimit : Nat)
    (hu : User.findById s userId = some u) (hq : query ≠ [])
    (hplain : plainQuery query = true)
    (hascii : ∀ m ∈ s.messages, (m.content.body.getD []).all isAscii = true) :
    (searchMessages engine userId query conversationId queryPage queryLimit s).status = 200 ∧
    (searchMessages engine userId query conversationId queryPage queryLimit s).messages =
      pageOf (s.messages.filter (searchSpec u.wa_id query conversationId))
        (if queryPage = 0 then 1 else queryPage) (if queryLimit = 0 then 20 else queryLimit) ∧
    ((searchMessages engine userId query conversationId queryPage queryLimit s).pagination.map
      (fun p => p.total)) =
      some (s.messages.filter (searchSpec u.wa_id query conversationId)).length := by
  have hfilter : s.messages.filter (searchFilter engine u.wa_id query conversationId) =
      s.messages.filter (searchSpec u.wa_id query conversationId) :=
    List.filter_congr (fun m hm =>
      searchFilter_eq_searchSpec engine u.wa_id query conversationId m hplain (hascii m hm))
  unfold searchMessages
  simp only [hq, if_false, hu, regexCompiles, inFragment_of_plainQuery query hplain,
    Bool.true_or, Bool.true_eq_false, hfilter, Option.map_some', and_self]

theorem searchMessages_plain_witness :
    (searchMessages Sample.noEngine 1 (str "HI") none 0 0 Sample.store).status = 200 ∧
    (searchMessages Sample.noEngine 1 (str "HI") none 0 0 Sample.store).messages =
      pageOf (Sample.store.messages.filter (searchSpec Sample.alice.wa_id (str "HI") none))
        1 20 :=
  ⟨(searchMessages_plain Sample.noEngine Sample.store 1 Sample.alice (str "HI") none 0 0
      (by decide) (by decide) (by decide) (by decide)).1,
    (searchMessages_plain Sample.noEngine Sample.store 1 Sample.alice (str "HI") none 0 0
      (by decide) (by decide) (by decide) (by decide)).2.1⟩

/-! ### Batches of payloads -/

theorem Grows.refl (s : State) : Grows s s := ⟨fun _ h => h, fun _ h => h⟩

theorem Grows.trans {s s1 s2 : State} (h1 : Grows s s1) (h2 : Grows s1 s2) : Grows s s2 :=
  ⟨fun w h => h2.1 w (h1.1 w h), fun id h => h2.2 id (h1.2 id h)⟩

theorem NamedUsers.of_users {s s1 : State} (h : s1.users = s.users) (hn : NamedUsers s) :
    NamedUsers s1 := by
  unfold NamedUsers
  rw [h]
  exact hn

theorem orDefault_ne_nil (x : Option JSString) (dflt : JSString) (h : dflt ≠ []) :
    orDefault x dflt ≠ [] := by
  unfold orDefault
  cases x with
  | none => exact h
  | some v =>
    simp only
    split
    · exact h
    · assumption

theorem upsertUser_grows (contactData : Contact) (s : State) :
    Grows s (PayloadProcessor.upsertUser contactData s) := by
  unfold PayloadProcessor.upsertUser
  simp only
  cases hf : User.findOne s (trim contactData.wa_id) with
  | some u0 =>
    refine ⟨?_, fun _ h => h⟩
    intro w hw
    unfold User.findOne at hw ⊢
    simp only
    by_cases hwc : w = trim contactData.wa_id
    · subst hwc
      rw [find?_updateFirst_same _ _ (fun x hx => by simpa using hx)]
      simpa using hw
    · rw [find?_updateFirst_other]
      · exact hw
      · intro x hx
        have hx' : x.wa_id = trim contactData.wa_id := by simpa using hx
        simp only [decide_eq_false_iff_not]
        exact ⟨fun hc => hwc (hc ▸ hx'), fun hc => hwc (hc ▸ hx')⟩
  | none =>
    refine ⟨?_, fun _ h => h⟩
    intro w hw
    unfold User.findOne at hw ⊢
    simp only [List.find?_append]
    cases hfw : s.users.find? (fun u => decide (u.wa_id = w)) with
    | none => rw [hfw] at hw; cases hw
    | some _ => rfl

/-- A well-formed contact leaves every user with a name. -/
theorem upsertUser_named (contactData : Contact) (s : State)
    (hc : contactData.wellFormed = true) (hn : NamedUsers s) :
    NamedUsers (PayloadProcessor.upsertUser contactData s) := by
  simp only [Contact.wellFormed, Bool.and_eq_true, decide_eq_true_eq] at hc
  have hname := hc.2
  unfold PayloadProcessor.upsertUser
  simp only
  cases hf : User.findOne s (trim contactData.wa_id) with
  | some u0 =>
    exact forall_updateFirst (fun u : User => u.name ≠ [])
      (fun u => decide (u.wa_id = trim contactData.wa_id))
      (fun u => { u with
        name := trim (orDefault contactData.profileName (str "Unknown User")) })
      s.users hn (fun _ _ _ => hname)
  | none =>
    intro u hu
    simp only [List.mem_append, List.mem_singleton] at hu
    rcases hu with hu | hu
    · exact hn u hu
    · rw [hu]; exact hname

/-- What `PayloadProcessor.processMessage` can do: leave the state, or create
one document under the id of the entry without throwing. -/
theorem processMessage_cases (messageData : MessageData)
    (display_phone_number : Option JSString) (s : State) :
    (PayloadProcessor.processMessage messageData display_phone_number s).state = s ∨
    ∃ doc : Message, doc.messageId = messageData.id ∧
      Message.create doc s =
        some (PayloadProcessor.processMessage messageData display_phone_number s).state := by
  unfold PayloadProcessor.processMessage
  cases User.findOne s messageData.sender with
  | none => exact Or.inl rfl
  | some sender =>
    simp only
    cases Message.findOne s messageData.id with
    | some _ => exact Or.inl rfl
    | none =>
      simp only
      cases dateOfSeconds messageData.timestamp with
      | none => exact Or.inl rfl
      | some t =>
        simp only
        split
        · exact Or.inl rfl
        · rename_i s1 hc
          exact Or.inr ⟨_, rfl, hc⟩

theorem processMessage_users (messageData : MessageData)
    (display_phone_number : Option JSString) (s : State) :
    (PayloadProcessor.processMessage messageData display_phone_number s).state.users =
      s.users := by
  rcases processMessage_cases messageData display_phone_number s with h | ⟨doc, _, hc⟩
  · rw [h]
  · rw [(create_spec hc).1]

theorem processMessage_grows (messageData : MessageData)
    (display_phone_number : Option JSString) (s : State) :
    Grows s (PayloadProcessor.processMessage messageData display_phone_number s).state := by
  rcases processMessage_cases messageData display_phone_number s with h | ⟨doc, _, hc⟩
  · rw [h]; exact Grows.refl s
  · have hs1 := (create_spec hc).1
    refine ⟨?_, ?_⟩
    · intro w hw; rw [hs1]; exact hw
    · intro id hid
      cases hm : Message.findOne s id with
      | none => rw [hm] at hid; cases hid
      | some m => rw [findOne_create s _ doc m id hc hm]; rfl

theorem processStatusUpdate_grows (statusData : StatusData) (s : State) :
    Grows s (PayloadProcessor.processStatusUpdate statusData s).state ∧
    (PayloadProcessor.processStatusUpdate statusData s).raised = false ∧
    (PayloadProcessor.processStatusUpdate statusData s).state.users = s.users := by
  unfold PayloadProcessor.processStatusUpdate
  cases Message.findOne s statusData.id with
  | none => exact ⟨Grows.refl s, rfl, rfl⟩
  | some m0 =>
    refine ⟨⟨fun _ h => h, ?_⟩, rfl, rfl⟩
    intro id hid
    simp only
    rw [findOne_findOneAndUpdate s id statusData.id
      (fun m => { m with status := statusData.status }) (fun _ => rfl)]
    split
    · simpa using hid
    · exact hid

/-- A call of `PayloadProcessor.processMessage` that returns for a known
sender leaves a message under the id of the entry. -/
theorem processMessage_stores (messageData : MessageData)
    (display_phone_number : Option JSString) (s : State)
    (hr : (PayloadProcessor.processMessage messageData display_phone_number s).raised = false)
    (hu : (User.findOne s messageData.sender).isSome = true) :
    (Message.findOne (PayloadProcessor.processMessage messageData display_phone_number s).state
      messageData.id).isSome = true := by
  unfold PayloadProcessor.processMessage at hr ⊢
  cases hf : User.findOne s messageData.sender with
  | none => rw [hf] at hu; cases hu
  | some sender =>
    rw [hf] at hr
    simp only at hr ⊢
    cases hm : Message.findOne s messageData.id with
    | some _ => simp only [hm]; rfl
    | none =>
      rw [hm] at hr
      simp only at hr ⊢
      cases ht : dateOfSeconds messageData.timestamp with
      | none => rw [ht] at hr; cases hr
      | some t =>
        rw [ht] at hr
        simp only at hr ⊢
        split
        · rename_i hc; rw [hc] at hr; cases hr
        · rename_i s1 hc
          simp only
          have hself := findOne_create_self hc
          simp only at hself
          rw [hself]; rfl

theorem sortPair_underscore_ne_nil (a b : JSString) :
    PayloadProcessor.generateConversationId a b ≠ [] := by
  unfold PayloadProcessor.generateConversationId
  simp [str_underscore]

/-- A well-formed entry does not make `PayloadProcessor.processMessage` throw
when the users have names. -/
theorem processMessage_no_raise (messageData : MessageData)
    (display_phone_number : Option JSString) (s : State) (hn : NamedUsers s)
    (hw : messageData.wellFormed = true) :
    (PayloadProcessor.processMessage messageData display_phone_number s).raised = false := by
  simp only [MessageData.wellFormed, Bool.and_eq_true, decide_eq_true_eq] at hw
  obtain ⟨⟨⟨⟨hid, hsender⟩, _⟩, hts⟩, htype⟩ := hw
  unfold PayloadProcessor.processMessage
  cases hf : User.findOne s messageData.sender with
  | none => rfl
  | some sender =>
    simp only
    have hmem : sender ∈ s.users := List.mem_of_find?_eq_some hf
    have hname := hn sender hmem
    cases hm : Message.findOne s messageData.id with
    | some _ => rfl
    | none =>
      simp only
      cases ht : dateOfSeconds messageData.timestamp with
      | none => rw [ht] at hts; cases hts
      | some t =>
        simp only
        split
        · rename_i hc
          exfalso
          unfold Message.create at hc
          simp only [hm, Option.isSome_none, Bool.false_eq_true, if_false] at hc
          split at hc
          · rename_i hv
            have hbn : orDefault display_phone_number (str "918329446654") ≠ [] :=
              orDefault_ne_nil _ _ (by decide)
            have hst : str "delivered" ∈ validStatuses := by decide
            simp [Message.validate, hid, hsender, hname, hbn, htype, hst,
              sortPair_underscore_ne_nil] at hv
          · cases hc
        · rfl

theorem contactsLoop_spec : ∀ (contacts : List Contact) (r : PayloadResult),
    (contactsLoop contacts r).raised = r.raised ∧
    (contactsLoop contacts r).messages = r.messages ∧
    Grows r.state (contactsLoop contacts r).state
  | [], r => ⟨rfl, rfl, Grows.refl _⟩
  | contact :: rest, r => by
    unfold contactsLoop
    obtain ⟨h1, h2, h3⟩ := contactsLoop_spec rest
      { r with state := PayloadProcessor.upsertUser contact r.state, users := r.users + 1 }
    exact ⟨h1, h2, (upsertUser_grows contact r.state).trans h3⟩

theorem contactsLoop_named : ∀ (contacts : List Contact) (r : PayloadResult),
    (∀ c ∈ contacts, c.wellFormed = true) → NamedUsers r.state →
    NamedUsers (contactsLoop contacts r).state
  | [], _, _, hn => hn
  | contact :: rest, r, hc, hn => by
    unfold contactsLoop
    exact contactsLoop_named rest
      { r with state := PayloadProcessor.upsertUser contact r.state, users := r.users + 1 }
      (fun c h => hc c (List.mem_cons_of_mem _ h))
      (upsertUser_named contact r.state (hc contact (List.mem_cons_self _ _)) hn)

theorem messagesLoop_grows (display_phone_number : Option JSString) :
    ∀ (messages : List MessageData) (r : PayloadResult),
      Grows r.state (messagesLoop display_phone_number messages r).state ∧
      (messagesLoop display_phone_number messages r).state.users = r.state.users
  | [], r => ⟨Grows.refl _, rfl⟩
  | message :: rest, r => by
    unfold messagesLoop
    simp only
    cases hr : (PayloadProcessor.processMessage message display_phone_number r.state).raised with
    | true =>
      simp only [if_true]
      exact ⟨processMessage_grows message display_phone_number r.state,
        processMessage_users message display_phone_number r.state⟩
    | false =>
      simp only [Bool.false_eq_true, if_false]
      have ih := messagesLoop_grows display_phone_number rest
        { r with
          state := (PayloadProcessor.processMessage message display_phone_number r.state).state
          messages := r.messages + 1 }
      exact ⟨(processMessage_grows message display_phone_number r.state).trans ih.1,
        ih.2.trans (processMessage_users message display_phone_number r.state)⟩

theorem messagesLoop_stores (display_phone_number : Option JSString) :
    ∀ (messages : List MessageData) (r : PayloadResult),
      (messagesLoop display_phone_number messages r).raised = false →
      ∀ m ∈ messages, (User.findOne r.state m.sender).isSome = true →
        (Message.findOne (messagesLoop display_phone_number messages r).state m.id).isSome
          = true
  | [], _, _ => fun m hm => absurd hm (List.not_mem_nil m)
  | message :: rest, r, h => by
    unfold messagesLoop at h ⊢
    simp only at h ⊢
    cases hr : (PayloadProcessor.processMessage message display_phone_number r.state).raised with
    | true => rw [hr] at h; simp at h
    | false =>
      rw [hr] at h
      simp only [Bool.false_eq_true, if_false] at h ⊢
      intro m hm hu
      rcases List.mem_cons.mp hm with hm | hm
      · subst hm
        exact (messagesLoop_grows display_phone_number rest _).1.2 _
          (processMessage_stores m display_phone_number r.state hr hu)
      · exact messagesLoop_stores display_phone_number rest _ h m hm
          ((processMessage_grows message display_phone_number r.state).1 _ hu)

theorem messagesLoop_no_raise (display_phone_number : Option JSString) :
    ∀ (messages : List MessageData) (r : PayloadResult), r.raised = false →
      NamedUsers r.state → (∀ m ∈ messages, m.wellFormed = true) →
      (messagesLoop display_phone_number messages r).raised = false
  | [], _, h, _, _ => h
  | message :: rest, r, h, hn, hw => by
    unfold messagesLoop
    simp only
    have hr := processMessage_no_raise message display_phone_number r.state hn
      (hw message (List.mem_cons_self _ _))
    rw [hr]
    simp only [Bool.false_eq_true, if_false]
    exact messagesLoop_no_raise display_phone_number rest _ h
      (NamedUsers.of_users (processMessage_users message display_phone_number r.state) hn)
      (fun m hm => hw m (List.mem_cons_of_mem _ hm))

theorem statusesLoop_spec : ∀ (statuses : List StatusData) (r : PayloadResult),
    (statusesLoop statuses r).raised = r.raised ∧
    (statusesLoop statuses r).messages = r.messages ∧
    Grows r.state (statusesLoop statuses r).state ∧
    (statusesLoop statuses r).state.users = r.state.users
  | [], r => ⟨rfl, rfl, Grows.refl _, rfl⟩
  | status :: rest, r => by
    unfold statusesLoop
    simp only [(processStatusUpdate_grows status r.state).2.1, Bool.false_eq_true, if_false]
    obtain ⟨h1, h2, h3, h4⟩ := statusesLoop_spec rest
      { r with state := (PayloadProcessor.processStatusUpdate status r.state).state }
    exact ⟨h1, h2, (processStatusUpdate_grows status r.state).1.trans h3,
      h4.trans (processStatusUpdate_grows status r.state).2.2⟩

theorem changesLoop_grows : ∀ (changes : List Change) (r : PayloadResult),
    Grows r.state (changesLoop changes r).state
  | [], r => Grows.refl _
  | change :: rest, r => by
    unfold changesLoop
    cases hv : (if change.field = str "messages" then change.value else none) with
    | none => exact changesLoop_grows rest r
    | some value =>
      simp only
      have g1 := (contactsLoop_spec value.contacts r).2.2
      have g2 := (messagesLoop_grows value.display_phone_number value.messages
        (contactsLoop value.contacts r)).1
      have g3 := (statusesLoop_spec value.statuses
        (messagesLoop value.display_phone_number value.messages
          (contactsLoop value.contacts r))).2.2.1
      split
      · exact g1.trans g2
      · split
        · exact (g1.trans g2).trans g3
        · exact ((g1.trans g2).trans g3).trans (changesLoop_grows rest _)

theorem changesLoop_named : ∀ (changes : List Change) (r : PayloadResult),
    (∀ c ∈ (changes.map changeContacts).flatten, c.wellFormed = true) →
    NamedUsers r.state → NamedUsers (changesLoop changes r).state
  | [], _, _, hn => hn
  | change :: rest, r, hc, hn => by
    unfold changesLoop
    simp only [List.map_cons, List.flatten_cons, List.mem_append] at hc
    unfold changeContacts at hc
    cases hv : (if change.field = str "messages" then change.value else none) with
    | none =>
      rw [hv] at hc
      exact changesLoop_named rest r (fun c h => hc c (Or.inr h)) hn
    | some value =>
      rw [hv] at hc
      simp only at hc ⊢
      have n1 := contactsLoop_named value.contacts r (fun c h => hc c (Or.inl h)) hn
      have n2 : NamedUsers (messagesLoop value.display_phone_number value.messages
          (contactsLoop value.contacts r)).state :=
        NamedUsers.of_users (messagesLoop_grows value.display_phone_number value.messages
          (contactsLoop value.contacts r)).2 n1
      have n3 : NamedUsers (statusesLoop value.statuses
          (messagesLoop value.display_phone_number value.messages
            (contactsLoop value.contacts r))).state :=
        NamedUsers.of_users (statusesLoop_spec value.statuses
          (messagesLoop value.display_phone_number value.messages
            (contactsLoop value.contacts r))).2.2.2 n2
      split
      · exact n2
      · split
        · exact n3
        · exact changesLoop_named rest _ (fun c h => hc c (Or.inr h)) n3

theorem changesLoop_stores : ∀ (changes : List Change) (r : PayloadResult),
    (changesLoop changes r).raised = false →
    ∀ m ∈ (changes.map changeMessages).flatten,
      (User.findOne r.state m.sender).isSome = true →
      (Message.findOne (changesLoop changes r).state m.id).isSome = true
  | [], _, _ => fun m hm => absurd hm (by simp)
  | change :: rest, r, h => by
    unfold changesLoop at h ⊢
    intro m hm hu
    simp only [List.map_cons, List.flatten_cons, List.mem_append] at hm
    unfold changeMessages at hm
    cases hv : (if change.field = str "messages" then change.value else none) with
    | none =>
      rw [hv] at h hm
      simp only [List.not_mem_nil, false_or] at hm
      exact changesLoop_stores rest r h m hm hu
    | some value =>
      rw [hv] at h hm
      simp only at h hm ⊢
      have g1 := (contactsLoop_spec value.contacts r).2.2
      have g2 := (messagesLoop_grows value.display_phone_number value.messages
        (contactsLoop value.contacts r)).1
      have hs3 := statusesLoop_spec value.statuses
        (messagesLoop value.display_phone_number value.messages
          (contactsLoop value.contacts r))
      cases hr2 : (messagesLoop value.display_phone_number value.messages
          (contactsLoop value.contacts r)).raised with
      | true => rw [hr2] at h; simp only [if_true] at h; rw [hr2] at h; cases h
      | false =>
        rw [hr2] at h
        simp only [Bool.false_eq_true, if_false] at h ⊢
        have hr3 : (statusesLoop value.statuses
            (messagesLoop value.display_phone_number value.messages
              (contactsLoop value.contacts r))).raised = false := by rw [hs3.1, hr2]
        rw [hr3] at h ⊢
        simp only [Bool.false_eq_true, if_false] at h ⊢
        rcases hm with hm | hm
        · have hstored := messagesLoop_stores value.display_phone_number value.messages
            (contactsLoop value.contacts r) hr2 m hm (g1.1 _ hu)
          exact (changesLoop_grows rest _).2 _ (hs3.2.2.1.2 _ hstored)
        · exact changesLoop_stores rest _ h m hm (hs3.2.2.1.1 _ (g2.1 _ (g1.1 _ hu)))

theorem changesLoop_no_raise : ∀ (changes : List Change) (r : PayloadResult),
    r.raised = false → NamedUsers r.state →
    (∀ c ∈ (changes.map changeContacts).flatten, c.wellFormed = true) →
    (∀ m ∈ (changes.map changeMessages).flatten, m.wellFormed = true) →
    (changesLoop changes r).raised = false
  | [], _, h, _, _, _ => h
  | change :: rest, r, h, hn, hc, hw => by
    unfold changesLoop
    simp only [List.map_cons, List.flatten_cons, List.mem_append] at hw hc
    unfold changeMessages at hw
    unfold changeContacts at hc
    cases hv : (if change.field = str "messages" then change.value else none) with
    | none =>
      rw [hv] at hw hc
      exact changesLoop_no_raise rest r h hn (fun c hm => hc c (Or.inr hm))
        (fun m hm => hw m (Or.inr hm))
    | some value =>
      rw [hv] at hw hc
      simp only at hw hc ⊢
      have hs1 := contactsLoop_spec value.contacts r
      have n1 := contactsLoop_named value.contacts r (fun c h => hc c (Or.inl h)) hn
      have hs3 := statusesLoop_spec value.statuses
        (messagesLoop value.display_phone_number value.messages
          (contactsLoop value.contacts r))
      have hr2 := messagesLoop_no_raise value.display_phone_number value.messages
        (contactsLoop value.contacts r) (by rw [hs1.1, h]) n1
        (fun m hm => hw m (Or.inl hm))
      have hr3 : (statusesLoop value.statuses
          (messagesLoop value.display_phone_number value.messages
            (contactsLoop value.contacts r))).raised = false := by rw [hs3.1, hr2]
      have n3 : NamedUsers (statusesLoop value.statuses
          (messagesLoop value.display_phone_number value.messages
            (contactsLoop value.contacts r))).state :=
        NamedUsers.of_users hs3.2.2.2
          (NamedUsers.of_users (messagesLoop_grows value.display_phone_number value.messages
            (contactsLoop value.contacts r)).2 n1)
      rw [hr2]
      simp only [Bool.false_eq_true, if_false]
      rw [hr3]
      simp only [Bool.false_eq_true, if_false]
      exact changesLoop_no_raise rest _ hr3 n3 (fun c hm => hc c (Or.inr hm))
        (fun m hm => hw m (Or.inr hm))

theorem entriesLoop_grows : ∀ (entries : List Entry) (r : PayloadResult),
    Grows r.state (entriesLoop entries r).state
  | [], r => Grows.refl _
  | entry :: rest, r => by
    unfold entriesLoop
    simp only
    split
    · exact changesLoop_grows entry.changes r
    · exact (changesLoop_grows entry.changes r).trans (entriesLoop_grows rest _)

theorem entriesLoop_named : ∀ (entries : List Entry) (r : PayloadResult),
    (∀ c ∈ (entries.map (fun entry => (entry.changes.map changeContacts).flatten)).flatten,
      c.wellFormed = true) →
    NamedUsers r.state → NamedUsers (entriesLoop entries r).state
  | [], _, _, hn => hn
  | entry :: rest, r, hc, hn => by
    unfold entriesLoop
    simp only [List.map_cons, List.flatten_cons, List.mem_append] at hc ⊢
    have n1 := changesLoop_named entry.changes r (fun c h => hc c (Or.inl h)) hn
    split
    · exact n1
    · exact entriesLoop_named rest _ (fun c h => hc c (Or.inr h)) n1

theorem entriesLoop_stores : ∀ (entries : List Entry) (r : PayloadResult),
    (entriesLoop entries r).raised = false →
    ∀ m ∈ (entries.map (fun entry => (entry.changes.map changeMessages).flatten)).flatten,
      (User.findOne r.state m.sender).isSome = true →
      (Message.findOne (entriesLoop entries r).state m.id).isSome = true
  | [], _, _ => fun m hm => absurd hm (by simp)
  | entry :: rest, r, h => by
    unfold entriesLoop at h ⊢
    simp only at h ⊢
    intro m hm hu
    simp only [List.map_cons, List.flatten_cons, List.mem_append] at hm
    cases hr : (changesLoop entry.changes r).raised with
    | true => rw [hr] at h; simp only [if_true] at h; rw [hr] at h; cases h
    | false =>
      rw [hr] at h
      simp only [Bool.false_eq_true, if_false] at h ⊢
      rcases hm with hm | hm
      · exact (entriesLoop_grows rest _).2 _ (changesLoop_stores entry.changes r hr m hm hu)
      · exact entriesLoop_stores rest _ h m hm ((changesLoop_grows entry.changes r).1 _ hu)

theorem entriesLoop_no_raise : ∀ (entries : List Entry) (r : PayloadResult),
    r.raised = false → NamedUsers r.state →
    (∀ c ∈ (entries.map (fun entry => (entry.changes.map changeContacts).flatten)).flatten,
      c.wellFormed = true) →
    (∀ m ∈ (entries.map (fun entry => (entry.changes.map changeMessages).flatten)).flatten,
      m.wellFormed = true) →
    (entriesLoop entries r).raised = false
  | [], _, h, _, _, _ => h
  | entry :: rest, r, h, hn, hc, hw => by
    unfold entriesLoop
    simp only [List.map_cons, List.flatten_cons, List.mem_append] at hw hc ⊢
    have hr := changesLoop_no_raise entry.changes r h hn (fun c hm => hc c (Or.inl hm))
      (fun m hm => hw m (Or.inl hm))
    rw [hr]
    simp only [Bool.false_eq_true, if_false]
    exact entriesLoop_no_raise rest _ hr
      (changesLoop_named entry.changes r (fun c hm => hc c (Or.inl hm)) hn)
      (fun c hm => hc c (Or.inr hm)) (fun m hm => hw m (Or.inr hm))

/-- What `processSinglePayload` guarantees: nothing gets lost; well-formed
contacts leave the users with names; when it returns, every message entry of a
sender known before is stored; and it returns when the users have names and
every contact and message entry is well-formed. -/
theorem processSinglePayload_spec (payload : WebhookPayload) (s : State) :
    Grows s (PayloadProcessor.processSinglePayload payload s).state ∧
    ((∀ c ∈ payloadContacts payload, c.wellFormed = true) → NamedUsers s →
      NamedUsers (PayloadProcessor.processSinglePayload payload s).state) ∧
    ((PayloadProcessor.processSinglePayload payload s).raised = false →
      ∀ m ∈ payloadMessages payload, (User.findOne s m.sender).isSome = true →
        (Message.findOne (PayloadProcessor.processSinglePayload payload s).state m.id).isSome
          = true) ∧
    (NamedUsers s → (∀ c ∈ payloadContacts payload, c.wellFormed = true) →
      (∀ m ∈ payloadMessages payload, m.wellFormed = true) →
      (PayloadProcessor.processSinglePayload payload s).raised = false) :=
  ⟨entriesLoop_grows payload.entry { state := s },
    entriesLoop_named payload.entry { state := s },
    entriesLoop_stores payload.entry { state := s },
    entriesLoop_no_raise payload.entry { state := s } rfl⟩

theorem payloadsLoop_grows_from : ∀ (payloads : List WebhookPayload) (b : BatchRun)
    (s0 : State), Grows s0 b.state → Grows s0 (payloadsLoop payloads b).state
  | [], _, _, h => h
  | payload :: rest, b, s0, h => by
    unfold payloadsLoop
    simp only
    split
    · exact payloadsLoop_grows_from rest _ s0
        (h.trans (processSinglePayload_spec payload b.state).1)
    · exact payloadsLoop_grows_from rest _ s0
        (h.trans (processSinglePayload_spec payload b.state).1)

theorem payloadsLoop_grows (payloads : List WebhookPayload) (b : BatchRun) :
    Grows b.state (payloadsLoop payloads b).state :=
  payloadsLoop_grows_from payloads b b.state (Grows.refl _)

/-- Every payload of the loop is counted once, as processed or as an error. -/
theorem payloadsLoop_counts : ∀ (payloads : List WebhookPayload) (b : BatchRun),
    (payloadsLoop payloads b).results.processed + (payloadsLoop payloads b).results.errors =
      b.results.processed + b.results.errors + payloads.length
  | [], b => rfl
  | payload :: rest, b => by
    unfold payloadsLoop
    simp only
    split
    · rw [payloadsLoop_counts rest]
      simp only [List.length_cons]
      omega
    · rw [payloadsLoop_counts rest]
      simp only [List.length_cons]
      omega

/-- A payload of the loop with well-formed message entries gets each of them
stored when its sender was known at the start, whatever the message entries of
the other payloads do, the contacts of the loop being well-formed. -/
theorem payloadsLoop_stores : ∀ (payloads : List WebhookPayload) (b : BatchRun),
    NamedUsers b.state →
    (∀ q ∈ payloads, ∀ c ∈ payloadContacts q, c.wellFormed = true) →
    ∀ p ∈ payloads, (∀ m ∈ payloadMessages p, m.wellFormed = true) →
      ∀ m ∈ payloadMessages p, (User.findOne b.state m.sender).isSome = true →
        (Message.findOne (payloadsLoop payloads b).state m.id).isSome = true
  | [], _, _, _ => fun p hp => absurd hp (List.not_mem_nil p)
  | payload :: rest, b, hn, hc => by
    intro p hp hw m hm hu
    have hspec := processSinglePayload_spec payload b.state
    have hcp := hc payload (List.mem_cons_self _ _)
    have hn1 := hspec.2.1 hcp hn
    have hcr : ∀ q ∈ rest, ∀ c ∈ payloadContacts q, c.wellFormed = true :=
      fun q hq => hc q (List.mem_cons_of_mem _ hq)
    unfold payloadsLoop
    simp only
    rcases List.mem_cons.mp hp with hp | hp
    · subst hp
      have hr := hspec.2.2.2 hn hcp hw
      rw [hr]
      simp only [Bool.false_eq_true, if_false]
      exact (payloadsLoop_grows rest _).2 _ (hspec.2.2.1 hr m hm hu)
    · split
      · exact payloadsLoop_stores rest _ hn1 hcr p hp hw m hm (hspec.1.1 _ hu)
      · exact payloadsLoop_stores rest _ hn1 hcr p hp hw m hm (hspec.1.1 _ hu)

/-- A message entry that throws ends the loop over the messages: the entries
after it are not read and the state is as it was. -/
theorem messagesLoop_raise (display_phone_number : Option JSString) (m : MessageData)
    (rest : List MessageData) (r : PayloadResult)
    (h : (PayloadProcessor.processMessage m display_phone_number r.state).raised = true) :
    messagesLoop display_phone_number (m :: rest) r = { r with raised := true } := by
  unfold messagesLoop
  simp only [h, if_true]
  rw [PayloadProcessor_raised_state m display_phone_number r.state h]

/-- A batch of one unprocessed payload that throws: one error, the payload
not marked. -/
theorem processWebhookPayloads_single_raise (p : WebhookPayload) (s : State)
    (hp : p.processed = false)
    (h : (PayloadProcessor.processSinglePayload p s).raised = true) :
    PayloadProcessor.processWebhookPayloads [p] s =
      { results := { errors := 1 }, payloads := [p],
        state := (PayloadProcessor.processSinglePayload p s).state } := by
  unfold PayloadProcessor.processWebhookPayloads
  simp only [List.filter, hp, Bool.not_false, payloadsLoop, h, if_true]

/-- C22: `processSinglePayload` on a payload whose only message comes from an
unknown sender returns the counter `messages = 1` and creates no row; on a
payload that holds the same message twice it returns `messages = 2` and creates
one row: the counter counts the entries read, skipped ones included. -/
theorem processSinglePayload_counts_skipped :
    (PayloadProcessor.processSinglePayload (Sample.payloadOf (str "p1") [Sample.stranger])
      Sample.store) = { raised := false, users := 0, messages := 1, state := Sample.store } ∧
    (PayloadProcessor.processSinglePayload
      (Sample.payloadOf (str "p2") [Sample.incoming, Sample.incoming]) Sample.store).messages
      = 2 ∧
    (PayloadProcessor.processSinglePayload
      (Sample.payloadOf (str "p2") [Sample.incoming, Sample.incoming])
      Sample.store).state.messages.length = Sample.store.messages.length + 1 := by
  decide

/-- C23, as the code has it: in a batch of two payloads, the first entry of
the first payload has no numeric timestamp and makes `processMessage` throw;
the second entry of that payload, well-formed and from Alice, is then never
stored and the payload stays unprocessed, while the second payload is
processed and the counters are returned. -/
theorem failing_entry_aborts_its_payload :
    Sample.incoming.wellFormed = true ∧
    (User.findOne Sample.store Sample.incoming.sender).isSome = true ∧
    (PayloadProcessor.processWebhookPayloads
      [Sample.payloadOf (str "p1") [Sample.broken, Sample.incoming],
       Sample.payloadOf (str "p2") [Sample.later]] Sample.store).results =
      { processed := 1, users := 0, messages := 1, errors := 1 } ∧
    Message.findOne (PayloadProcessor.processWebhookPayloads
      [Sample.payloadOf (str "p1") [Sample.broken, Sample.incoming],
       Sample.payloadOf (str "p2") [Sample.later]] Sample.store).state (str "wamid.1") = none ∧
    (Message.findOne (PayloadProcessor.processWebhookPayloads
      [Sample.payloadOf (str "p1") [Sample.broken, Sample.incoming],
       Sample.payloadOf (str "p2") [Sample.later]] Sample.store).state
      (str "wamid.3")).isSome = true ∧
    (PayloadProcessor.processWebhookPayloads
      [Sample.payloadOf (str "p1") [Sample.broken, Sample.incoming],
       Sample.payloadOf (str "p2") [Sample.later]] Sample.store).payloads.map
      (fun p => (p.id, p.processed)) = [(str "p1", false), (str "p2", true)] := by
  decide

/-- C23, amended: `processWebhookPayloads` returns its counters, in which
every unprocessed payload is counted once, as processed or as an error, and no
user and no message is lost. A failing message entry does not touch the other
payloads: when the users have names and every contact entry of the
unprocessed payloads is well-formed (a `wa_id` without surrounding white space,
a name that is not white space only), every message entry of an unprocessed
payload whose message entries are all well-formed (id, sender without
surrounding white space, timestamp of a valid date, listed type) is stored
afterwards when its sender was a user at the start. Within a payload a message
entry that throws ends the loop, the entries after it unread and the state as
it was, and a payload that throws is counted as an error and stays
unprocessed. -/
theorem processWebhookPayloads_isolates (payloads : List WebhookPayload) (s : State)
    (hn : NamedUsers s)
    (hc : ∀ q ∈ payloads, q.processed = false →
      ∀ c ∈ payloadContacts q, c.wellFormed = true) :
    ((PayloadProcessor.processWebhookPayloads payloads s).results.processed +
      (PayloadProcessor.processWebhookPayloads payloads s).results.errors =
      (payloads.filter (fun p => !p.processed)).length) ∧
    Grows s (PayloadProcessor.processWebhookPayloads payloads s).state ∧
    (∀ p ∈ payloads, p.processed = false → (∀ m ∈ payloadMessages p, m.wellFormed = true) →
      ∀ m ∈ payloadMessages p, (User.findOne s m.sender).isSome = true →
        (Message.findOne (PayloadProcessor.processWebhookPayloads payloads s).state
          m.id).isSome = true) ∧
    (∀ (display_phone_number : Option JSString) (m : MessageData) (rest : List MessageData)
      (r : PayloadResult),
      (PayloadProcessor.processMessage m display_phone_number r.state).raised = true →
      messagesLoop display_phone_number (m :: rest) r = { r with raised := true }) ∧
    (∀ p : WebhookPayload, p.processed = false →
      (PayloadProcessor.processSinglePayload p s).raised = true →
      PayloadProcessor.processWebhookPayloads [p] s =
        { results := { errors := 1 }, payloads := [p],
          state := (PayloadProcessor.processSinglePayload p s).state }) := by
  refine ⟨?_, ?_, ?_, messagesLoop_raise, fun p => processWebhookPayloads_single_raise p s⟩
  · unfold PayloadProcessor.processWebhookPayloads
    rw [payloadsLoop_counts]
    simp
  · exact payloadsLoop_grows _ { payloads := payloads, state := s }
  · intro p hp hproc hw m hm hu
    have hmem : ∀ q, q ∈ payloads.filter (fun p => !p.processed) →
        q ∈ payloads ∧ q.processed = false := by
      intro q hq
      have := List.mem_filter.mp hq
      exact ⟨this.1, by simpa using this.2⟩
    exact payloadsLoop_stores _ { payloads := payloads, state := s } hn
      (fun q hq => hc q (hmem q hq).1 (hmem q hq).2) p
      (List.mem_filter.mpr ⟨hp, by simp [hproc]⟩) hw m hm hu

theorem processWebhookPayloads_isolates_witness :
    NamedUsers Sample.store ∧
    (∀ q ∈ [Sample.payloadWith (str "p1") [Sample.dave] [Sample.broken, Sample.incoming],
         Sample.payloadWith (str "p2") [Sample.dave] [Sample.later]],
      q.processed = false → ∀ c ∈ payloadContacts q, c.wellFormed = true) ∧
    (Message.findOne (PayloadProcessor.processWebhookPayloads
      [Sample.payloadWith (str "p1") [Sample.dave] [Sample.broken, Sample.incoming],
       Sample.payloadWith (str "p2") [Sample.dave] [Sample.later]] Sample.store).state
      Sample.later.id).isSome = true :=
  ⟨by unfold NamedUsers; decide, by decide,
    (processWebhookPayloads_isolates
      [Sample.payloadWith (str "p1") [Sample.dave] [Sample.broken, Sample.incoming],
       Sample.payloadWith (str "p2") [Sample.dave] [Sample.later]] Sample.store
      (by unfold NamedUsers; decide) (by decide)).2.2.1
      (Sample.payloadWith (str "p2") [Sample.dave] [Sample.later]) (by decide) (by decide)
      (by decide) Sample.later (by decide) (by decide)⟩

end WpWebApp
